import Mathlib

/-!
# spz2glb: SPZ to GLB converter and three-layer verifier

A shallow embedding of `src/spz_to_glb.cpp` (the converter) and
`src/spz_verify.cpp` (the verifier), followed by theorems about them.

Conventions of the embedding:

* a byte is a `UInt8`; `std::vector<uint8_t>`, `std::vector<char>` and the
  contents of a `std::string` are lists of bytes;
* `uint32_t`, `uint64_t` and `size_t` values are natural numbers, reduced
  modulo `2^32` resp. `2^64` at every operation that can wrap; `size_t` and
  `unsigned long` have 64 bits;
* multi-byte fields are decoded little-endian (the layout `memcpy` and
  `istream::read` into a struct give on the platforms the tool targets);
* a C++ exception is the `error` case of `Except`;
* automatic storage that the source leaves uninitialised is an explicit
  argument holding its indeterminate contents;
* the file system, zlib and the glTF exporter are arguments.
-/

namespace Spz2Glb

/-! ## Bytes -/

/-- A byte buffer. -/
abbrev Bytes := List UInt8

/-- The bytes of an ASCII string literal of the source. -/
def ascii (s : String) : Bytes := s.toList.map (fun c => UInt8.ofNat c.toNat)

/-- The `uint32_t` stored little-endian at byte offset `off` of `b`
(a byte beyond the end of `b` counts as 0). -/
def le32 (b : Bytes) (off : Nat) : Nat :=
  (b.getD off 0).toNat + (b.getD (off + 1) 0).toNat * 2 ^ 8 +
    (b.getD (off + 2) 0).toNat * 2 ^ 16 + (b.getD (off + 3) 0).toNat * 2 ^ 24

/-! ## The converter, `spz_to_glb.cpp` -/

/-- The record `struct SpzHeader`. -/
structure SpzHeader where
  magic : Nat
  version : Nat
  numPoints : Nat
  shDegree : UInt8
  fractionalBits : UInt8
  flags : UInt8
  reserved : UInt8
deriving DecidableEq, Repr

/-- The value of `sizeof(SpzHeader)`: three `uint32_t` and four `uint8_t`, no padding. -/
def sizeofSpzHeader : Nat := 4 + 4 + 4 + 1 + 1 + 1 + 1

/-- The effect of `memcpy(&header, data.data(), sizeof(SpzHeader))`. -/
def memcpySpzHeader (data : Bytes) : SpzHeader :=
  { magic := le32 data 0
    version := le32 data 4
    numPoints := le32 data 8
    shDegree := data.getD 12 0
    fractionalBits := data.getD 13 0
    flags := data.getD 14 0
    reserved := data.getD 15 0 }

/-- The function `parseSpzHeader(data, header)`: the returned pair is the `bool` result and
the contents of the out-parameter `header` afterwards. -/
def parseSpzHeader (data : Bytes) (header : SpzHeader) : Bool × SpzHeader :=
  if data.length < sizeofSpzHeader then (false, header)
  else
    let header := memcpySpzHeader data
    if header.magic ≠ 0x5053474e then (false, header)
    else (true, header)

/-- The function `getAccessorCount(shDegree)`. -/
def getAccessorCount (shDegree : Int) : Int :=
  let baseAccessors : Int := 4
  let shAccessors : Int := 0
  let shAccessors := if shDegree ≥ 1 then shAccessors + 3 else shAccessors
  let shAccessors := if shDegree ≥ 2 then shAccessors + 5 else shAccessors
  let shAccessors := if shDegree ≥ 3 then shAccessors + 7 else shAccessors
  baseAccessors + shAccessors

/-- The readable files: `none` when the path cannot be opened or read. -/
abbrev FileSystem := String → Option Bytes

/-- The function `loadSpzFile(spzPath)`: the whole file, or the `std::runtime_error` thrown. -/
def loadSpzFile (fs : FileSystem) (spzPath : String) : Except String Bytes :=
  match fs spzPath with
  | none => .error ("Cannot open SPZ file: " ++ spzPath)
  | some rawBuffer => .ok rawBuffer

/-- The zlib library as seen by `decompressSpzData`. -/
structure Zlib where
  /-- Whether `inflateInit2(&strm, 16 + MAX_WBITS)` returns `Z_OK`. -/
  initOk : Bool
  /-- The outcome of the `do ... while (ret == Z_OK)` loop around `inflate`, whose output
  buffer is doubled whenever it is exhausted: `some out` when the last return value is
  `Z_STREAM_END` and `out` are the `total_out` bytes produced, `none` for any other
  final return value. -/
  inflateAll : Bytes → Option Bytes

/-- The part of `decompressSpzData` after the gzip-magic guard. -/
def inflateGzip (zlib : Zlib) (compressedData : Bytes) : Except String Bytes :=
  if !zlib.initOk then .error "Failed to initialize zlib decompression"
  else
    match zlib.inflateAll compressedData with
    | none => .error "Failed to decompress SPZ file"
    | some decompressed => .ok decompressed

/-- The function `decompressSpzData(compressedData)`. -/
def decompressSpzData (zlib : Zlib) (compressedData : Bytes) : Except String Bytes :=
  if compressedData.length < 2 ∨ compressedData.getD 0 0 ≠ 0x1f ∨
      compressedData.getD 1 0 ≠ 0x8b then
    .ok compressedData
  else inflateGzip zlib compressedData

/-- Modelled from the spec: `fastgltf::AssetInfo`, whose declaration is not under `src/`;
the fields are the ones the converter assigns. -/
structure AssetInfo where
  gltfVersion : String
  copyright : String
  generator : String
deriving DecidableEq, Repr

/-- Modelled from the spec: `fastgltf::Buffer` holding a `sources::Vector`; one buffer has a
content and a declared length. -/
structure Buffer where
  bytes : Bytes
  byteLength : Nat
deriving DecidableEq, Repr

/-- Modelled from the spec: `fastgltf::BufferView`, a byte range (offset and length) into
the buffer with index `bufferIndex`. -/
structure BufferView where
  bufferIndex : Nat
  byteOffset : Nat
  byteLength : Nat
deriving DecidableEq, Repr

/-- Modelled from the spec: `fastgltf::PrimitiveType`, the glTF primitive topologies. -/
inductive PrimitiveType where
  | Points | Lines | LineLoop | LineStrip | Triangles | TriangleStrip | TriangleFan
deriving DecidableEq, Repr

/-- Modelled from the spec: `fastgltf::GaussianSplatSpzCompression`, the extension-specific
reference to a buffer view. -/
structure GaussianSplatSpzCompression where
  bufferView : Nat
deriving DecidableEq, Repr

/-- Modelled from the spec: `fastgltf::GaussianSplatExtension`. -/
structure GaussianSplatExtension where
  spzCompression : Option GaussianSplatSpzCompression
deriving DecidableEq, Repr

/-- Modelled from the spec: `fastgltf::Primitive`; `attributes` are the standard vertex
attributes (name and accessor index), empty in a fresh primitive. -/
structure Primitive where
  type : PrimitiveType
  attributes : List (String × Nat)
  gaussianSplat : Option GaussianSplatExtension
deriving DecidableEq, Repr

/-- Modelled from the spec: `fastgltf::Mesh`. -/
structure Mesh where
  primitives : List Primitive
deriving DecidableEq, Repr

/-- Modelled from the spec: `fastgltf::Node`. -/
structure Node where
  meshIndex : Option Nat
deriving DecidableEq, Repr

/-- Modelled from the spec: `fastgltf::Scene`. -/
structure Scene where
  nodeIndices : List Nat
deriving DecidableEq, Repr

/-- Modelled from the spec: `fastgltf::Asset`, the build-time container asset; every
collection of a fresh asset is empty. `accessors` lists the accessors' element counts. -/
structure Asset where
  assetInfo : Option AssetInfo
  extensionsUsed : List String
  extensionsRequired : List String
  accessors : List Nat
  buffers : List Buffer
  bufferViews : List BufferView
  meshes : List Mesh
  nodes : List Node
  scenes : List Scene
  defaultScene : Option Nat
deriving DecidableEq, Repr

/-- Modelled from the spec: the default-constructed `fastgltf::Asset`. -/
def Asset.empty : Asset :=
  { assetInfo := none, extensionsUsed := [], extensionsRequired := [], accessors := [],
    buffers := [], bufferViews := [], meshes := [], nodes := [], scenes := [],
    defaultScene := none }

/-- The loop of `createGltfAsset` that copies the `uint8_t` vector into a `std::byte`
vector, one `push_back` for each element. -/
def copyToByteData (spzData : Bytes) : Bytes :=
  spzData.foldl (fun byteData b => byteData ++ [b]) []

/-- The function `createGltfAsset(spzData, header)`. -/
def createGltfAsset (spzData : Bytes) (_header : SpzHeader) : Asset :=
  let asset := Asset.empty
  let asset := { asset with extensionsUsed := asset.extensionsUsed ++ ["KHR_gaussian_splatting"] }
  let asset := { asset with
    extensionsUsed := asset.extensionsUsed ++ ["KHR_gaussian_splatting_compression_spz_2"] }
  let asset := { asset with
    extensionsRequired := asset.extensionsRequired ++ ["KHR_gaussian_splatting"] }
  let asset := { asset with
    extensionsRequired :=
      asset.extensionsRequired ++ ["KHR_gaussian_splatting_compression_spz_2"] }
  let asset := { asset with
    assetInfo := some { gltfVersion := "2.0", copyright := "", generator := "spz_to_glb_fastgltf" } }
  let spzSize := spzData.length
  let byteData := copyToByteData spzData
  let buffer : Buffer := { bytes := byteData, byteLength := spzSize }
  let asset := { asset with buffers := asset.buffers ++ [buffer] }
  let spzBufferView : BufferView := { bufferIndex := 0, byteOffset := 0, byteLength := spzSize }
  let asset := { asset with bufferViews := asset.bufferViews ++ [spzBufferView] }
  let spzCompression : GaussianSplatSpzCompression := { bufferView := 0 }
  let gaussianSplat : GaussianSplatExtension := { spzCompression := some spzCompression }
  let primitive : Primitive :=
    { type := PrimitiveType.Points, attributes := [], gaussianSplat := some gaussianSplat }
  let mesh : Mesh := { primitives := [primitive] }
  let asset := { asset with meshes := asset.meshes ++ [mesh] }
  let node : Node := { meshIndex := some 0 }
  let asset := { asset with nodes := asset.nodes ++ [node] }
  let scene : Scene := { nodeIndices := [0] }
  let asset := { asset with scenes := asset.scenes ++ [scene] }
  { asset with defaultScene := some 0 }

/-- Everything outside the converter process that its `main` touches. -/
structure World where
  /-- The readable input files. -/
  files : FileSystem
  /-- The zlib library. -/
  zlib : Zlib
  /-- The call `fastgltf::Exporter::writeGltfBinary(asset)`: the serialised container, or the
  message of the error it reports. -/
  writeGltfBinary : Asset → Except String Bytes
  /-- Whether `std::ofstream file(outputPath, std::ios::binary)` opens. -/
  canOpenOutput : String → Bool
  /-- The indeterminate contents of the local `SpzHeader header;` of `main`. -/
  stackHeader : SpzHeader

/-- What one run of the converter did. -/
structure MainResult where
  /-- The value `main` returns. -/
  exitCode : Nat
  /-- The arguments handed to `createGltfAsset` and the asset it returned, when it was called. -/
  built : Option (Bytes × SpzHeader × Asset)
  /-- The path and the content of the output file, when one was written. -/
  written : Option (String × Bytes)

namespace SpzToGlb

/-- The converter's `main(argc, argv)`; `argv` holds the `argc` arguments, the program name
first. Every exception is caught by the `catch` clause, which returns 1. -/
def main (w : World) (argv : List String) : MainResult :=
  match argv with
  | [_, inputPath, outputPath] =>
    match loadSpzFile w.files inputPath with
    | .error _ => { exitCode := 1, built := none, written := none }
    | .ok spzData =>
      match decompressSpzData w.zlib spzData with
      | .error _ => { exitCode := 1, built := none, written := none }
      | .ok decompressedData =>
        match parseSpzHeader decompressedData w.stackHeader with
        | (false, _) => { exitCode := 1, built := none, written := none }
        | (true, header) =>
          let asset := createGltfAsset spzData header
          match w.writeGltfBinary asset with
          | .error _ =>
            { exitCode := 1, built := some (spzData, header, asset), written := none }
          | .ok output =>
            if !w.canOpenOutput outputPath then
              { exitCode := 1, built := some (spzData, header, asset), written := none }
            else
              { exitCode := 0, built := some (spzData, header, asset),
                written := some (outputPath, output) }
  | _ => { exitCode := 1, built := none, written := none }

end SpzToGlb


/-! ## The verifier, `spz_verify.cpp`: the content digest `Md5Hash` -/

/-- The macro `ROTATE_LEFT(x, n)` on a `uint32_t` operand: `(x << n) | (x >> (32 - n))`. -/
def ROTATE_LEFT (x n : Nat) : Nat := ((x <<< n) % 2 ^ 32) ||| (x >>> (32 - n))

/-- The operator `~` on a `uint32_t`. -/
def not32 (x : Nat) : Nat := 0xffffffff - x % 2 ^ 32

/-- One assignment of `Md5Hash::transform`, in `uint32_t` arithmetic:
`a = ROTATE_LEFT(a + ((b & c) | (~b & d)) + x + k, s) + b`. -/
def roundStep (a b c d x k s : Nat) : Nat :=
  (ROTATE_LEFT ((a + ((b &&& c) ||| (not32 b &&& d)) + x + k) % 2 ^ 32) s + b) % 2 ^ 32

/-- The class `Md5Hash`: the four accumulators `state[0..3]`, the byte counter `count` and
the 64-byte block `buffer` (indexed by offset; only offsets below 64 are ever used). -/
structure Md5Hash where
  state0 : Nat
  state1 : Nat
  state2 : Nat
  state3 : Nat
  count : Nat
  buffer : Nat → UInt8

/-- The word `x[i]` that `transform` assembles from the block:
`buffer[i*4] | (buffer[i*4+1] << 8) | (buffer[i*4+2] << 16) | (buffer[i*4+3] << 24)`. -/
def blockWord (buffer : Nat → UInt8) (i : Nat) : Nat :=
  ((buffer (i * 4)).toNat ||| ((buffer (i * 4 + 1)).toNat <<< 8) |||
    ((buffer (i * 4 + 2)).toNat <<< 16) ||| ((buffer (i * 4 + 3)).toNat <<< 24)) % 2 ^ 32

/-- The method `Md5Hash::init`. -/
def Md5Hash.init (h : Md5Hash) : Md5Hash :=
  { h with state0 := 0x67452301, state1 := 0xefcdab89, state2 := 0x98badcfe,
           state3 := 0x10325476, count := 0 }

/-- The method `Md5Hash::transform`: the sixteen assignments of the source, then the four
additions into `state`. -/
def Md5Hash.transform (h : Md5Hash) : Md5Hash :=
  let a := h.state0
  let b := h.state1
  let c := h.state2
  let d := h.state3
  let x := blockWord h.buffer
  let a := roundStep a b c d (x 0) 0xd76aa478 7
  let d := roundStep d a b c (x 1) 0xe8c7b756 12
  let c := roundStep c d a b (x 2) 0x242070db 17
  let b := roundStep b c d a (x 3) 0xc1bdceee 22
  let a := roundStep a b c d (x 4) 0xf57c0faf 7
  let d := roundStep d a b c (x 5) 0x4787c62a 12
  let c := roundStep c d a b (x 6) 0xa8304613 17
  let b := roundStep b c d a (x 7) 0xfd469501 22
  let a := roundStep a b c d (x 8) 0x698098d8 7
  let d := roundStep d a b c (x 9) 0x8b44f7af 12
  let c := roundStep c d a b (x 10) 0xffff5bb1 17
  let b := roundStep b c d a (x 11) 0x895cd7be 22
  let a := roundStep a b c d (x 12) 0x6b901122 7
  let d := roundStep d a b c (x 13) 0xfd987193 12
  let c := roundStep c d a b (x 14) 0xa679438e 17
  let b := roundStep b c d a (x 15) 0x49b40821 22
  { h with state0 := (h.state0 + a) % 2 ^ 32, state1 := (h.state1 + b) % 2 ^ 32,
           state2 := (h.state2 + c) % 2 ^ 32, state3 := (h.state3 + d) % 2 ^ 32 }

/-- One iteration of the loop of `Md5Hash::update`, for the data byte `b`. -/
def Md5Hash.updateByte (h : Md5Hash) (b : UInt8) : Md5Hash :=
  let h := { h with buffer := Function.update h.buffer (h.count % 64) b }
  let h := { h with count := (h.count + 1) % 2 ^ 64 }
  if h.count % 64 = 0 then h.transform else h

/-- The method `Md5Hash::update(data, len)`, `data` being the `len` bytes passed. -/
def Md5Hash.update (h : Md5Hash) (data : Bytes) : Md5Hash :=
  data.foldl Md5Hash.updateByte h

/-- A lowercase hexadecimal digit, for a value below 16. -/
def hexDigit (n : Nat) : Char :=
  if n < 10 then Char.ofNat (48 + n) else Char.ofNat (87 + n)

/-- The function `bytesToHex(data, len)`: two lowercase hexadecimal digits for each byte. -/
def bytesToHex (data : Bytes) : String :=
  String.mk (data.flatMap fun b => [hexDigit (b.toNat / 16), hexDigit (b.toNat % 16)])

/-- The four bytes of a `uint32_t` in memory (little-endian). -/
def u32Bytes (w : Nat) : Bytes :=
  [UInt8.ofNat w, UInt8.ofNat (w >>> 8), UInt8.ofNat (w >>> 16), UInt8.ofNat (w >>> 24)]

/-- The sixteen bytes at `(uint8_t*)state`. -/
def Md5Hash.stateBytes (h : Md5Hash) : Bytes :=
  u32Bytes h.state0 ++ u32Bytes h.state1 ++ u32Bytes h.state2 ++ u32Bytes h.state3

/-- The array `bits` of `Md5Hash::finalize`: `bits[i] = (count * 8) >> (i * 8)`. -/
def Md5Hash.lengthBits (h : Md5Hash) : Bytes :=
  (List.range 8).map fun i => UInt8.ofNat (((h.count * 8) % 2 ^ 64) >>> (i * 8))

/-- The object after `Md5Hash::finalize` has run. -/
def Md5Hash.finalizeState (h : Md5Hash) : Md5Hash :=
  let bits := h.lengthBits
  let h := h.update [0x80]
  let padLen := if h.count % 64 < 56 then 56 - h.count % 64 else 120 - h.count % 64
  let h := h.update (List.replicate padLen 0)
  h.update bits

/-- The string `Md5Hash::finalize` returns. -/
def Md5Hash.finalize (h : Md5Hash) : String :=
  bytesToHex h.finalizeState.stateBytes

/-- The object declared by `Md5Hash h;`: the member initialisers give `state = {0}` and
`count = 0`, and `buffer` holds the indeterminate bytes `uninit`. -/
def Md5Hash.fresh (uninit : Nat → UInt8) : Md5Hash :=
  { state0 := 0, state1 := 0, state2 := 0, state3 := 0, count := 0, buffer := uninit }

/-- The function `Md5Hash::hash(data, len)`; `uninit` is the indeterminate initial content
of the block buffer of the local object. -/
def Md5Hash.hash (uninit : Nat → UInt8) (data : Bytes) : String :=
  (((Md5Hash.fresh uninit).init).update data).finalize

/-- The value `padLen` of `Md5Hash::finalize`, computed from `count` after the byte `0x80`
has been passed to `update`. -/
def Md5Hash.padLen (h : Md5Hash) : Nat :=
  let h := h.update [0x80]
  if h.count % 64 < 56 then 56 - h.count % 64 else 120 - h.count % 64

/-- The bytes `Md5Hash::finalize` passes to `update`, in the order of its three calls: `pad`,
then `padLen` bytes of `zeros`, then `bits`. -/
def Md5Hash.finalizeInput (h : Md5Hash) : Bytes :=
  [0x80] ++ List.replicate h.padLen 0 ++ h.lengthBits

/-! ## The verifier: `std::string` and `std::ifstream` primitives -/

/-- The constant `std::string::npos`. -/
def npos : Nat := 2 ^ 64 - 1

/-- The search of `std::string::find`: `s` is what is left of the string from index `i` on. -/
def findAt (pat : Bytes) : Bytes → Nat → Nat
  | [], i => if pat = [] then i else npos
  | c :: cs, i => if pat.isPrefixOf (c :: cs) then i else findAt pat cs (i + 1)

/-- The call `s.find(pat, pos)`: the first index at or after `pos` where `pat` occurs. -/
def find (s pat : Bytes) (pos : Nat) : Nat :=
  if pos > s.length then npos else findAt pat (s.drop pos) pos

/-- The first index, counted from `i`, of a character satisfying `p`. -/
def findIf (p : UInt8 → Bool) : Bytes → Nat → Nat
  | [], _ => npos
  | c :: cs, i => if p c then i else findIf p cs (i + 1)

/-- The call `s.find_first_not_of(chars, pos)`. -/
def find_first_not_of (s chars : Bytes) (pos : Nat) : Nat :=
  findIf (fun c => !chars.contains c) (s.drop pos) pos

/-- The call `s.find_first_of(chars, pos)`. -/
def find_first_of (s chars : Bytes) (pos : Nat) : Nat :=
  findIf (fun c => chars.contains c) (s.drop pos) pos

/-- The exceptions the verifier can raise; its `main` catches none of them. -/
inductive Thrown where
  | invalid_argument
  | out_of_range
  | length_error
deriving DecidableEq, Repr

deriving instance DecidableEq for Except

/-- The call `s.substr(pos, n)`: throws `std::out_of_range` when `pos > s.size()`. -/
def substr (s : Bytes) (pos n : Nat) : Except Thrown Bytes :=
  if pos > s.length then .error Thrown.out_of_range else .ok ((s.drop pos).take n)

/-- The predicate `isspace` of the C locale. -/
def isspace (c : UInt8) : Bool := c.toNat == 32 || (9 ≤ c.toNat && c.toNat ≤ 13)

/-- The predicate `isdigit`. -/
def isdigit (c : UInt8) : Bool := 48 ≤ c.toNat && c.toNat ≤ 57

/-- The value of a run of decimal digits. -/
def digitsValue (ds : Bytes) : Nat :=
  ds.foldl (fun acc c => acc * 10 + (c.toNat - 48)) 0

/-- The call `std::stoul(str)` (base 10, 64-bit `unsigned long`): leading white space and
one optional sign are skipped, the longest run of digits is converted and anything after it
is ignored; `std::invalid_argument` when there is no digit, `std::out_of_range` when the
digits exceed `ULONG_MAX`; a minus sign negates modulo `2^64`. -/
def stoul (str : Bytes) : Except Thrown Nat :=
  let s := str.dropWhile isspace
  let signed : Bool × Bytes :=
    match s with
    | 43 :: t => (false, t)
    | 45 :: t => (true, t)
    | _ => (false, s)
  let ds := signed.2.takeWhile isdigit
  if ds = [] then .error Thrown.invalid_argument
  else if digitsValue ds > 2 ^ 64 - 1 then .error Thrown.out_of_range
  else .ok (if signed.1 then (2 ^ 64 - digitsValue ds) % 2 ^ 64 else digitsValue ds)

/-- An open `std::ifstream`: the file's bytes, the get position, and whether `failbit` is set. -/
structure IfStream where
  content : Bytes
  pos : Nat
  failed : Bool

/-- A freshly opened binary input stream. -/
def IfStream.opened (content : Bytes) : IfStream :=
  { content := content, pos := 0, failed := false }

/-- The call `file.read(dst, n)`: the stream afterwards and the bytes stored at `dst`.
A stream that has failed stores nothing; fewer than `n` available bytes are all stored and
set `failbit`. -/
def IfStream.read (f : IfStream) (n : Nat) : IfStream × Bytes :=
  if f.failed then (f, [])
  else
    let got := (f.content.drop f.pos).take n
    ({ f with pos := f.pos + got.length, failed := decide (got.length < n) }, got)

/-- The call `file.seekg(pos)`, a no-op on a failed stream. -/
def IfStream.seekg (f : IfStream) (pos : Nat) : IfStream :=
  if f.failed then f else { f with pos := pos }

/-- The call `file.seekg(off, std::ios::cur)`, a no-op on a failed stream. -/
def IfStream.seekgCur (f : IfStream) (off : Nat) : IfStream :=
  if f.failed then f else { f with pos := f.pos + off }

/-- The storage `old` after the bytes `got` have been stored at its start. -/
def overlay (got old : Bytes) : Bytes := got ++ old.drop got.length

/-- The indeterminate contents of the automatic storage the verifier's layers read into or
hash with before initialising it. -/
structure Uninit where
  /-- The storage of `GlbHeader header;`. -/
  header : Bytes
  /-- The storage of `GlbChunk jsonChunk;`. -/
  jsonChunk : Bytes
  /-- The block buffer of the `Md5Hash` that hashes the original data. -/
  md5Original : Nat → UInt8
  /-- The block buffer of the `Md5Hash` that hashes the extracted data. -/
  md5Extracted : Nat → UInt8

/-- The function `readFileBytes(path, maxSize)`: empty when the file cannot be opened. -/
def readFileBytes (fs : FileSystem) (path : String) (maxSize : Nat) : Bytes :=
  match fs path with
  | none => []
  | some content =>
    let size := content.length
    let size := if maxSize > 0 ∧ size > maxSize then maxSize else size
    content.take size

/-- The JSON text of a layer: `std::string jsonStr(jsonData.data(), chunkLength)`, cut at
its first NUL when it has one. -/
def jsonText (jsonData : Bytes) : Bytes :=
  let jsonStr := jsonData
  let nullPos := find jsonStr [0] 0
  if nullPos ≠ npos then jsonStr.take nullPos else jsonStr

/-! ## The verifier: the three layers -/

/-- The `"attributes"` check of `layer1ValidateGlbStructure` (source lines 120 to 128):
whether the pass counter is incremented for it. -/
def layer1AttributesCheck (jsonStr : Bytes) : Except Thrown Bool := do
  if find jsonStr (ascii "\"attributes\"") 0 ≠ npos then
    let attrsStart := find jsonStr (ascii "\"attributes\"") 0
    let attrsEnd := find jsonStr (ascii "\x7d") attrsStart
    let attrsSection ← substr jsonStr attrsStart ((attrsEnd + 2 ^ 64 - attrsStart) % 2 ^ 64)
    if find attrsSection (ascii ": \x7b\x7d") 0 ≠ npos ∨ find attrsSection (ascii ":\x7b\x7d") 0 ≠ npos
    then pure true
    else pure false
  else pure false

/-- The counters of one run of `layer1ValidateGlbStructure` and the value it returns. -/
structure Layer1Run where
  /-- The final value of `passed`, once the checks have run. -/
  passed : Option Nat
  /-- The value of `total`. -/
  total : Nat
  /-- The value returned. -/
  result : Bool
deriving DecidableEq, Repr

/-- The checks of `layer1ValidateGlbStructure` on the JSON text (source lines 102 to 145). -/
def layer1Checks (jsonStr : Bytes) : Except Thrown Layer1Run := do
  let passed := 0
  let total := 6
  let passed :=
    if find jsonStr (ascii "KHR_gaussian_splatting") 0 ≠ npos then passed + 1 else passed
  let passed :=
    if find jsonStr (ascii "KHR_gaussian_splatting_compression_spz_2") 0 ≠ npos then
      passed + 1
    else passed
  let passed := if find jsonStr (ascii "\"buffers\"") 0 ≠ npos then passed + 1 else passed
  let attributesEmpty ← layer1AttributesCheck jsonStr
  let passed := if attributesEmpty then passed + 1 else passed
  let passed :=
    if find jsonStr (ascii "\"accessors\"") 0 = npos ∨
        find jsonStr (ascii "\"accessors\": []") 0 ≠ npos then passed + 1
    else passed
  return { passed := some passed, total := total, result := decide (passed = total) }

/-- The body of `layer1ValidateGlbStructure(glbPath)`. -/
def layer1Run (fs : FileSystem) (u : Uninit) (glbPath : String) : Except Thrown Layer1Run :=
  match fs glbPath with
  | none => .ok { passed := none, total := 6, result := false }
  | some content =>
    let file := IfStream.opened content
    let (file, got) := file.read 12
    let header := overlay got u.header
    if le32 header 0 ≠ 0x46546C67 then .ok { passed := none, total := 6, result := false }
    else if le32 header 4 ≠ 2 then .ok { passed := none, total := 6, result := false }
    else
      let (file, got) := file.read 8
      let jsonChunk := overlay got u.jsonChunk
      let chunkLength := le32 jsonChunk 0
      let (file, got) := file.read chunkLength
      let jsonData := overlay got (List.replicate chunkLength 0)
      let padding := (4 - chunkLength % 4) % 4
      let _file := file.seekgCur padding
      layer1Checks (jsonText jsonData)

/-- The function `layer1ValidateGlbStructure(glbPath)`. -/
def layer1ValidateGlbStructure (fs : FileSystem) (u : Uninit) (glbPath : String) :
    Except Thrown Bool :=
  (layer1Run fs u glbPath).map Layer1Run.result

/-- The computation of `bufferSize` in `layer2VerifyLossless` (source lines 180 to 188). -/
def layer2BufferSize (jsonStr : Bytes) : Except Thrown Nat := do
  let bufferSize := 0
  let byteLenPos := find jsonStr (ascii "\"byteLength\"") 0
  if byteLenPos ≠ npos then
    let colonPos := find jsonStr (ascii ":") byteLenPos
    let start := find_first_not_of jsonStr (ascii " ") ((colonPos + 1) % 2 ^ 64)
    let end_ := find_first_of jsonStr (ascii ",\x7d") start
    let sizeStr ← substr jsonStr start ((end_ + 2 ^ 64 - start) % 2 ^ 64)
    stoul sizeStr
  else pure bufferSize

/-- The locals of one run of `layer2VerifyLossless` and the value it returns. -/
structure Layer2Run where
  /-- The bytes of the source file. -/
  originalData : Bytes
  /-- The bytes sliced out of the container as the binary chunk, once that point is reached. -/
  extractedData : Option Bytes
  /-- The value returned. -/
  result : Bool
deriving DecidableEq, Repr

/-- The body of `layer2VerifyLossless(spzPath, glbPath)`. A `std::vector<uint8_t>` longer
than `max_size()` (`2^63 - 1`) throws `std::length_error`; any other allocation succeeds. -/
def layer2Run (fs : FileSystem) (u : Uninit) (spzPath glbPath : String) :
    Except Thrown Layer2Run :=
  let originalData := readFileBytes fs spzPath 0
  match fs glbPath with
  | none => .ok { originalData := originalData, extractedData := none, result := false }
  | some content => do
    let file := IfStream.opened content
    let file := file.seekg 12
    let (file, got) := file.read 8
    let jsonChunk := overlay got u.jsonChunk
    let chunkLength := le32 jsonChunk 0
    let (file, got) := file.read chunkLength
    let jsonData := overlay got (List.replicate chunkLength 0)
    let jsonPadding := (4 - chunkLength % 4) % 4
    let file := file.seekgCur jsonPadding
    let jsonStr := jsonText jsonData
    let bufferSize ← layer2BufferSize jsonStr
    let (file, _binChunk) := file.read 8
    if bufferSize > 2 ^ 63 - 1 then throw Thrown.length_error
    let (_file, got) := file.read bufferSize
    let extractedData := overlay got (List.replicate bufferSize 0)
    let originalMd5 := Md5Hash.hash u.md5Original originalData
    let extractedMd5 := Md5Hash.hash u.md5Extracted extractedData
    return { originalData := originalData, extractedData := some extractedData,
             result := decide (originalData.length = extractedData.length ∧
                               originalMd5 = extractedMd5) }

/-- The function `layer2VerifyLossless(spzPath, glbPath)`. -/
def layer2VerifyLossless (fs : FileSystem) (u : Uninit) (spzPath glbPath : String) :
    Except Thrown Bool :=
  (layer2Run fs u spzPath glbPath).map Layer2Run.result

/-- The computation of `bufferSize` in `layer3VerifyDecoding` (source lines 267 to 275). -/
def layer3BufferSize (jsonStr : Bytes) : Except Thrown Nat := do
  let bufferSize := 0
  let byteLenPos := find jsonStr (ascii "\"byteLength\"") 0
  if byteLenPos ≠ npos then
    let colonPos := find jsonStr (ascii ":") byteLenPos
    let start := find_first_not_of jsonStr (ascii " ") ((colonPos + 1) % 2 ^ 64)
    let end_ := find_first_of jsonStr (ascii ",\x7d") start
    let sizeStr ← substr jsonStr start ((end_ + 2 ^ 64 - start) % 2 ^ 64)
    stoul sizeStr
  else pure bufferSize

/-- The checks of `layer3VerifyDecoding` on the JSON text (source lines 260 to 285), for a
source of `spzSize` bytes. -/
def layer3Checks (spzSize : Nat) (jsonStr : Bytes) : Except Thrown Bool := do
  if find jsonStr (ascii "KHR_gaussian_splatting_compression_spz_2") 0 = npos then
    return false
  let bufferSize ← layer3BufferSize jsonStr
  return decide (spzSize = bufferSize)

/-- The function `layer3VerifyDecoding(spzPath, glbPath)`. -/
def layer3VerifyDecoding (fs : FileSystem) (u : Uninit) (spzPath glbPath : String) :
    Except Thrown Bool :=
  let spzData := readFileBytes fs spzPath 0
  let _isGzip : Bool :=
    decide (spzData.length ≥ 2) && spzData.getD 0 0 == 0x1f && spzData.getD 1 0 == 0x8b
  match fs glbPath with
  | none => .ok false
  | some content =>
    let file := IfStream.opened content
    let (file, got) := file.read 12
    let header := overlay got u.header
    if le32 header 0 ≠ 0x46546C67 then .ok false
    else
      let (file, got) := file.read 8
      let jsonChunk := overlay got u.jsonChunk
      let chunkLength := le32 jsonChunk 0
      let (_file, got) := file.read chunkLength
      let jsonData := overlay got (List.replicate chunkLength 0)
      layer3Checks spzData.length (jsonText jsonData)

namespace SpzVerify

/-- The verifier's `main(argc, argv)`: the exit status, or the exception that ends the
process because nothing catches it. -/
def main (fs : FileSystem) (u : Uninit) (argv : List String) : Except Thrown Nat :=
  let argc := argv.length
  if argc < 2 then .ok 1
  else
    let command := argv.getD 1 ""
    if command = "layer1" ∧ argc ≥ 3 then
      (layer1ValidateGlbStructure fs u (argv.getD 2 "")).map fun r => if r then 0 else 1
    else if command = "layer2" ∧ argc ≥ 4 then
      (layer2VerifyLossless fs u (argv.getD 2 "") (argv.getD 3 "")).map
        fun r => if r then 0 else 1
    else if command = "layer3" ∧ argc ≥ 4 then
      (layer3VerifyDecoding fs u (argv.getD 2 "") (argv.getD 3 "")).map
        fun r => if r then 0 else 1
    else if (command = "all" ∨ command = "verify") ∧ argc ≥ 4 then do
      let spzPath := argv.getD 2 ""
      let glbPath := argv.getD 3 ""
      let l1 ← layer1ValidateGlbStructure fs u glbPath
      let l2 ← layer2VerifyLossless fs u spzPath glbPath
      let l3 ← layer3VerifyDecoding fs u spzPath glbPath
      if l1 && l2 && l3 then return 0 else return 1
    else .ok 1

end SpzVerify

/-! ## Vocabulary of the specification -/

/-- The buffer begins with the gzip magic `1F 8B` (so it has at least two bytes). -/
def startsWithGzipMagic (b : Bytes) : Prop := ∃ rest, b = 0x1f :: 0x8b :: rest

/-- The decimal numeral of `n`, as ASCII bytes. -/
def decimal (n : Nat) : Bytes := ascii (toString n)

/-- Two digest objects agree: same accumulators, same count, and the same block bytes below
the fill position `count % 64`. -/
def Md5Hash.Agree (h1 h2 : Md5Hash) : Prop :=
  h1.state0 = h2.state0 ∧ h1.state1 = h2.state1 ∧ h1.state2 = h2.state2 ∧
  h1.state3 = h2.state3 ∧ h1.count = h2.count ∧
  ∀ i, i < h1.count % 64 → h1.buffer i = h2.buffer i

/-- The bytes a stream can still deliver: nothing once `failbit` is set, otherwise what
follows the get position. -/
def IfStream.rest (f : IfStream) : Bytes :=
  if f.failed then [] else f.content.drop f.pos

/-- The JSON chunk of a container file: the bytes that follow the 12-byte header and the
8-byte chunk header, as many as the chunk length stored at offset 12 says (fewer when the
file ends before). -/
def glbJsonChunk (content : Bytes) : Bytes := (content.drop 20).take (le32 content 12)

/-- The JSON text of a container file: its JSON chunk up to the first NUL. -/
def glbJsonText (content : Bytes) : Bytes := jsonText (glbJsonChunk content)

/-- The binary chunk of a container file as Layer 2 slices it for a declared size `n`: the
`n` bytes (fewer when the file ends before) that follow the JSON chunk, its padding to a
multiple of 4 and the 8-byte binary chunk header. -/
def glbBinarySlice (content : Bytes) (n : Nat) : Bytes :=
  (content.drop (20 + le32 content 12 + (4 - le32 content 12 % 4) % 4 + 8)).take n

/-- The additive constant of assignment number `i` (from 0) of `Md5Hash::transform`. -/
def transformConstant (i : Nat) : Nat :=
  match i with
  | 0 => 0xd76aa478
  | 1 => 0xe8c7b756
  | 2 => 0x242070db
  | 3 => 0xc1bdceee
  | 4 => 0xf57c0faf
  | 5 => 0x4787c62a
  | 6 => 0xa8304613
  | 7 => 0xfd469501
  | 8 => 0x698098d8
  | 9 => 0x8b44f7af
  | 10 => 0xffff5bb1
  | 11 => 0x895cd7be
  | 12 => 0x6b901122
  | 13 => 0xfd987193
  | 14 => 0xa679438e
  | _ => 0x49b40821

/-- The rotation amount of assignment number `i` of `Md5Hash::transform`: 7, 12, 17, 22 in
turn. -/
def transformShift (i : Nat) : Nat :=
  match i % 4 with
  | 0 => 7
  | 1 => 12
  | 2 => 17
  | _ => 22

/-- Assignment number `i` of `Md5Hash::transform` on the four local registers, listed
starting from the one that is assigned: the assigned register takes the second place of the
result, so that the register assigned next stands first again. -/
def transformStep (x : Nat → Nat) (i : Nat) (r : Nat × Nat × Nat × Nat) :
    Nat × Nat × Nat × Nat :=
  (r.2.2.2,
    roundStep r.1 r.2.1 r.2.2.1 r.2.2.2 (x i) (transformConstant i) (transformShift i),
    r.2.1, r.2.2.1)

/-- The assignments number `i`, `i + 1`, ..., `i + n - 1` of `Md5Hash::transform`. -/
def transformSteps (x : Nat → Nat) : Nat → Nat → Nat × Nat × Nat × Nat → Nat × Nat × Nat × Nat
  | _, 0, r => r
  | i, n + 1, r => transformSteps x (i + 1) n (transformStep x i r)

/-- The 64-byte block whose first bytes are `data` and whose other bytes are those of
`buffer`. -/
def blockOf (data : Bytes) (buffer : Nat → UInt8) : Nat → UInt8 :=
  fun i => data.getD i (buffer i)

/-- The array `state` of a digest object, as a tuple. -/
def Md5Hash.accumulators (h : Md5Hash) : Nat × Nat × Nat × Nat :=
  (h.state0, h.state1, h.state2, h.state3)

/-! ## Concrete inputs used by the examples -/

/-- A header value with every field zero. -/
def zeroHeader : SpzHeader :=
  { magic := 0, version := 0, numPoints := 0, shDegree := 0, fractionalBits := 0,
    flags := 0, reserved := 0 }

/-- Twelve bytes: the magic `0x5053474E`, version 2 and 100 points, and nothing after them. -/
def twelveByteBuffer : Bytes := [0x4e, 0x47, 0x53, 0x50, 2, 0, 0, 0, 100, 0, 0, 0]

/-- A complete sixteen-byte header: magic, version 2, 100 points, degree 0, 12 fractional
bits, flags 0, reserved 0. -/
def sixteenByteHeader : Bytes :=
  [0x4e, 0x47, 0x53, 0x50, 2, 0, 0, 0, 100, 0, 0, 0, 0, 12, 0, 0]

/-- The record `sixteenByteHeader` decodes to. -/
def decodedHeader : SpzHeader :=
  { magic := 0x5053474e, version := 2, numPoints := 100, shDegree := 0, fractionalBits := 12,
    flags := 0, reserved := 0 }

/-- A file that starts with the gzip magic. -/
def gzipFile : Bytes := [0x1f, 0x8b, 8, 0, 0, 0, 0, 0, 0, 3, 1, 2, 3]

/-- A world in which `in.spz` is `gzipFile`, zlib inflates everything to
`sixteenByteHeader`, the exporter returns an empty container and every output opens. -/
def gzipWorld : World :=
  { files := fun p => if p = "in.spz" then some gzipFile else none
    zlib := { initOk := true, inflateAll := fun _ => some sixteenByteHeader }
    writeGltfBinary := fun _ => .ok []
    canOpenOutput := fun _ => true
    stackHeader := zeroHeader }

/-- A world in which `in.spz` is `twelveByteBuffer`. -/
def shortWorld : World :=
  { files := fun p => if p = "in.spz" then some twelveByteBuffer else none
    zlib := { initOk := true, inflateAll := fun _ => some sixteenByteHeader }
    writeGltfBinary := fun _ => .ok []
    canOpenOutput := fun _ => true
    stackHeader := zeroHeader }

/-- Sixteen bytes whose first four do not decode to the magic (`glTF` instead of `NGSP`). -/
def badMagicFile : Bytes :=
  [0x67, 0x6c, 0x54, 0x46, 2, 0, 0, 0, 100, 0, 0, 0, 0, 12, 0, 0]

/-- A world in which `in.spz` is `badMagicFile`. -/
def badMagicWorld : World :=
  { files := fun p => if p = "in.spz" then some badMagicFile else none
    zlib := { initOk := true, inflateAll := fun _ => some sixteenByteHeader }
    writeGltfBinary := fun _ => .ok []
    canOpenOutput := fun _ => true
    stackHeader := zeroHeader }

/-- An indeterminate storage content, fixed for the examples. -/
def someUninit : Uninit :=
  { header := [1, 2, 3], jsonChunk := [], md5Original := fun _ => 0,
    md5Extracted := fun _ => 0xff }

/-- The JSON text `{"buffers":[{"byteLength":16}]}` (31 bytes). -/
def smallJson : Bytes := ascii "\x7b\"buffers\":[\x7b\"byteLength\":16\x7d]\x7d"

/-- A container embedding `sixteenByteHeader`: the 12-byte header, the JSON chunk header
with length 31, `smallJson`, one padding byte, the binary chunk header and the payload. -/
def smallContainer : Bytes :=
  [0x67, 0x6c, 0x54, 0x46, 2, 0, 0, 0, 76, 0, 0, 0] ++
    (u32Bytes 31 ++ [0x4a, 0x53, 0x4f, 0x4e]) ++ smallJson ++ [0x20] ++
    [16, 0, 0, 0, 0x42, 0x49, 0x4e, 0] ++ sixteenByteHeader

/-- The files `small.spz` and `small.glb`. -/
def smallFiles : FileSystem := fun p =>
  if p = "small.spz" then some sixteenByteHeader
  else if p = "small.glb" then some smallContainer
  else none

/-- A 1 KiB source that is not gzip-wrapped: the valid header `sixteenByteHeader`
(`numPoints = 100`, `shDegree = 0`) followed by 1008 payload bytes. -/
def kibSource : Bytes := sixteenByteHeader ++ List.replicate 1008 0x5a

/-- The part of the JSON text of the 1 KiB container before its first `"byteLength"` key. -/
def kibJsonHead : Bytes := ascii
   ("\x7b\"asset\":\x7b\"generator\":\"spz_to_glb_fastgltf\",\"version\":\"2.0\"\x7d,\"buffers\"" ++
    ":[\x7b")

/-- The part of the JSON text of the 1 KiB container after `"byteLength":1024}`. -/
def kibJsonTail : Bytes := ascii
   ("],\"bufferViews\":[\x7b\"buffer\":0,\"byteLength\":1024\x7d],\"extensionsUsed\":[\"KH" ++
    "R_gaussian_splatting\",\"KHR_gaussian_splatting_compression_spz_2\"],\"ext" ++
    "ensionsRequired\":[\"KHR_gaussian_splatting\",\"KHR_gaussian_splatting_com" ++
    "pression_spz_2\"],\"meshes\":[\x7b\"primitives\":[\x7b\"attributes\":\x7b\x7d,\"mode\":0,\"e" ++
    "xtensions\":\x7b\"KHR_gaussian_splatting\":\x7b\"extensions\":\x7b\"KHR_gaussian_spla" ++
    "tting_compression_spz_2\":\x7b\"bufferView\":0\x7d\x7d\x7d\x7d\x7d]\x7d],\"nodes\":[\x7b\"mesh\":0\x7d]," ++
    "\"scene\":0,\"scenes\":[\x7b\"nodes\":[0]\x7d]\x7d  ")

/-- The JSON chunk of the 1 KiB container (548 bytes, a multiple of 4): both extension
identifiers, a `"buffers"` key, `"attributes":{}`, no accessors, `"byteLength":1024`. -/
def kibJson : Bytes :=
  kibJsonHead ++ ascii "\"byteLength\"" ++ ascii ":" ++ [] ++ decimal 1024 ++ [125] ++
    kibJsonTail

/-- The well-formed container embedding `kibSource`. -/
def kibContainer : Bytes :=
  (u32Bytes 0x46546C67 ++ u32Bytes 2 ++ u32Bytes 1600) ++
    (u32Bytes kibJson.length ++ [0x4a, 0x53, 0x4f, 0x4e]) ++ kibJson ++ [] ++
    (u32Bytes 1024 ++ [0x42, 0x49, 0x4e, 0]) ++ kibSource

/-- The files `model.spz` and `model.glb`. -/
def kibFiles : FileSystem := fun p =>
  if p = "model.spz" then some kibSource
  else if p = "model.glb" then some kibContainer
  else none

/-- The container `smallContainer` with its magic zeroed and its version set to 3. -/
def badHeaderContainer : Bytes :=
  [0, 0, 0, 0, 3, 0, 0, 0, 76, 0, 0, 0] ++
    (u32Bytes 31 ++ [0x4a, 0x53, 0x4f, 0x4e]) ++ smallJson ++ [0x20] ++
    [16, 0, 0, 0, 0x42, 0x49, 0x4e, 0] ++ sixteenByteHeader

/-- The container `kibContainer` with its version set to 3. -/
def kibContainerV3 : Bytes :=
  (u32Bytes 0x46546C67 ++ u32Bytes 3 ++ u32Bytes 1600) ++
    (u32Bytes kibJson.length ++ [0x4a, 0x53, 0x4f, 0x4e]) ++ kibJson ++ [] ++
    (u32Bytes 1024 ++ [0x42, 0x49, 0x4e, 0]) ++ kibSource

/-- The container `kibContainer` with the last byte of its binary chunk changed. -/
def kibCorrupted : Bytes :=
  (u32Bytes 0x46546C67 ++ u32Bytes 2 ++ u32Bytes 1600) ++
    (u32Bytes kibJson.length ++ [0x4a, 0x53, 0x4f, 0x4e]) ++ kibJson ++
    ((u32Bytes 1024 ++ [0x42, 0x49, 0x4e, 0]) ++ sixteenByteHeader ++
      List.replicate 1007 0x5a ++ [0x5b])

/-- The JSON text of a container that declares a buffer of 0 bytes (92 bytes of JSON, no payload). -/
def emptyPayloadJson : Bytes := ascii
   ("\x7b\"extensionsUsed\":[\"KHR_gaussian_splatting_compression_spz_2" ++
    "\"],\"buffers\":[\x7b\"byteLength\":0\x7d]\x7d")

/-- The container with the JSON text `emptyPayloadJson` and an empty binary chunk. -/
def emptyPayloadContainer : Bytes :=
  (u32Bytes 0x46546C67 ++ u32Bytes 2 ++ u32Bytes 120) ++
    (u32Bytes 92 ++ [0x4a, 0x53, 0x4f, 0x4e]) ++ emptyPayloadJson ++
    (u32Bytes 0 ++ [0x42, 0x49, 0x4e, 0])

/-- The JSON text of a container whose `"byteLength"` value is `null` (96 bytes of JSON, no payload). -/
def nullLengthJson : Bytes := ascii
   ("\x7b\"extensionsUsed\":[\"KHR_gaussian_splatting_compression_spz_2" ++
    "\"],\"buffers\":[\x7b\"byteLength\":null\x7d]\x7d ")

/-- The container with the JSON text `nullLengthJson` and an empty binary chunk. -/
def nullLengthContainer : Bytes :=
  (u32Bytes 0x46546C67 ++ u32Bytes 2 ++ u32Bytes 124) ++
    (u32Bytes 96 ++ [0x4a, 0x53, 0x4f, 0x4e]) ++ nullLengthJson ++
    (u32Bytes 0 ++ [0x42, 0x49, 0x4e, 0])

/-- The JSON text of a container without any `"byteLength"` key (64 bytes of JSON, no payload). -/
def noLengthJson : Bytes := ascii
   ("\x7b\"extensionsUsed\":[\"KHR_gaussian_splatting_compression_spz_2" ++
    "\"]\x7d ")

/-- The container with the JSON text `noLengthJson` and an empty binary chunk. -/
def noLengthContainer : Bytes :=
  (u32Bytes 0x46546C67 ++ u32Bytes 2 ++ u32Bytes 92) ++
    (u32Bytes 64 ++ [0x4a, 0x53, 0x4f, 0x4e]) ++ noLengthJson ++
    (u32Bytes 0 ++ [0x42, 0x49, 0x4e, 0])

/-- The files of the verifier examples; `missing.spz` does not exist and `empty.spz` has no
bytes. -/
def verifierFiles : FileSystem := fun p =>
  if p = "small.spz" then some sixteenByteHeader
  else if p = "model.spz" then some kibSource
  else if p = "empty.spz" then some []
  else if p = "model.glb" then some kibContainer
  else if p = "bad.glb" then some badHeaderContainer
  else if p = "v3.glb" then some kibContainerV3
  else if p = "corrupt.glb" then some kibCorrupted
  else if p = "empty.glb" then some emptyPayloadContainer
  else if p = "null.glb" then some nullLengthContainer
  else if p = "nolength.glb" then some noLengthContainer
  else none

/-- The JSON text of a container whose `"byteLength"` value is the number `1e3`, that is
1000 (96 bytes of JSON). -/
def expLengthJson : Bytes := ascii
   ("\x7b\"extensionsUsed\":[\"KHR_gaussian_splatting_compression_spz_2" ++
    "\"],\"buffers\":[\x7b\"byteLength\":1e3\x7d]\x7d  ")

/-- The container with the JSON text `expLengthJson` and an empty binary chunk. -/
def expLengthContainer : Bytes :=
  (u32Bytes 0x46546C67 ++ u32Bytes 2 ++ u32Bytes 124) ++
    (u32Bytes 96 ++ [0x4a, 0x53, 0x4f, 0x4e]) ++ expLengthJson ++
    (u32Bytes 0 ++ [0x42, 0x49, 0x4e, 0])

/-! ## Theorems: the converter -/

theorem copyToByteData_aux (acc P : Bytes) :
    P.foldl (fun byteData b => byteData ++ [b]) acc = acc ++ P := by
  induction P generalizing acc with
  | nil => simp
  | cons b P ih => simp [ih]

theorem copyToByteData_eq (P : Bytes) : copyToByteData P = P := by
  simp [copyToByteData, copyToByteData_aux]

theorem createGltfAsset_buffers (P : Bytes) (header : SpzHeader) :
    (createGltfAsset P header).buffers = [{ bytes := P, byteLength := P.length }] := by
  simp [createGltfAsset, Asset.empty, copyToByteData_eq]

/-- Claim C1: for every payload `P` (the empty one included) and every header, the asset
built by `createGltfAsset` has one buffer, holding exactly the bytes of `P` in order with
`byteLength = |P|`, and one buffer view with buffer index 0, offset 0 and length `|P|`. -/
theorem createGltfAsset_payload_identity (P : Bytes) (header : SpzHeader) :
    (createGltfAsset P header).buffers = [{ bytes := P, byteLength := P.length }] ∧
    (createGltfAsset P header).bufferViews =
      [{ bufferIndex := 0, byteOffset := 0, byteLength := P.length }] := by
  refine ⟨createGltfAsset_buffers P header, ?_⟩
  simp [createGltfAsset, Asset.empty]

theorem not_gzip_passthrough (zlib : Zlib) (b : Bytes) (h : ¬ startsWithGzipMagic b) :
    decompressSpzData zlib b = .ok b := by
  unfold decompressSpzData
  rw [if_pos]
  by_contra hc
  apply h
  match b, hc with
  | [], hc => simp at hc
  | [x], hc => simp at hc
  | x :: y :: rest, hc =>
    simp at hc
    exact ⟨rest, by rw [hc.1, hc.2]⟩

theorem gzip_enters_inflate (zlib : Zlib) (b : Bytes) (h : startsWithGzipMagic b) :
    decompressSpzData zlib b = inflateGzip zlib b := by
  obtain ⟨rest, rfl⟩ := h
  simp [decompressSpzData]

theorem parse_short (b : Bytes) (h0 : SpzHeader) (h : b.length < 16) :
    parseSpzHeader b h0 = (false, h0) := by
  simp [parseSpzHeader, sizeofSpzHeader, h]

theorem parse_long (b : Bytes) (h0 : SpzHeader) (h : 16 ≤ b.length) :
    parseSpzHeader b h0 =
      (decide (le32 b 0 = 0x5053474e), memcpySpzHeader b) := by
  have : ¬ b.length < 16 := by omega
  by_cases hm : le32 b 0 = 0x5053474e
  · simp [parseSpzHeader, sizeofSpzHeader, this, memcpySpzHeader, hm]
  · simp [parseSpzHeader, sizeofSpzHeader, this, memcpySpzHeader, hm]

/-- Claim C2: in the converter's `main`, whenever the input file can be read and its
header parses (on the inflated bytes when the file starts with `1F 8B`, on the raw bytes
otherwise), `createGltfAsset` is handed the raw file bytes, whatever the inflated bytes are;
so the asset's buffer content is the file's content and its declared `byteLength` is the
file's total length. -/
theorem main_builds_from_raw_bytes (w : World) (prog inputPath outputPath : String)
    (raw d : Bytes) (header : SpzHeader)
    (hfile : w.files inputPath = some raw)
    (hgz : startsWithGzipMagic raw → w.zlib.initOk = true ∧ w.zlib.inflateAll raw = some d)
    (hraw : ¬ startsWithGzipMagic raw → d = raw)
    (hparse : parseSpzHeader d w.stackHeader = (true, header)) :
    loadSpzFile w.files inputPath = .ok raw ∧
    ∃ asset, (SpzToGlb.main w [prog, inputPath, outputPath]).built = some (raw, header, asset) ∧
      asset = createGltfAsset raw header ∧
      asset.buffers.map Buffer.bytes = [raw] ∧
      asset.buffers.map Buffer.byteLength = [raw.length] := by
  have hload : loadSpzFile w.files inputPath = .ok raw := by simp [loadSpzFile, hfile]
  have hdec : decompressSpzData w.zlib raw = .ok d := by
    by_cases hg : startsWithGzipMagic raw
    · rw [gzip_enters_inflate _ _ hg]
      obtain ⟨h1, h2⟩ := hgz hg
      simp [inflateGzip, h1, h2]
    · rw [not_gzip_passthrough _ _ hg, hraw hg]
  refine ⟨hload, createGltfAsset raw header, ?_, rfl, ?_, ?_⟩
  · simp only [SpzToGlb.main, hload, hdec, hparse]
    cases w.writeGltfBinary (createGltfAsset raw header) with
    | error e => rfl
    | ok output =>
      by_cases ho : w.canOpenOutput outputPath = true
      · simp [ho]
      · simp [ho]
  · simp [createGltfAsset_buffers raw header]
  · simp [createGltfAsset_buffers raw header]

/-- The witness of claim C2: a gzip-wrapped file whose inflated bytes are a valid header;
the asset is built from the thirteen raw bytes, not from the sixteen inflated ones. -/
theorem main_builds_from_raw_bytes_witness :
    gzipWorld.files "in.spz" = some gzipFile ∧ startsWithGzipMagic gzipFile ∧
    parseSpzHeader sixteenByteHeader gzipWorld.stackHeader = (true, decodedHeader) ∧
    (loadSpzFile gzipWorld.files "in.spz" = .ok gzipFile ∧
     ∃ asset, (SpzToGlb.main gzipWorld ["spz_to_glb", "in.spz", "out.glb"]).built =
        some (gzipFile, decodedHeader, asset) ∧
      asset = createGltfAsset gzipFile decodedHeader ∧
      asset.buffers.map Buffer.bytes = [gzipFile] ∧
      asset.buffers.map Buffer.byteLength = [gzipFile.length]) :=
  ⟨rfl, ⟨_, rfl⟩, by decide,
    main_builds_from_raw_bytes gzipWorld "spz_to_glb" "in.spz" "out.glb" gzipFile
      sixteenByteHeader decodedHeader rfl (fun _ => ⟨rfl, rfl⟩)
      (fun h => absurd ⟨_, rfl⟩ h) (by decide)⟩

/-- Claim C7: a buffer shorter than 12 bytes, or whose first four bytes do not decode to
`0x5053474E`, fails header parsing; and the converter, given such a file that is not
gzip-wrapped, exits with status 1 having built no asset and written no output file. -/
theorem header_rejection (b : Bytes) (hbad : b.length < 12 ∨ le32 b 0 ≠ 0x5053474e) :
    (∀ h0 : SpzHeader, (parseSpzHeader b h0).1 = false) ∧
    ∀ (w : World) (prog inputPath outputPath : String),
      w.files inputPath = some b → ¬ startsWithGzipMagic b →
        (SpzToGlb.main w [prog, inputPath, outputPath]).exitCode = 1 ∧
        (SpzToGlb.main w [prog, inputPath, outputPath]).built = none ∧
        (SpzToGlb.main w [prog, inputPath, outputPath]).written = none := by
  have hp : ∀ h0 : SpzHeader, (parseSpzHeader b h0).1 = false := by
    intro h0
    by_cases hlen : b.length < 16
    · rw [parse_short b h0 hlen]
    · rw [parse_long b h0 (by omega)]
      rcases hbad with h | h
      · omega
      · simp [h]
  refine ⟨hp, ?_⟩
  intro w prog inputPath outputPath hfile hng
  have hload : loadSpzFile w.files inputPath = .ok b := by simp [loadSpzFile, hfile]
  have hdec := not_gzip_passthrough w.zlib b hng
  have h1 := hp w.stackHeader
  simp only [SpzToGlb.main, hload, hdec]
  rcases hq : parseSpzHeader b w.stackHeader with ⟨ok, hdr⟩
  rw [hq] at h1
  simp only at h1
  subst h1
  exact ⟨rfl, rfl, rfl⟩

/-- The witness of claim C7: the sixteen-byte file `badMagicFile` does not carry the magic;
it is rejected, and the converter exits with status 1, builds no asset and writes nothing. -/
theorem header_rejection_witness :
    le32 badMagicFile 0 ≠ 0x5053474e ∧
    (parseSpzHeader badMagicFile zeroHeader).1 = false ∧
    (SpzToGlb.main badMagicWorld ["spz_to_glb", "in.spz", "out.glb"]).exitCode = 1 ∧
    (SpzToGlb.main badMagicWorld ["spz_to_glb", "in.spz", "out.glb"]).built = none ∧
    (SpzToGlb.main badMagicWorld ["spz_to_glb", "in.spz", "out.glb"]).written = none :=
  ⟨by decide,
    (header_rejection badMagicFile (Or.inr (by decide))).1 zeroHeader,
    (header_rejection badMagicFile (Or.inr (by decide))).2 badMagicWorld "spz_to_glb" "in.spz"
      "out.glb" rfl (by
        rintro ⟨rest, h⟩
        have h0 := congrArg List.head? h
        rw [List.head?_cons] at h0
        exact absurd h0 (by decide))⟩

/-- Claim C8, as stated, fails: a buffer of exactly 12 bytes that carries the magic
`0x5053474E` is not shorter than 12 bytes, yet `parseSpzHeader` rejects it, and the
converter exits with status 1 without building an asset. -/
theorem twelve_bytes_with_magic_rejected :
    12 ≤ twelveByteBuffer.length ∧ le32 twelveByteBuffer 0 = 0x5053474e ∧
    (parseSpzHeader twelveByteBuffer zeroHeader).1 = false ∧
    (SpzToGlb.main shortWorld ["spz_to_glb", "in.spz", "out.glb"]).exitCode = 1 ∧
    (SpzToGlb.main shortWorld ["spz_to_glb", "in.spz", "out.glb"]).built = none := by
  decide

/-- Claim C8, amended: header parsing succeeds for every buffer of at least 16 bytes (the
size of the `SpzHeader` record) whose magic field equals `0x5053474E`. -/
theorem parse_succeeds_from_16_bytes (b : Bytes) (h0 : SpzHeader)
    (hlen : 16 ≤ b.length) (hmagic : le32 b 0 = 0x5053474e) :
    (parseSpzHeader b h0).1 = true := by
  rw [parse_long b h0 hlen]
  simp [hmagic]

/-- The witness of amended claim C8: the sixteen-byte header parses. -/
theorem parse_succeeds_from_16_bytes_witness :
    16 ≤ sixteenByteHeader.length ∧ le32 sixteenByteHeader 0 = 0x5053474e ∧
    (parseSpzHeader sixteenByteHeader zeroHeader).1 = true :=
  ⟨by decide, by decide,
    parse_succeeds_from_16_bytes sixteenByteHeader zeroHeader (by decide) (by decide)⟩

theorem getD_take_of_lt (b : Bytes) (n i : Nat) (h : i < n) :
    (b.take n).getD i 0 = b.getD i 0 := by
  simp [List.getD_eq_getElem?_getD, List.getElem?_take, h]

theorem memcpySpzHeader_take (b : Bytes) :
    memcpySpzHeader (b.take 16) = memcpySpzHeader b := by
  simp [memcpySpzHeader, le32, getD_take_of_lt]

/-- Claim C9: when `parseSpzHeader` succeeds on `b`, the buffer has the sixteen header bytes
and the record is their verbatim little-endian decoding: `magic`, `version` and `numPoints`
are the 32-bit values of bytes 0 to 3, 4 to 7 and 8 to 11, and `shDegree`,
`fractionalBits`, `flags`, `reserved` are bytes 12, 13, 14 and 15. The result depends on
nothing else: every buffer with the same first sixteen bytes, and every previous content of
the out-parameter, gives the same record. The buffer is an argument passed by value to a
pure function, hence unchanged. -/
theorem parseSpzHeader_verbatim (b : Bytes) (h0 hdr : SpzHeader)
    (hok : parseSpzHeader b h0 = (true, hdr)) :
    16 ≤ b.length ∧
    hdr.magic = (b.getD 0 0).toNat + (b.getD 1 0).toNat * 2 ^ 8 +
      (b.getD 2 0).toNat * 2 ^ 16 + (b.getD 3 0).toNat * 2 ^ 24 ∧
    hdr.version = (b.getD 4 0).toNat + (b.getD 5 0).toNat * 2 ^ 8 +
      (b.getD 6 0).toNat * 2 ^ 16 + (b.getD 7 0).toNat * 2 ^ 24 ∧
    hdr.numPoints = (b.getD 8 0).toNat + (b.getD 9 0).toNat * 2 ^ 8 +
      (b.getD 10 0).toNat * 2 ^ 16 + (b.getD 11 0).toNat * 2 ^ 24 ∧
    b[12]? = some hdr.shDegree ∧ b[13]? = some hdr.fractionalBits ∧
    b[14]? = some hdr.flags ∧ b[15]? = some hdr.reserved ∧
    ∀ (b2 : Bytes) (h2 : SpzHeader), b2.take 16 = b.take 16 →
      parseSpzHeader b2 h2 = (true, hdr) := by
  have hlen : 16 ≤ b.length := by
    by_contra hc
    rw [parse_short b h0 (by omega)] at hok
    simp at hok
  rw [parse_long b h0 hlen] at hok
  simp only [Prod.mk.injEq, decide_eq_true_eq] at hok
  obtain ⟨hm, hh⟩ := hok
  subst hh
  refine ⟨hlen, rfl, rfl, rfl, ?_, ?_, ?_, ?_, ?_⟩
  · simp [memcpySpzHeader, List.getD_eq_getElem?_getD, List.getElem?_eq_getElem (show 12 < b.length by omega)]
  · simp [memcpySpzHeader, List.getD_eq_getElem?_getD, List.getElem?_eq_getElem (show 13 < b.length by omega)]
  · simp [memcpySpzHeader, List.getD_eq_getElem?_getD, List.getElem?_eq_getElem (show 14 < b.length by omega)]
  · simp [memcpySpzHeader, List.getD_eq_getElem?_getD, List.getElem?_eq_getElem (show 15 < b.length by omega)]
  · intro b2 h2 htake
    have hlen2 : 16 ≤ b2.length := by
      have := congrArg List.length htake
      simp at this
      omega
    have hcpy : memcpySpzHeader b2 = memcpySpzHeader b := by
      rw [← memcpySpzHeader_take b2, htake, memcpySpzHeader_take]
    have hm2 : le32 b2 0 = 0x5053474e := by
      have : (memcpySpzHeader b2).magic = (memcpySpzHeader b).magic := by rw [hcpy]
      simpa [memcpySpzHeader, hm] using this
    rw [parse_long b2 h2 hlen2, hcpy]
    simp [hm2]

/-- The witness of claim C9: `sixteenByteHeader` followed by payload bytes parses to
`decodedHeader`. -/
theorem parseSpzHeader_verbatim_witness :
    parseSpzHeader (sixteenByteHeader ++ [9, 9, 9]) zeroHeader = (true, decodedHeader) ∧
    (sixteenByteHeader ++ [9, 9, 9])[13]? = some decodedHeader.fractionalBits ∧
    parseSpzHeader sixteenByteHeader decodedHeader = (true, decodedHeader) :=
  ⟨by decide,
    (parseSpzHeader_verbatim (sixteenByteHeader ++ [9, 9, 9]) zeroHeader decodedHeader
      (by decide)).2.2.2.2.2.1,
    (parseSpzHeader_verbatim (sixteenByteHeader ++ [9, 9, 9]) zeroHeader decodedHeader
      (by decide)).2.2.2.2.2.2.2.2 sixteenByteHeader decodedHeader (by decide)⟩

/-- A zlib whose `inflateInit2` fails. -/
theorem inflateGzip_of_init_failure (inflateAll : Bytes → Option Bytes) (b : Bytes) :
    inflateGzip { initOk := false, inflateAll := inflateAll } b =
      .error "Failed to initialize zlib decompression" := by
  simp [inflateGzip]

/-- Claim C10: a buffer that does not start with the two bytes `1F 8B` (in particular every
buffer shorter than two bytes) is returned unchanged, with no failure, whatever zlib would
do; a buffer that starts with `1F 8B` has at least two bytes and takes the inflate path; and
no buffer that starts with `1F 8B` is returned unchanged for every zlib, so the inflate path
is entered exactly for those. -/
theorem decompress_guard (b : Bytes) :
    (b.length < 2 → ¬ startsWithGzipMagic b) ∧
    (¬ startsWithGzipMagic b → ∀ zlib : Zlib, decompressSpzData zlib b = .ok b) ∧
    (startsWithGzipMagic b →
      2 ≤ b.length ∧ ∀ zlib : Zlib, decompressSpzData zlib b = inflateGzip zlib b) ∧
    ((∀ zlib : Zlib, decompressSpzData zlib b = .ok b) → ¬ startsWithGzipMagic b) := by
  refine ⟨?_, ?_, ?_, ?_⟩
  · rintro hlen ⟨rest, rfl⟩
    simp only [List.length_cons] at hlen
    omega
  · intro h zlib
    exact not_gzip_passthrough zlib b h
  · intro h
    refine ⟨?_, fun zlib => gzip_enters_inflate zlib b h⟩
    obtain ⟨rest, rfl⟩ := h
    simp
  · intro hall hg
    have h1 := hall { initOk := false, inflateAll := fun _ => none }
    rw [gzip_enters_inflate _ _ hg, inflateGzip_of_init_failure] at h1
    cases h1

/-- The witness of claim C10: the one-byte buffer `1F` is returned unchanged even by a zlib
that fails, and `gzipFile` goes through the inflate path. -/
theorem decompress_guard_witness :
    decompressSpzData { initOk := false, inflateAll := fun _ => none } [0x1f] = .ok [0x1f] ∧
    decompressSpzData gzipWorld.zlib gzipFile = .ok sixteenByteHeader :=
  ⟨(decompress_guard [0x1f]).2.1 ((decompress_guard [0x1f]).1 (by decide)) _,
    ((decompress_guard gzipFile).2.2.1 ⟨_, rfl⟩).2 gzipWorld.zlib⟩

/-! ## Theorems: the content digest -/

theorem blockWord_congr (f g : Nat → UInt8) (h : ∀ i, i < 64 → f i = g i) (i : Nat)
    (hi : i < 16) : blockWord f i = blockWord g i := by
  unfold blockWord
  rw [h (i * 4) (by omega), h (i * 4 + 1) (by omega), h (i * 4 + 2) (by omega),
    h (i * 4 + 3) (by omega)]

theorem transform_agree (h1 h2 : Md5Hash)
    (hs0 : h1.state0 = h2.state0) (hs1 : h1.state1 = h2.state1)
    (hs2 : h1.state2 = h2.state2) (hs3 : h1.state3 = h2.state3)
    (hc : h1.count = h2.count) (hz : h1.count % 64 = 0)
    (hb : ∀ i, i < 64 → h1.buffer i = h2.buffer i) :
    Md5Hash.Agree h1.transform h2.transform := by
  have hw : ∀ i, i < 16 → blockWord h1.buffer i = blockWord h2.buffer i :=
    fun i hi => blockWord_congr _ _ hb i hi
  unfold Md5Hash.Agree Md5Hash.transform
  simp only [hs0, hs1, hs2, hs3, hc, hw 0 (by omega), hw 1 (by omega), hw 2 (by omega),
    hw 3 (by omega), hw 4 (by omega), hw 5 (by omega), hw 6 (by omega), hw 7 (by omega),
    hw 8 (by omega), hw 9 (by omega), hw 10 (by omega), hw 11 (by omega), hw 12 (by omega),
    hw 13 (by omega), hw 14 (by omega), hw 15 (by omega), true_and]
  intro i hi
  rw [← hc, hz] at hi
  omega

theorem updateByte_agree (h1 h2 : Md5Hash) (b : UInt8) (h : Md5Hash.Agree h1 h2) :
    Md5Hash.Agree (h1.updateByte b) (h2.updateByte b) := by
  obtain ⟨hs0, hs1, hs2, hs3, hc, hb⟩ := h
  unfold Md5Hash.updateByte
  simp only [← hc]
  by_cases hz : (h1.count + 1) % 2 ^ 64 % 64 = 0
  · rw [if_pos hz, if_pos hz]
    apply transform_agree <;> simp only [hs0, hs1, hs2, hs3, hz]
    intro i hi
    by_cases hi2 : i = h1.count % 64
    · subst hi2
      simp
    · rw [Function.update_noteq hi2, Function.update_noteq hi2]
      apply hb
      omega
  · rw [if_neg hz, if_neg hz]
    refine ⟨hs0, hs1, hs2, hs3, rfl, ?_⟩
    intro i hi
    simp only at hi ⊢
    by_cases hi2 : i = h1.count % 64
    · subst hi2
      simp
    · rw [Function.update_noteq hi2, Function.update_noteq hi2]
      apply hb
      omega

theorem update_agree (data : Bytes) (h1 h2 : Md5Hash) (h : Md5Hash.Agree h1 h2) :
    Md5Hash.Agree (h1.update data) (h2.update data) := by
  induction data generalizing h1 h2 with
  | nil => exact h
  | cons b data ih => exact ih _ _ (updateByte_agree h1 h2 b h)

theorem finalize_agree (h1 h2 : Md5Hash) (h : Md5Hash.Agree h1 h2) :
    h1.finalize = h2.finalize := by
  have hc : h1.count = h2.count := h.2.2.2.2.1
  have h80 := update_agree [0x80] h1 h2 h
  have hc80 : (h1.update [0x80]).count = (h2.update [0x80]).count := h80.2.2.2.2.1
  have hfin : Md5Hash.Agree h1.finalizeState h2.finalizeState := by
    unfold Md5Hash.finalizeState Md5Hash.lengthBits
    simp only [hc, hc80]
    exact update_agree _ _ _ (update_agree _ _ _ h80)
  obtain ⟨e0, e1, e2, e3, -, -⟩ := hfin
  simp [Md5Hash.finalize, Md5Hash.stateBytes, e0, e1, e2, e3]

/-- The digest does not depend on the indeterminate initial content of the block buffer. -/
theorem hash_uninit_irrelevant (u1 u2 : Nat → UInt8) (data : Bytes) :
    Md5Hash.hash u1 data = Md5Hash.hash u2 data := by
  unfold Md5Hash.hash
  apply finalize_agree
  apply update_agree
  refine ⟨rfl, rfl, rfl, rfl, rfl, ?_⟩
  intro i hi
  simp [Md5Hash.init, Md5Hash.fresh] at hi

set_option maxRecDepth 1000000 in
theorem hash_empty_zero :
    Md5Hash.hash (fun _ => 0) [] = "f29fb15cf3474fc6731c60f31d987b47" := by decide

set_option maxRecDepth 1000000 in
theorem hash_abc_zero :
    Md5Hash.hash (fun _ => 0) [0x61, 0x62, 0x63] = "a7dcee44699e7d626962517c0b6d37b1" := by
  decide

/-- Claim C5, evaluated on the code: whatever the block buffer held before, `Md5Hash::hash`
returns `f29fb15cf3474fc6731c60f31d987b47` for the empty input and
`a7dcee44699e7d626962517c0b6d37b1` for the three bytes `abc`; neither is the standard MD5
test vector (`d41d8cd98f00b204e9800998ecf8427e`, `900150983cd24fb0d6963f7d28e17f72`). -/
theorem hash_differs_from_md5_test_vectors (uninit : Nat → UInt8) :
    Md5Hash.hash uninit [] = "f29fb15cf3474fc6731c60f31d987b47" ∧
    Md5Hash.hash uninit [0x61, 0x62, 0x63] = "a7dcee44699e7d626962517c0b6d37b1" ∧
    Md5Hash.hash uninit [] ≠ "d41d8cd98f00b204e9800998ecf8427e" ∧
    Md5Hash.hash uninit [0x61, 0x62, 0x63] ≠ "900150983cd24fb0d6963f7d28e17f72" := by
  rw [hash_uninit_irrelevant uninit (fun _ => 0) [], hash_empty_zero,
    hash_uninit_irrelevant uninit (fun _ => 0) [0x61, 0x62, 0x63], hash_abc_zero]
  exact ⟨rfl, rfl, by decide, by decide⟩

theorem update_append (h : Md5Hash) (a b : Bytes) :
    (h.update a).update b = h.update (a ++ b) := by
  simp [Md5Hash.update, List.foldl_append]

theorem update_chunks (chunks : List Bytes) (h : Md5Hash) :
    chunks.foldl Md5Hash.update h = h.update chunks.flatten := by
  induction chunks generalizing h with
  | nil => rfl
  | cons c chunks ih => rw [List.foldl_cons, ih, List.flatten_cons, update_append]

/-- Claim C6: the digest does not depend on the chunking. For all byte sequences `a` and
`b`, `init`, `update(a)`, `update(b)`, `finalize` returns the digest string of the one-shot
`hash(a ++ b)`; and so does `init` followed by one `update` for each chunk of any finite
list of chunks (empty chunks included) and `finalize`, for the concatenation of the
chunks. The initial content of the block buffer is arbitrary on both sides. -/
theorem digest_chunking_independent (uninit uninit2 : Nat → UInt8) :
    (∀ a b : Bytes,
      ((((Md5Hash.fresh uninit).init).update a).update b).finalize =
        Md5Hash.hash uninit2 (a ++ b)) ∧
    (∀ chunks : List Bytes,
      (chunks.foldl Md5Hash.update ((Md5Hash.fresh uninit).init)).finalize =
        Md5Hash.hash uninit2 chunks.flatten) := by
  constructor
  · intro a b
    rw [update_append, hash_uninit_irrelevant uninit2 uninit]
    rfl
  · intro chunks
    rw [update_chunks, hash_uninit_irrelevant uninit2 uninit]
    rfl

/-! ## Theorems: string and stream primitives -/

theorem byteLengthKey_eq :
    ascii "\"byteLength\"" = [34, 98, 121, 116, 101, 76, 101, 110, 103, 116, 104, 34] := by
  decide

theorem colon_eq : ascii ":" = [58] := by decide
theorem space_eq : ascii " " = [32] := by decide
theorem delims_eq : ascii ",\x7d" = [44, 125] := by decide

theorem findAt_first (pat : Bytes) (hne : pat ≠ []) (rest : Bytes) (s1 : Bytes) (k : Nat)
    (H : ∀ pre post, s1 ++ pat = pre ++ pat ++ post → s1.length ≤ pre.length) :
    findAt pat (s1 ++ (pat ++ rest)) k = k + s1.length := by
  induction s1 generalizing k with
  | nil =>
    cases hp : pat with
    | nil => exact absurd hp hne
    | cons c cs =>
      simp [findAt]
  | cons c s1 ih =>
    have hnot : ¬ pat <+: (c :: s1) ++ (pat ++ rest) := by
      intro hpre
      have h1 : pat <+: ((c :: s1) ++ pat) := by
        apply List.prefix_of_prefix_length_le hpre
        · rw [← List.append_assoc]
          exact List.prefix_append _ _
        · simp only [List.length_append, List.length_cons]
          omega
      obtain ⟨post, hpost⟩ := h1
      have := H [] post (by simpa using hpost.symm)
      simp at this
    have ih2 := ih (k + 1) (by
      intro pre post hpp
      have := H (c :: pre) post (by simp [hpp])
      simpa using this)
    simp only [List.cons_append] at hnot ⊢
    rw [findAt, if_neg (by simpa [List.isPrefixOf_iff_prefix] using hnot), ih2]
    simp
    omega

theorem findAt_char (c : UInt8) (a rest : Bytes) (k : Nat) (h : c ∉ a) :
    findAt [c] (a ++ c :: rest) k = k + a.length := by
  induction a generalizing k with
  | nil => simp [findAt]
  | cons x a ih =>
    have hx : c ≠ x := fun e => h (by simp [e])
    have ha : c ∉ a := fun e => h (by simp [e])
    rw [List.cons_append, findAt, if_neg (by simp [List.isPrefixOf, hx]), ih _ ha]
    simp only [List.length_cons]
    omega

theorem findAt_nul_ge (pre s2 : Bytes) (k : Nat) (h : (0 : UInt8) ∉ pre) :
    findAt [0] (pre ++ s2) k = npos ∨ ∃ j, findAt [0] (pre ++ s2) k = k + pre.length + j := by
  induction pre generalizing k with
  | nil =>
    induction s2 generalizing k with
    | nil => left; simp [findAt]
    | cons x s2 ih =>
      simp only [List.nil_append, findAt]
      by_cases hx : ([0] : Bytes).isPrefixOf (x :: s2) = true
      · right; exact ⟨0, by simp [hx]⟩
      · rw [if_neg hx]
        rcases ih (k + 1) with h1 | ⟨j, hj⟩
        · left; simpa using h1
        · right; exact ⟨j + 1, by simp at hj ⊢; omega⟩
  | cons x pre ih =>
    have hx : (0 : UInt8) ≠ x := fun e => h (by simp [e])
    have ha : (0 : UInt8) ∉ pre := fun e => h (by simp [e])
    rw [List.cons_append, findAt, if_neg (by simp [List.isPrefixOf, hx])]
    rcases ih (k + 1) ha with h1 | ⟨j, hj⟩
    · left; exact h1
    · right; exact ⟨j, by rw [hj]; simp only [List.length_cons]; omega⟩

/-- Cutting at the first NUL keeps every NUL-free beginning of the JSON chunk. -/
theorem jsonText_keeps (pre s2 : Bytes) (h : (0 : UInt8) ∉ pre) :
    ∃ s3, jsonText (pre ++ s2) = pre ++ s3 := by
  unfold jsonText find
  simp only [Nat.not_lt_zero, if_false, List.drop_zero, gt_iff_lt]
  rcases findAt_nul_ge pre s2 0 h with h1 | ⟨j, hj⟩
  · exact ⟨s2, by simp [h1]⟩
  · by_cases hn : findAt [0] (pre ++ s2) 0 = npos
    · exact ⟨s2, by simp [hn]⟩
    · refine ⟨s2.take j, ?_⟩
      simp only [ne_eq, hn, not_false_eq_true, if_true]
      rw [hj]
      simp [List.take_append]

theorem findIf_skip (p : UInt8 → Bool) (a : Bytes) (x : UInt8) (rest : Bytes) (k : Nat)
    (ha : ∀ c ∈ a, p c = false) (hx : p x = true) :
    findIf p (a ++ x :: rest) k = k + a.length := by
  induction a generalizing k with
  | nil => simp [findIf, hx]
  | cons y a ih =>
    have hy : p y = false := ha y (by simp)
    rw [List.cons_append, findIf, hy, if_neg (by simp),
      ih (k + 1) (fun c hc => ha c (by simp [hc]))]
    simp only [List.length_cons]
    omega

theorem digitsValue_snoc (front : Bytes) (x : UInt8) :
    digitsValue (front ++ [x]) = digitsValue front * 10 + (x.toNat - 48) := by
  simp [digitsValue, List.foldl_append]

theorem digitChar_byte (d : Nat) (h : d < 10) :
    (UInt8.ofNat (Nat.digitChar d).toNat).toNat = 48 + d := by
  interval_cases d <;> rfl

theorem toDigitsCore_bytes (fuel : Nat) :
    ∀ (n : Nat) (ds : List Char), n < fuel →
      ∃ front : Bytes,
        (Nat.toDigitsCore 10 fuel n ds).map (fun c => UInt8.ofNat c.toNat) =
          front ++ ds.map (fun c => UInt8.ofNat c.toNat) ∧
        front ≠ [] ∧ (∀ c ∈ front, isdigit c = true) ∧ digitsValue front = n := by
  induction fuel with
  | zero => intro n ds h; omega
  | succ fuel ih =>
    intro n ds h
    have hd : n % 10 < 10 := Nat.mod_lt _ (by omega)
    have hb := digitChar_byte (n % 10) hd
    have hdig : isdigit (UInt8.ofNat (Nat.digitChar (n % 10)).toNat) = true := by
      simp only [isdigit, hb, Bool.and_eq_true, decide_eq_true_eq]
      omega
    rw [Nat.toDigitsCore]
    by_cases h0 : n / 10 = 0
    · simp only [h0, if_true]
      refine ⟨[UInt8.ofNat (Nat.digitChar (n % 10)).toNat], by simp, by simp, ?_, ?_⟩
      · intro c hc
        simp only [List.mem_singleton] at hc
        rw [hc]; exact hdig
      · simp only [digitsValue, List.foldl_cons, List.foldl_nil, hb]
        omega
    · simp only [h0, if_false]
      obtain ⟨front, h1, -, h3, h4⟩ := ih (n / 10) (Nat.digitChar (n % 10) :: ds) (by omega)
      refine ⟨front ++ [UInt8.ofNat (Nat.digitChar (n % 10)).toNat], ?_, by simp, ?_, ?_⟩
      · rw [h1]; simp
      · intro c hc
        rcases List.mem_append.mp hc with hc | hc
        · exact h3 c hc
        · simp only [List.mem_singleton] at hc
          rw [hc]; exact hdig
      · rw [digitsValue_snoc, h4, hb]
        omega

/-- The decimal numeral of `n` is a non-empty run of digits whose value is `n`. -/
theorem decimal_spec (n : Nat) :
    decimal n ≠ [] ∧ (∀ c ∈ decimal n, isdigit c = true) ∧ digitsValue (decimal n) = n := by
  obtain ⟨front, h1, h2, h3, h4⟩ := toDigitsCore_bytes (n + 1) n [] (by omega)
  have : decimal n = front := by
    simpa [decimal, ascii, toString, Nat.repr, Nat.toDigits, List.asString] using h1
  rw [this]
  exact ⟨h2, h3, h4⟩

theorem stoul_digits (ds : Bytes) (hne : ds ≠ []) (hall : ∀ c ∈ ds, isdigit c = true)
    (hv : digitsValue ds < 2 ^ 64) : stoul ds = .ok (digitsValue ds) := by
  cases ds with
  | nil => exact absurd rfl hne
  | cons c t =>
    have hc : isdigit c = true := hall c (by simp)
    have hc2 : 48 ≤ c.toNat ∧ c.toNat ≤ 57 := by
      simpa [isdigit] using hc
    have hsp : ¬ isspace c = true := by
      simp [isspace]
      omega
    have h43 : c ≠ 43 := by
      intro e; rw [e] at hc2; revert hc2; decide
    have h45 : c ≠ 45 := by
      intro e; rw [e] at hc2; revert hc2; decide
    have htw : List.takeWhile isdigit (c :: t) = c :: t :=
      List.takeWhile_eq_self_iff.mpr hall
    unfold stoul
    rw [List.dropWhile_cons_of_neg hsp]
    have hm : (match (c :: t : Bytes) with
        | 43 :: t => (false, t)
        | 45 :: t => (true, t)
        | _ => (false, c :: t)) = (false, c :: t) := by
      split
      · rename_i heq; simp at heq; exact absurd heq.1 h43
      · rename_i heq; simp at heq; exact absurd heq.1 h45
      · rfl
    simp only [hm, htw]
    rw [if_neg (by simp), if_neg (by omega)]
    simp

theorem layer3BufferSize_eq : layer3BufferSize = layer2BufferSize := rfl

theorem key_no_colon : (58 : UInt8) ∉ ([34, 98, 121, 116, 101, 76, 101, 110, 103, 116, 104, 34] : Bytes) := by
  decide

theorem digit_not_space (c : UInt8) (h : isdigit c = true) :
    (!([32] : Bytes).contains c) = true := by
  have hc2 : 48 ≤ c.toNat ∧ c.toNat ≤ 57 := by simpa [isdigit] using h
  have : c ≠ 32 := by intro e; rw [e] at hc2; revert hc2; decide
  simp [this]

theorem digit_not_delim (c : UInt8) (h : isdigit c = true) :
    ([44, 125] : Bytes).contains c = false := by
  have hc2 : 48 ≤ c.toNat ∧ c.toNat ≤ 57 := by simpa [isdigit] using h
  have h1 : c ≠ 44 := by intro e; rw [e] at hc2; revert hc2; decide
  have h2 : c ≠ 125 := by intro e; rw [e] at hc2; revert hc2; decide
  simp [h1, h2]

theorem drop_key (R : Bytes) (n : Nat) :
    List.drop (13 + n)
      (([34, 98, 121, 116, 101, 76, 101, 110, 103, 116, 104, 34] : Bytes) ++ 58 :: R) =
      List.drop n R := by
  have h : (([34, 98, 121, 116, 101, 76, 101, 110, 103, 116, 104, 34] : Bytes) ++ 58 :: R) =
      ([34, 98, 121, 116, 101, 76, 101, 110, 103, 116, 104, 34, 58] : Bytes) ++ R := by simp
  rw [h]
  exact @List.drop_append _ [34, 98, 121, 116, 101, 76, 101, 110, 103, 116, 104, 34, 58] R n

/-- The extraction of the declared byte length from a JSON text whose first `"byteLength"`
key is followed by a colon, spaces, a run of digits and a delimiter. -/
theorem layer2BufferSize_of_form (s1 spaces digits s3 : Bytes) (d : UInt8)
    (hfirst : ∀ pre post, s1 ++ ascii "\"byteLength\"" = pre ++ ascii "\"byteLength\"" ++ post →
      s1.length ≤ pre.length)
    (hspaces : ∀ c ∈ spaces, c = 32) (hd : d = 44 ∨ d = 125)
    (hne : digits ≠ []) (hdig : ∀ c ∈ digits, isdigit c = true)
    (hv : digitsValue digits < 2 ^ 64)
    (hlen : s1.length + spaces.length + digits.length + 14 < 2 ^ 64) :
    layer2BufferSize
        (s1 ++ (ascii "\"byteLength\"" ++ (58 :: (spaces ++ (digits ++ d :: s3))))) =
      .ok (digitsValue digits) := by
  rw [byteLengthKey_eq] at hfirst ⊢
  obtain ⟨c0, t, rfl⟩ := List.exists_cons_of_ne_nil hne
  have hc0 : isdigit c0 = true := hdig c0 (by simp)
  have e1 : find (s1 ++ ([34, 98, 121, 116, 101, 76, 101, 110, 103, 116, 104, 34] ++
      (58 :: (spaces ++ (c0 :: t ++ d :: s3)))))
      [34, 98, 121, 116, 101, 76, 101, 110, 103, 116, 104, 34] 0 = s1.length := by
    unfold find
    rw [if_neg (by omega), List.drop_zero, findAt_first _ (by simp) _ _ _ hfirst]
    omega
  have e2 : find (s1 ++ ([34, 98, 121, 116, 101, 76, 101, 110, 103, 116, 104, 34] ++
      (58 :: (spaces ++ (c0 :: t ++ d :: s3))))) [58] s1.length = s1.length + 12 := by
    unfold find
    rw [if_neg (by simp), List.drop_left, findAt_char _ _ _ _ key_no_colon]
    rfl
  have e3 : find_first_not_of (s1 ++ ([34, 98, 121, 116, 101, 76, 101, 110, 103, 116, 104, 34] ++
      (58 :: (spaces ++ (c0 :: t ++ d :: s3))))) [32] (s1.length + 13) =
      s1.length + 13 + spaces.length := by
    unfold find_first_not_of
    rw [List.drop_append, ← Nat.add_zero 13, drop_key, List.drop_zero, Nat.add_zero]
    show findIf _ (spaces ++ c0 :: (t ++ d :: s3)) _ = _
    rw [findIf_skip _ _ _ _ _ _ (digit_not_space c0 hc0)]
    intro c hc
    rw [hspaces c hc]
    rfl
  have e4 : find_first_of (s1 ++ ([34, 98, 121, 116, 101, 76, 101, 110, 103, 116, 104, 34] ++
      (58 :: (spaces ++ (c0 :: t ++ d :: s3))))) [44, 125] (s1.length + 13 + spaces.length) =
      s1.length + 13 + spaces.length + (c0 :: t).length := by
    unfold find_first_of
    rw [Nat.add_assoc, List.drop_append, drop_key]
    have hdl : (fun c => ([44, 125] : Bytes).contains c) d = true := by
      rcases hd with rfl | rfl <;> rfl
    rw [List.drop_left,
      findIf_skip _ _ _ _ _ (fun c hc => by simp only [digit_not_delim c (hdig c hc)]) hdl,
      Nat.add_assoc]
  have e5 : substr (s1 ++ ([34, 98, 121, 116, 101, 76, 101, 110, 103, 116, 104, 34] ++
      (58 :: (spaces ++ (c0 :: t ++ d :: s3))))) (s1.length + 13 + spaces.length)
      (c0 :: t).length = .ok (c0 :: t) := by
    unfold substr
    rw [if_neg (by simp; omega), Nat.add_assoc, List.drop_append, drop_key]
    rw [List.drop_left, List.take_left]
  simp only [List.length_cons] at hlen
  unfold layer2BufferSize
  simp only [colon_eq, space_eq, delims_eq, byteLengthKey_eq, e1]
  have hnp : s1.length ≠ npos := by unfold npos; omega
  have hm1 : (s1.length + 12 + 1) % 2 ^ 64 = s1.length + 13 := by
    rw [Nat.mod_eq_of_lt (by omega)]
  have hm2 : (s1.length + 13 + spaces.length + (c0 :: t).length + 2 ^ 64 -
      (s1.length + 13 + spaces.length)) % 2 ^ 64 = (c0 :: t).length := by
    simp only [List.length_cons]
    omega
  simp only [e2, hm1, e3, e4, hm2]
  simp only [hnp, ne_eq, not_false_eq_true, if_true, e5]
  exact stoul_digits _ hne hdig hv

/-! ## Theorems: the verification layers -/

theorem read_exact (c : Bytes) (p : Nat) (x post : Bytes) (h : c.drop p = x ++ post) :
    IfStream.read { content := c, pos := p, failed := false } x.length =
      ({ content := c, pos := p + x.length, failed := false }, x) := by
  simp [IfStream.read, h]

theorem drop_after (c : Bytes) (p : Nat) (x post : Bytes) (h : c.drop p = x ++ post) :
    c.drop (p + x.length) = post := by
  rw [← List.drop_drop, h, List.drop_left]

theorem le32_u32Bytes (L : Nat) (hL : L < 2 ^ 32) (rest : Bytes) :
    le32 (u32Bytes L ++ rest) 0 = L := by
  simp only [le32, u32Bytes, List.cons_append, List.getD_cons_zero, List.getD_cons_succ,
    Nat.zero_add, Nat.reduceAdd, Nat.shiftRight_eq_div_pow]
  have e : ∀ n : Nat, (UInt8.ofNat n).toNat = n % 256 := fun n => rfl
  simp only [e]
  omega

theorem overlay_full (got : Bytes) : overlay got (List.replicate got.length 0) = got := by
  simp [overlay]

/-- The run of Layer 2 on a source `P` and a container laid out as: 12-byte header, JSON
chunk header carrying the length of `json`, `json`, padding, 8-byte binary chunk header,
then `P`; the JSON text declaring `|P|` at its first `"byteLength"` key. -/
theorem layer2Run_of_layout (fs : FileSystem) (u : Uninit) (spzPath glbPath : String)
    (P header jsonType json s1 spaces s2 padding binHeader : Bytes) (d : UInt8)
    (hsrc : fs spzPath = some P)
    (hglb : fs glbPath =
      some (header ++ (u32Bytes json.length ++ jsonType) ++ json ++ padding ++ binHeader ++ P))
    (hjson : json =
      s1 ++ ascii "\"byteLength\"" ++ ascii ":" ++ spaces ++ decimal P.length ++ [d] ++ s2)
    (hheader : header.length = 12) (hjsonType : jsonType.length = 4)
    (hL : json.length < 2 ^ 32)
    (hpadding : padding.length = (4 - json.length % 4) % 4)
    (hbinHeader : binHeader.length = 8)
    (hnul : (0 : UInt8) ∉ s1)
    (hfirst : ∀ pre post,
      s1 ++ ascii "\"byteLength\"" = pre ++ ascii "\"byteLength\"" ++ post →
        s1.length ≤ pre.length)
    (hspaces : ∀ c ∈ spaces, c = 32) (hd : d = 44 ∨ d = 125)
    (hP : P.length < 2 ^ 63) :
    layer2Run fs u spzPath glbPath =
      .ok { originalData := P, extractedData := some P, result := true } := by
  obtain ⟨hdne, hddig, hdval⟩ := decimal_spec P.length
  -- the JSON text after the cut at the first NUL
  have hpre : (0 : UInt8) ∉ s1 ++ (ascii "\"byteLength\"" ++ (58 :: (spaces ++
      (decimal P.length ++ [d])))) := by
    rw [byteLengthKey_eq]
    simp only [List.mem_append, List.mem_cons, not_or]
    refine ⟨hnul, by decide, by decide, ?_, ?_, ?_⟩
    · intro h0
      have := hspaces 0 h0
      revert this; decide
    · intro h0
      have := hddig 0 h0
      revert this; decide
    · rcases hd with rfl | rfl <;> simp
  obtain ⟨s3, hs3⟩ := jsonText_keeps _ s2 hpre
  have hjson2 : json = (s1 ++ (ascii "\"byteLength\"" ++ (58 :: (spaces ++
      (decimal P.length ++ [d]))))) ++ s2 := by
    rw [hjson, colon_eq]; simp
  have hjlen : s1.length + spaces.length + (decimal P.length).length + 14 < 2 ^ 64 := by
    have := congrArg List.length hjson2
    rw [byteLengthKey_eq] at this
    simp only [List.length_append, List.length_cons, List.length_nil] at this
    omega
  have hsize : layer2BufferSize (jsonText json) = .ok P.length := by
    rw [hjson2, hs3]
    have := layer2BufferSize_of_form s1 spaces (decimal P.length) s3 d hfirst hspaces hd
      hdne hddig (by rw [hdval]; omega) hjlen
    rw [hdval] at this
    rw [← this]
    congr 1
    simp
  -- the reads
  have hc : header ++ (u32Bytes json.length ++ jsonType) ++ json ++ padding ++ binHeader ++ P =
      header ++ ((u32Bytes json.length ++ jsonType) ++ (json ++ (padding ++ (binHeader ++ P)))) := by
    simp
  have d1 : (header ++ ((u32Bytes json.length ++ jsonType) ++
      (json ++ (padding ++ (binHeader ++ P))))).drop 12 =
      (u32Bytes json.length ++ jsonType) ++ (json ++ (padding ++ (binHeader ++ P))) :=
    List.drop_left' hheader
  have hlen8 : (u32Bytes json.length ++ jsonType).length = 8 := by
    simp [u32Bytes, hjsonType]
  have r1 := read_exact _ _ _ _ d1
  have d2 := drop_after _ _ _ _ d1
  have r2 := read_exact _ _ _ _ d2
  have d3 := drop_after _ _ _ _ d2
  have d4 : (header ++ ((u32Bytes json.length ++ jsonType) ++
      (json ++ (padding ++ (binHeader ++ P))))).drop
      (12 + (u32Bytes json.length ++ jsonType).length + json.length + padding.length) =
      binHeader ++ P := by
    rw [← List.drop_drop, d3, List.drop_left]
  have r4 := read_exact _ _ _ _ d4
  have d5 := drop_after _ _ _ _ d4
  have d5b : (header ++ ((u32Bytes json.length ++ jsonType) ++
      (json ++ (padding ++ (binHeader ++ P))))).drop
      (12 + (u32Bytes json.length ++ jsonType).length + json.length + padding.length +
        binHeader.length) = P ++ [] := by
    rw [d5]; simp
  have r5 := read_exact _ _ _ _ d5b
  rw [hlen8] at r1 r2 r4 r5
  rw [hbinHeader] at r4 r5
  have hov : le32 (overlay (u32Bytes json.length ++ jsonType) u.jsonChunk) 0 = json.length := by
    unfold overlay
    rw [List.append_assoc]
    exact le32_u32Bytes _ hL _
  have hmd5 : Md5Hash.hash u.md5Original P = Md5Hash.hash u.md5Extracted P :=
    hash_uninit_irrelevant _ _ _
  have hsrcBytes : readFileBytes fs spzPath 0 = P := by
    simp [readFileBytes, hsrc]
  have hnot : ¬ P.length > 2 ^ 63 - 1 := by omega
  unfold layer2Run
  simp only [hsrcBytes, hglb, hc, IfStream.opened, IfStream.seekg, IfStream.seekgCur,
    Bool.false_eq_true, if_false, r1, hov, r2, overlay_full, ← hpadding, hsize, r4, r5,
    bind, Except.bind, pure, Except.pure, hmd5, hnot, and_self, decide_True]

theorem first_occurrence_of_check (s1 key : Bytes)
    (h : ∀ i < s1.length, key.isPrefixOf ((s1 ++ key).drop i) = false) :
    ∀ pre post, s1 ++ key = pre ++ key ++ post → s1.length ≤ pre.length := by
  intro pre post e
  by_contra hlt
  have h1 := h pre.length (by omega)
  rw [e, List.append_assoc, List.drop_left] at h1
  have h2 : key.isPrefixOf (key ++ post) = true :=
    List.isPrefixOf_iff_prefix.mpr (List.prefix_append _ _)
  rw [h2] at h1
  cases h1

/-- Claim C3: for every payload `P` and every container laid out as a 12-byte header, an
8-byte JSON chunk header whose `chunkLength` is the length `L` of the JSON text, the `L`
bytes of JSON text, `(4 - L mod 4) mod 4` padding bytes, an 8-byte binary chunk header
and then the bytes of `P` — the JSON text having no NUL before its first `"byteLength"`
key, which is followed by a colon, spaces, the decimal numeral of `|P|` and `,` or `}` —
`layer2VerifyLossless` on the source `P` extracts exactly `P` as the binary chunk and
reports pass. The lengths are those of the machine: `L < 2^32` (a `uint32_t` field) and
`|P| < 2^63` (the largest `std::vector`). -/
theorem layer2_extracts_payload (fs : FileSystem) (u : Uninit) (spzPath glbPath : String)
    (P header jsonType json s1 spaces s2 padding binHeader : Bytes) (d : UInt8)
    (hsrc : fs spzPath = some P)
    (hglb : fs glbPath =
      some (header ++ (u32Bytes json.length ++ jsonType) ++ json ++ padding ++ binHeader ++ P))
    (hjson : json =
      s1 ++ ascii "\"byteLength\"" ++ ascii ":" ++ spaces ++ decimal P.length ++ [d] ++ s2)
    (hheader : header.length = 12) (hjsonType : jsonType.length = 4)
    (hL : json.length < 2 ^ 32)
    (hpadding : padding.length = (4 - json.length % 4) % 4)
    (hbinHeader : binHeader.length = 8)
    (hnul : (0 : UInt8) ∉ s1)
    (hfirst : ∀ pre post,
      s1 ++ ascii "\"byteLength\"" = pre ++ ascii "\"byteLength\"" ++ post →
        s1.length ≤ pre.length)
    (hspaces : ∀ c ∈ spaces, c = 32) (hd : d = 44 ∨ d = 125)
    (hP : P.length < 2 ^ 63) :
    (layer2Run fs u spzPath glbPath).map Layer2Run.extractedData = .ok (some P) ∧
    layer2VerifyLossless fs u spzPath glbPath = .ok true := by
  have h := layer2Run_of_layout fs u spzPath glbPath P header jsonType json s1 spaces s2
    padding binHeader d hsrc hglb hjson hheader hjsonType hL hpadding hbinHeader hnul hfirst
    hspaces hd hP
  unfold layer2VerifyLossless
  rw [h]
  exact ⟨rfl, rfl⟩

/-- The witness of claim C3: the container `smallContainer`, whose JSON text
`{"buffers":[{"byteLength":16}]}` has 31 bytes and is followed by one padding byte,
yields the sixteen bytes of the source and Layer 2 passes. -/
theorem layer2_extracts_payload_witness :
    (layer2Run smallFiles someUninit "small.spz" "small.glb").map Layer2Run.extractedData =
      .ok (some sixteenByteHeader) ∧
    layer2VerifyLossless smallFiles someUninit "small.spz" "small.glb" = .ok true :=
  layer2_extracts_payload smallFiles someUninit "small.spz" "small.glb" sixteenByteHeader
    [0x67, 0x6c, 0x54, 0x46, 2, 0, 0, 0, 76, 0, 0, 0] [0x4a, 0x53, 0x4f, 0x4e] smallJson
    (ascii "\x7b\"buffers\":[\x7b") [] (ascii "]\x7d") [0x20]
    [16, 0, 0, 0, 0x42, 0x49, 0x4e, 0] 125
    (by decide) (by decide) (by decide) (by decide) (by decide) (by decide) (by decide)
    (by decide) (by decide) (first_occurrence_of_check _ _ (by decide))
    (by simp) (by decide) (by decide)

theorem le32_append_left (a b : Bytes) (off : Nat) (h : off + 4 ≤ a.length) :
    le32 (a ++ b) off = le32 a off := by
  have e : ∀ i, i < a.length → (a ++ b).getD i 0 = a.getD i 0 := by
    intro i hi
    simp [List.getD_eq_getElem?_getD, List.getElem?_append_left hi]
  unfold le32
  rw [e off (by omega), e (off + 1) (by omega), e (off + 2) (by omega), e (off + 3) (by omega)]

/-- Layer 1 on a container that begins with a well-formed 12-byte header and a complete
JSON chunk runs its checks on the JSON text of that chunk. -/
theorem layer1Run_of_header (fs : FileSystem) (u : Uninit) (glbPath : String)
    (header jsonType json rest : Bytes)
    (hglb : fs glbPath = some (header ++ (u32Bytes json.length ++ jsonType) ++ json ++ rest))
    (hheader : header.length = 12) (hmagic : le32 header 0 = 0x46546C67)
    (hversion : le32 header 4 = 2) (hjsonType : jsonType.length = 4)
    (hL : json.length < 2 ^ 32) :
    layer1Run fs u glbPath = layer1Checks (jsonText json) := by
  have hc : header ++ (u32Bytes json.length ++ jsonType) ++ json ++ rest =
      header ++ ((u32Bytes json.length ++ jsonType) ++ (json ++ rest)) := by simp
  have d0 : (header ++ ((u32Bytes json.length ++ jsonType) ++ (json ++ rest))).drop 0 =
      header ++ ((u32Bytes json.length ++ jsonType) ++ (json ++ rest)) := rfl
  have hlen8 : (u32Bytes json.length ++ jsonType).length = 8 := by
    simp [u32Bytes, hjsonType]
  have r0 := read_exact _ _ _ _ d0
  have d1 := drop_after _ _ _ _ d0
  have r1 := read_exact _ _ _ _ d1
  have d2 := drop_after _ _ _ _ d1
  have r2 := read_exact _ _ _ _ d2
  rw [hheader] at r0 r1 r2
  rw [hlen8] at r1 r2
  have hov : le32 (overlay (u32Bytes json.length ++ jsonType) u.jsonChunk) 0 = json.length := by
    unfold overlay
    rw [List.append_assoc]
    exact le32_u32Bytes _ hL _
  have hm : le32 (overlay header u.header) 0 = 0x46546C67 := by
    unfold overlay
    rw [le32_append_left _ _ _ (by omega), hmagic]
  have hv : le32 (overlay header u.header) 4 = 2 := by
    unfold overlay
    rw [le32_append_left _ _ _ (by omega), hversion]
  unfold layer1Run
  simp only [hglb, hc, IfStream.opened, r0, hm, hv, r1, hov, r2, overlay_full, ne_eq,
    not_true_eq_false, if_false]

/-- Layer 3 on a container that begins with a 12-byte header carrying the magic and a
complete JSON chunk runs its checks on the JSON text of that chunk. -/
theorem layer3_of_header (fs : FileSystem) (u : Uninit) (spzPath glbPath : String)
    (header jsonType json rest : Bytes)
    (hglb : fs glbPath = some (header ++ (u32Bytes json.length ++ jsonType) ++ json ++ rest))
    (hheader : header.length = 12) (hmagic : le32 header 0 = 0x46546C67)
    (hjsonType : jsonType.length = 4) (hL : json.length < 2 ^ 32) :
    layer3VerifyDecoding fs u spzPath glbPath =
      layer3Checks (readFileBytes fs spzPath 0).length (jsonText json) := by
  have hc : header ++ (u32Bytes json.length ++ jsonType) ++ json ++ rest =
      header ++ ((u32Bytes json.length ++ jsonType) ++ (json ++ rest)) := by simp
  have d0 : (header ++ ((u32Bytes json.length ++ jsonType) ++ (json ++ rest))).drop 0 =
      header ++ ((u32Bytes json.length ++ jsonType) ++ (json ++ rest)) := rfl
  have hlen8 : (u32Bytes json.length ++ jsonType).length = 8 := by
    simp [u32Bytes, hjsonType]
  have r0 := read_exact _ _ _ _ d0
  have d1 := drop_after _ _ _ _ d0
  have r1 := read_exact _ _ _ _ d1
  have d2 := drop_after _ _ _ _ d1
  have r2 := read_exact _ _ _ _ d2
  rw [hheader] at r0 r1 r2
  rw [hlen8] at r1 r2
  have hov : le32 (overlay (u32Bytes json.length ++ jsonType) u.jsonChunk) 0 = json.length := by
    unfold overlay
    rw [List.append_assoc]
    exact le32_u32Bytes _ hL _
  have hm : le32 (overlay header u.header) 0 = 0x46546C67 := by
    unfold overlay
    rw [le32_append_left _ _ _ (by omega), hmagic]
  unfold layer3VerifyDecoding
  simp only [hglb, hc, IfStream.opened, r0, hm, r1, hov, r2, overlay_full, ne_eq,
    not_true_eq_false, if_false]

theorem kib_layer1Checks :
    layer1Checks (jsonText kibJson) = .ok { passed := some 4, total := 6, result := false } := by
  decide!

theorem kib_layer3Checks : layer3Checks 1024 (jsonText kibJson) = .ok true := by
  decide!

theorem kib_attributes_check : layer1AttributesCheck (jsonText kibJson) = .ok false := by
  decide!

theorem kib_source_length : kibSource.length = 1024 := by
  decide!

theorem kib_glb : kibFiles "model.glb" =
    some ((u32Bytes 0x46546C67 ++ u32Bytes 2 ++ u32Bytes 1600) ++
      (u32Bytes kibJson.length ++ [0x4a, 0x53, 0x4f, 0x4e]) ++ kibJson ++ [] ++
      (u32Bytes 1024 ++ [0x42, 0x49, 0x4e, 0]) ++ kibSource) := by
  simp [kibFiles, kibContainer]

theorem kib_spz : kibFiles "model.spz" = some kibSource := by
  simp [kibFiles]

/-- Claim C4, evaluated on the code: for the 1 KiB source `kibSource` (not gzip-wrapped,
valid header with `numPoints = 100` and `shDegree = 0`) and the well-formed container
`kibContainer` embedding it, Layer 2 and Layer 3 report pass, but Layer 1 reports failure:
its counter ends at 4 of the advertised 6, the check of `"attributes":{}` not being
counted. -/
theorem kib_layers (u : Uninit) :
    kibSource.length = 1024 ∧ ¬ startsWithGzipMagic kibSource ∧
    parseSpzHeader kibSource zeroHeader = (true, decodedHeader) ∧
    layer1Run kibFiles u "model.glb" =
      .ok { passed := some 4, total := 6, result := false } ∧
    layer1AttributesCheck (jsonText kibJson) = .ok false ∧
    layer1ValidateGlbStructure kibFiles u "model.glb" = .ok false ∧
    layer2VerifyLossless kibFiles u "model.spz" "model.glb" = .ok true ∧
    layer3VerifyDecoding kibFiles u "model.spz" "model.glb" = .ok true := by
  have hglb1 : kibFiles "model.glb" =
      some ((u32Bytes 0x46546C67 ++ u32Bytes 2 ++ u32Bytes 1600) ++
        (u32Bytes kibJson.length ++ [0x4a, 0x53, 0x4f, 0x4e]) ++ kibJson ++
        ([] ++ ((u32Bytes 1024 ++ [0x42, 0x49, 0x4e, 0]) ++ kibSource))) := by
    rw [kib_glb]
    simp only [List.append_assoc]
  have hjl : kibJson.length < 2 ^ 32 := by decide!
  have h1 : layer1Run kibFiles u "model.glb" =
      .ok { passed := some 4, total := 6, result := false } := by
    rw [layer1Run_of_header kibFiles u "model.glb" _ _ _ _ hglb1 (by decide) (by decide)
      (by decide) (by decide) hjl]
    exact kib_layer1Checks
  have h2 := layer2Run_of_layout kibFiles u "model.spz" "model.glb" kibSource
    (u32Bytes 0x46546C67 ++ u32Bytes 2 ++ u32Bytes 1600) [0x4a, 0x53, 0x4f, 0x4e] kibJson
    kibJsonHead [] kibJsonTail [] (u32Bytes 1024 ++ [0x42, 0x49, 0x4e, 0]) 125
    kib_spz kib_glb (by rw [kib_source_length]; rfl) (by decide) (by decide)
    hjl (by decide!) (by decide) (by decide!)
    (first_occurrence_of_check _ _ (by decide!)) (by simp) (by decide)
    (by rw [kib_source_length]; decide)
  have h3 : layer3VerifyDecoding kibFiles u "model.spz" "model.glb" = .ok true := by
    rw [layer3_of_header kibFiles u "model.spz" "model.glb" _ _ _ _ hglb1 (by decide)
      (by decide) (by decide) hjl]
    have : (readFileBytes kibFiles "model.spz" 0).length = 1024 := by
      simp [readFileBytes, kib_spz, kib_source_length]
    rw [this]
    exact kib_layer3Checks
  refine ⟨kib_source_length, ?_, by decide!, h1, kib_attributes_check, ?_, ?_, h3⟩
  · rintro ⟨rest, h⟩
    have h0 : kibSource.head? = some 0x4e := by decide!
    rw [h, List.head?_cons] at h0
    exact absurd h0 (by decide)
  · unfold layer1ValidateGlbStructure
    rw [h1]
    rfl
  · unfold layer2VerifyLossless
    rw [h2]
    rfl

/-! ## Theorems: the structure of the built asset -/

/-- Claim C11: for every payload and header, the asset built by `createGltfAsset` lists
exactly the two identifiers `KHR_gaussian_splatting` and
`KHR_gaussian_splatting_compression_spz_2` in `extensionsUsed`, and exactly the same two in
`extensionsRequired`. -/
theorem createGltfAsset_extensions (spzData : Bytes) (header : SpzHeader) :
    (createGltfAsset spzData header).extensionsUsed =
      ["KHR_gaussian_splatting", "KHR_gaussian_splatting_compression_spz_2"] ∧
    (createGltfAsset spzData header).extensionsRequired =
      ["KHR_gaussian_splatting", "KHR_gaussian_splatting_compression_spz_2"] := by
  constructor <;> simp [createGltfAsset, Asset.empty]

/-- Claim C12: for every payload and header, the asset built by `createGltfAsset` has one
buffer, one buffer view, one mesh, one node and one scene; the mesh has one primitive, of
point topology, with no vertex attributes, whose SPZ compression extension references
buffer view 0; there are no accessors; the node references mesh 0, the scene lists node 0
and the default scene is 0. Any two header values give the same asset. -/
theorem createGltfAsset_scaffolding (spzData : Bytes) (header : SpzHeader) :
    (createGltfAsset spzData header).buffers.length = 1 ∧
    (createGltfAsset spzData header).bufferViews.length = 1 ∧
    (createGltfAsset spzData header).meshes =
      [{ primitives :=
          [{ type := PrimitiveType.Points, attributes := [],
             gaussianSplat := some { spzCompression := some { bufferView := 0 } } }] }] ∧
    (createGltfAsset spzData header).accessors = [] ∧
    (createGltfAsset spzData header).nodes = [{ meshIndex := some 0 }] ∧
    (createGltfAsset spzData header).scenes = [{ nodeIndices := [0] }] ∧
    (createGltfAsset spzData header).defaultScene = some 0 ∧
    ∀ header2 : SpzHeader, createGltfAsset spzData header2 = createGltfAsset spzData header := by
  refine ⟨?_, ?_, ?_, ?_, ?_, ?_, ?_, fun _ => rfl⟩ <;> simp [createGltfAsset, Asset.empty]

/-! ## Theorems: searching a string -/

theorem findAt_le (pat : Bytes) (t : Bytes) (k : Nat) :
    findAt pat t k = npos ∨ (k ≤ findAt pat t k ∧ findAt pat t k ≤ k + t.length) := by
  induction t generalizing k with
  | nil =>
    unfold findAt
    by_cases hp : pat = []
    · right; simp [hp]
    · left; simp [hp]
  | cons x t ih =>
    rw [findAt]
    by_cases hx : pat.isPrefixOf (x :: t) = true
    · right; simp [hx]
    · rw [if_neg hx]
      rcases ih (k + 1) with h | ⟨h1, h2⟩
      · left; exact h
      · right
        simp only [List.length_cons]
        omega

theorem findAt_npos_of_not_mem (pat : Bytes) (c : UInt8) (hc : c ∈ pat) (t : Bytes) (k : Nat)
    (ht : c ∉ t) : findAt pat t k = npos := by
  induction t generalizing k with
  | nil =>
    unfold findAt
    rw [if_neg]
    rintro rfl
    simp at hc
  | cons x t ih =>
    have hnot : ¬ pat.isPrefixOf (x :: t) = true := by
      intro h
      exact ht ((List.isPrefixOf_iff_prefix.mp h).subset hc)
    rw [findAt, if_neg hnot]
    exact ih (k + 1) (fun h => ht (List.mem_cons_of_mem _ h))

/-- The result of searching one character: either the character is absent, or the result is
`k + i` with no occurrence among the first `i` elements. -/
theorem findAt_char_cases (c : UInt8) (t : Bytes) (k : Nat) :
    (findAt [c] t k = npos ∧ c ∉ t) ∨ ∃ i, findAt [c] t k = k + i ∧ c ∉ t.take i := by
  induction t generalizing k with
  | nil => left; simp [findAt]
  | cons x t ih =>
    rw [findAt]
    by_cases hx : c = x
    · right
      exact ⟨0, by simp [hx], by simp⟩
    · rw [if_neg (by simp [List.isPrefixOf, hx])]
      rcases ih (k + 1) with ⟨h1, h2⟩ | ⟨i, h1, h2⟩
      · left
        exact ⟨h1, by simp [hx, h2]⟩
      · right
        refine ⟨i + 1, by rw [h1]; omega, ?_⟩
        simp [List.take_succ_cons, hx, h2]

theorem find_zero (s pat : Bytes) : find s pat 0 = findAt pat s 0 := by
  simp [find]

theorem find_eq_npos_of_not_mem (pat : Bytes) (c : UInt8) (hc : c ∈ pat) (s : Bytes)
    (hs : c ∉ s) : find s pat 0 = npos := by
  rw [find_zero]
  exact findAt_npos_of_not_mem pat c hc s 0 hs

/-- The section cut by the attributes check never contains a closing brace. -/
theorem section_without_brace (s : Bytes) (start : Nat) (hstart : start ≤ s.length) :
    (125 : UInt8) ∉
      (s.drop start).take ((find s [125] start + 2 ^ 64 - start) % 2 ^ 64) := by
  unfold find
  rw [if_neg (by omega)]
  rcases findAt_char_cases 125 (s.drop start) start with ⟨-, h2⟩ | ⟨i, h1, h2⟩
  · exact fun h => h2 (List.take_subset _ _ h)
  · rw [h1]
    intro h
    apply h2
    refine List.take_subset_take_left _ ?_ h
    have : (start + i + 2 ^ 64 - start) % 2 ^ 64 = i % 2 ^ 64 := by
      have e : start + i + 2 ^ 64 - start = i + 2 ^ 64 := by omega
      rw [e, Nat.add_mod_right]
    rw [this]
    exact Nat.mod_le _ _

/-- The attributes check of Layer 1 is never counted as passed, on any JSON text. -/
theorem attributesCheck_false (jsonStr : Bytes) :
    layer1AttributesCheck jsonStr = .ok false := by
  unfold layer1AttributesCheck
  by_cases hfound : find jsonStr (ascii "\"attributes\"") 0 = npos
  · simp [hfound, pure, Except.pure]
  · have hle : find jsonStr (ascii "\"attributes\"") 0 ≤ jsonStr.length := by
      rw [find_zero] at hfound ⊢
      rcases findAt_le (ascii "\"attributes\"") jsonStr 0 with h | ⟨-, h⟩
      · exact absurd h hfound
      · omega
    have hbrace : ascii "\x7d" = [125] := by decide
    have hsec := section_without_brace jsonStr _ hle
    have h1 := find_eq_npos_of_not_mem (ascii ": \x7b\x7d") 125 (by decide) _ hsec
    have h2 := find_eq_npos_of_not_mem (ascii ":\x7b\x7d") 125 (by decide) _ hsec
    simp only [hbrace, ne_eq, hfound, not_false_eq_true, if_true, substr,
      if_neg (Nat.not_lt.mpr hle), bind, Except.bind, h1, h2, not_true_eq_false, or_self,
      if_false, pure, Except.pure]

/-- Layer 1's checks always complete, count at most four passed checks out of the
advertised six, and return failure. -/
theorem layer1Checks_bound (jsonStr : Bytes) :
    ∃ p, p ≤ 4 ∧ layer1Checks jsonStr = .ok { passed := some p, total := 6, result := false } := by
  unfold layer1Checks
  simp only [attributesCheck_false, bind, Except.bind, pure, Except.pure, Bool.false_eq_true,
    if_false, Nat.zero_add]
  split_ifs <;> refine ⟨_, ?_, rfl⟩ <;> omega

/-! ## Theorems: what the layers read from a container -/

theorem rest_opened (c : Bytes) : (IfStream.opened c).rest = c := by
  simp [IfStream.opened, IfStream.rest]

theorem rest_read (f : IfStream) (n : Nat) :
    (f.read n).2 = f.rest.take n ∧ (f.read n).1.rest = f.rest.drop n := by
  unfold IfStream.read IfStream.rest
  by_cases hf : f.failed = true
  · simp [hf]
  · simp only [hf, if_false, Bool.false_eq_true]
    refine ⟨trivial, ?_⟩
    by_cases hlt : ((f.content.drop f.pos).take n).length < n
    · simp only [hlt, decide_True, if_true]
      symm
      rw [List.drop_eq_nil_iff]
      simp only [List.length_take] at hlt
      omega
    · simp only [hlt, decide_False, Bool.false_eq_true, if_false]
      have : ((f.content.drop f.pos).take n).length = n := by
        have := List.length_take_le n (f.content.drop f.pos)
        omega
      rw [this, List.drop_drop]

theorem rest_seekgCur (f : IfStream) (off : Nat) : (f.seekgCur off).rest = f.rest.drop off := by
  unfold IfStream.seekgCur IfStream.rest
  by_cases hf : f.failed = true
  · simp [hf]
  · simp [hf, List.drop_drop]

theorem rest_seekg_opened (c : Bytes) (p : Nat) :
    ((IfStream.opened c).seekg p).rest = c.drop p := by
  simp [IfStream.opened, IfStream.seekg, IfStream.rest]

theorem le32_lt (b : Bytes) (off : Nat) : le32 b off < 2 ^ 32 := by
  unfold le32
  have h0 := UInt8.toNat_lt (b.getD off 0)
  have h1 := UInt8.toNat_lt (b.getD (off + 1) 0)
  have h2 := UInt8.toNat_lt (b.getD (off + 2) 0)
  have h3 := UInt8.toNat_lt (b.getD (off + 3) 0)
  omega

theorem le32_take (b : Bytes) (n off : Nat) (h : off + 4 ≤ n) :
    le32 (b.take n) off = le32 b off := by
  unfold le32
  rw [getD_take_of_lt b n off (by omega), getD_take_of_lt b n (off + 1) (by omega),
    getD_take_of_lt b n (off + 2) (by omega), getD_take_of_lt b n (off + 3) (by omega)]

theorem le32_drop (b : Bytes) (n off : Nat) : le32 (b.drop n) off = le32 b (n + off) := by
  have e : ∀ i, (b.drop n).getD i 0 = b.getD (n + i) 0 := by
    intro i
    simp [List.getD_eq_getElem?_getD, List.getElem?_drop]
  unfold le32
  rw [e, e, e, e]
  rfl

/-- The header fields a layer reads from a file holding at least the 12 header bytes do not
depend on the previous content of the storage. -/
theorem header_field (c old : Bytes) (off : Nat) (h12 : 12 ≤ c.length) (hoff : off + 4 ≤ 12) :
    le32 (overlay (c.take 12) old) off = le32 c off := by
  unfold overlay
  rw [le32_append_left _ _ _ (by simp; omega), le32_take _ _ _ hoff]

/-- The chunk length a layer reads from a file holding at least 20 bytes is the one stored
at offset 12. -/
theorem chunkLength_field (c old : Bytes) (h20 : 20 ≤ c.length) :
    le32 (overlay ((c.drop 12).take 8) old) 0 = le32 c 12 := by
  unfold overlay
  rw [le32_append_left _ _ _ (by simp; omega), le32_take _ _ _ (by omega), le32_drop]

theorem findAt_append_of_mem (c : UInt8) (g z : Bytes) (k : Nat) (h : c ∈ g) :
    findAt [c] (g ++ z) k = findAt [c] g k ∧ findAt [c] g k < k + g.length := by
  induction g generalizing k with
  | nil => simp at h
  | cons x g ih =>
    rw [List.cons_append, findAt, findAt]
    by_cases hx : c = x
    · simp [List.isPrefixOf, hx]
    · rw [if_neg (by simp [List.isPrefixOf, hx]), if_neg (by simp [List.isPrefixOf, hx])]
      have hg : c ∈ g := by
        rcases List.mem_cons.mp h with h | h
        · exact absurd h hx
        · exact h
      obtain ⟨h1, h2⟩ := ih (k + 1) hg
      refine ⟨h1, ?_⟩
      simp only [List.length_cons]
      omega

theorem findAt_zeros (g : Bytes) (m k : Nat) (h : (0 : UInt8) ∉ g) :
    findAt [0] (g ++ List.replicate (m + 1) 0) k = k + g.length := by
  rw [List.replicate_succ]
  exact findAt_char 0 g _ k h

/-- Zero bytes after the bytes read do not change the JSON text. -/
theorem jsonText_overlay (got : Bytes) (L : Nat) (hgot : got.length ≤ L) (hL : L < 2 ^ 32) :
    jsonText (overlay got (List.replicate L 0)) = jsonText got := by
  have hov : overlay got (List.replicate L 0) = got ++ List.replicate (L - got.length) 0 := by
    simp [overlay]
  rw [hov]
  unfold jsonText
  simp only [find_zero]
  by_cases hmem : (0 : UInt8) ∈ got
  · obtain ⟨h1, h2⟩ := findAt_append_of_mem 0 got (List.replicate (L - got.length) 0) 0 hmem
    rw [h1]
    have hne : findAt [0] got 0 ≠ npos := by unfold npos; omega
    simp only [hne, ne_eq, not_false_eq_true, if_true]
    rw [List.take_append_of_le_length (by omega)]
  · have hn : findAt [0] got 0 = npos := findAt_npos_of_not_mem [0] 0 (by simp) got 0 hmem
    rw [hn]
    simp only [ne_eq, not_true_eq_false, if_false]
    rcases Nat.eq_zero_or_pos (L - got.length) with h0 | hpos
    · rw [h0]
      simp only [List.replicate_zero, List.append_nil, hn, not_true_eq_false, if_false]
    · obtain ⟨m, hm⟩ : ∃ m, L - got.length = m + 1 := ⟨L - got.length - 1, by omega⟩
      rw [hm, findAt_zeros got m 0 hmem]
      have hne : got.length ≠ npos := by unfold npos; omega
      simp only [Nat.zero_add, ne_eq, hne, not_false_eq_true, if_true, List.take_left]

/-- What Layer 3 computes from the bytes of the container, whatever their number. -/
theorem layer3_general (fs : FileSystem) (u : Uninit) (spzPath glbPath : String) (c : Bytes)
    (hglb : fs glbPath = some c) :
    layer3VerifyDecoding fs u spzPath glbPath =
      if le32 (overlay (c.take 12) u.header) 0 ≠ 0x46546C67 then .ok false
      else layer3Checks (readFileBytes fs spzPath 0).length
        (jsonText (overlay
          ((c.drop 20).take (le32 (overlay ((c.drop 12).take 8) u.jsonChunk) 0))
          (List.replicate (le32 (overlay ((c.drop 12).take 8) u.jsonChunk) 0) 0))) := by
  unfold layer3VerifyDecoding
  simp only [hglb]
  rcases h0 : (IfStream.opened c).read 12 with ⟨f1, got1⟩
  have a0 := rest_read (IfStream.opened c) 12
  rw [h0, rest_opened] at a0
  simp only at a0
  obtain ⟨g1, r1⟩ := a0
  rcases h1 : f1.read 8 with ⟨f2, got2⟩
  have a1 := rest_read f1 8
  rw [h1, r1] at a1
  simp only at a1
  obtain ⟨g2, r2⟩ := a1
  rw [List.drop_drop] at r2
  simp only [g1, g2]
  rcases h2 : f2.read (le32 (overlay ((c.drop 12).take 8) u.jsonChunk) 0) with ⟨f3, got3⟩
  have a2 := rest_read f2 (le32 (overlay ((c.drop 12).take 8) u.jsonChunk) 0)
  rw [h2, r2] at a2
  simp only at a2
  obtain ⟨g3, -⟩ := a2
  simp only [g3]

/-- What Layer 1 computes from the bytes of the container, whatever their number. -/
theorem layer1Run_general (fs : FileSystem) (u : Uninit) (glbPath : String) (c : Bytes)
    (hglb : fs glbPath = some c) :
    layer1Run fs u glbPath =
      if le32 (overlay (c.take 12) u.header) 0 ≠ 0x46546C67 then
        .ok { passed := none, total := 6, result := false }
      else if le32 (overlay (c.take 12) u.header) 4 ≠ 2 then
        .ok { passed := none, total := 6, result := false }
      else layer1Checks
        (jsonText (overlay
          ((c.drop 20).take (le32 (overlay ((c.drop 12).take 8) u.jsonChunk) 0))
          (List.replicate (le32 (overlay ((c.drop 12).take 8) u.jsonChunk) 0) 0))) := by
  unfold layer1Run
  simp only [hglb]
  rcases h0 : (IfStream.opened c).read 12 with ⟨f1, got1⟩
  have a0 := rest_read (IfStream.opened c) 12
  rw [h0, rest_opened] at a0
  simp only at a0
  obtain ⟨g1, r1⟩ := a0
  rcases h1 : f1.read 8 with ⟨f2, got2⟩
  have a1 := rest_read f1 8
  rw [h1, r1] at a1
  simp only at a1
  obtain ⟨g2, r2⟩ := a1
  rw [List.drop_drop] at r2
  simp only [g1, g2]
  rcases h2 : f2.read (le32 (overlay ((c.drop 12).take 8) u.jsonChunk) 0) with ⟨f3, got3⟩
  have a2 := rest_read f2 (le32 (overlay ((c.drop 12).take 8) u.jsonChunk) 0)
  rw [h2, r2] at a2
  simp only at a2
  obtain ⟨g3, -⟩ := a2
  simp only [g3]

/-- What Layer 2 computes from the bytes of the container, whatever their number: the
declared size `n` is extracted from the JSON text, and the binary chunk is the `n` bytes
that follow the JSON chunk, its padding and the 8-byte chunk header, completed with zero
bytes. -/
theorem layer2Run_general (fs : FileSystem) (u : Uninit) (spzPath glbPath : String)
    (c : Bytes) (hglb : fs glbPath = some c) :
    layer2Run fs u spzPath glbPath =
      (layer2BufferSize (jsonText (overlay
          ((c.drop 20).take (le32 (overlay ((c.drop 12).take 8) u.jsonChunk) 0))
          (List.replicate (le32 (overlay ((c.drop 12).take 8) u.jsonChunk) 0) 0)))).bind
        fun n =>
          if n > 2 ^ 63 - 1 then .error Thrown.length_error
          else .ok
            { originalData := readFileBytes fs spzPath 0
              extractedData := some (overlay
                ((c.drop (20 + le32 (overlay ((c.drop 12).take 8) u.jsonChunk) 0 +
                    (4 - le32 (overlay ((c.drop 12).take 8) u.jsonChunk) 0 % 4) % 4 + 8)).take n)
                (List.replicate n 0))
              result := decide
                ((readFileBytes fs spzPath 0).length =
                  (overlay
                    ((c.drop (20 + le32 (overlay ((c.drop 12).take 8) u.jsonChunk) 0 +
                      (4 - le32 (overlay ((c.drop 12).take 8) u.jsonChunk) 0 % 4) % 4 + 8)).take n)
                    (List.replicate n 0)).length ∧
                 Md5Hash.hash u.md5Original (readFileBytes fs spzPath 0) =
                  Md5Hash.hash u.md5Extracted (overlay
                    ((c.drop (20 + le32 (overlay ((c.drop 12).take 8) u.jsonChunk) 0 +
                      (4 - le32 (overlay ((c.drop 12).take 8) u.jsonChunk) 0 % 4) % 4 + 8)).take n)
                    (List.replicate n 0))) } := by
  unfold layer2Run
  simp only [hglb]
  rcases h1 : ((IfStream.opened c).seekg 12).read 8 with ⟨f2, got2⟩
  have a1 := rest_read ((IfStream.opened c).seekg 12) 8
  rw [h1, rest_seekg_opened] at a1
  simp only at a1
  obtain ⟨g2, r2⟩ := a1
  rw [List.drop_drop] at r2
  simp only [g2]
  rcases h2 : f2.read (le32 (overlay ((c.drop 12).take 8) u.jsonChunk) 0) with ⟨f3, got3⟩
  have a2 := rest_read f2 (le32 (overlay ((c.drop 12).take 8) u.jsonChunk) 0)
  rw [h2, r2] at a2
  simp only at a2
  obtain ⟨g3, r3⟩ := a2
  rw [List.drop_drop] at r3
  simp only [g3]
  cases hsize : layer2BufferSize (jsonText (overlay
      ((c.drop 20).take (le32 (overlay ((c.drop 12).take 8) u.jsonChunk) 0))
      (List.replicate (le32 (overlay ((c.drop 12).take 8) u.jsonChunk) 0) 0))) with
  | error e => rfl
  | ok n =>
    simp only [bind, Except.bind]
    rcases h4 : (f3.seekgCur
        ((4 - le32 (overlay ((c.drop 12).take 8) u.jsonChunk) 0 % 4) % 4)).read 8 with ⟨f5, got5⟩
    have a4 := rest_read (f3.seekgCur
        ((4 - le32 (overlay ((c.drop 12).take 8) u.jsonChunk) 0 % 4) % 4)) 8
    rw [h4, rest_seekgCur, r3] at a4
    simp only at a4
    obtain ⟨-, r5⟩ := a4
    rw [List.drop_drop, List.drop_drop] at r5
    have e : 12 + 8 + le32 (overlay ((c.drop 12).take 8) u.jsonChunk) 0 +
        ((4 - le32 (overlay ((c.drop 12).take 8) u.jsonChunk) 0 % 4) % 4 + 8) =
        20 + le32 (overlay ((c.drop 12).take 8) u.jsonChunk) 0 +
          (4 - le32 (overlay ((c.drop 12).take 8) u.jsonChunk) 0 % 4) % 4 + 8 := by omega
    rw [e] at r5
    simp only [gt_iff_lt, Nat.reducePow, Nat.reduceSub]
    by_cases hbig : 9223372036854775807 < n
    · rw [if_pos hbig, if_pos hbig]
    · rw [if_neg hbig, if_neg hbig]
      rcases h6 : f5.read n with ⟨f6, got6⟩
      have a6 := rest_read f5 n
      rw [h6, r5] at a6
      simp only at a6
      obtain ⟨g6, -⟩ := a6
      simp only [g6, pure, Except.pure]


theorem jsonText_length_le (x : Bytes) : (jsonText x).length ≤ x.length := by
  unfold jsonText
  simp only
  split_ifs
  · simp only [List.length_take]
    omega
  · exact Nat.le_refl _

theorem glbJsonText_length_lt (c : Bytes) : (glbJsonText c).length < 2 ^ 32 := by
  have h1 := jsonText_length_le (glbJsonChunk c)
  have h2 : (glbJsonChunk c).length ≤ le32 c 12 := by
    unfold glbJsonChunk
    exact List.length_take_le _ _
  have h3 := le32_lt c 12
  unfold glbJsonText
  omega

theorem jsonText_nil : jsonText [] = [] := by decide

theorem glbJsonText_of_short (c : Bytes) (h : c.length < 20) : glbJsonText c = [] := by
  have e : c.drop 20 = [] := List.drop_eq_nil_iff.mpr (by omega)
  unfold glbJsonText glbJsonChunk
  rw [e]
  simp [jsonText_nil]

/-- The JSON text a layer works on is the JSON text of the container, for a file of at
least 20 bytes and whatever the storage held before. -/
theorem jsonText_read (c old : Bytes) (h20 : 20 ≤ c.length) :
    jsonText (overlay ((c.drop 20).take (le32 (overlay ((c.drop 12).take 8) old) 0))
      (List.replicate (le32 (overlay ((c.drop 12).take 8) old) 0) 0)) = glbJsonText c := by
  rw [chunkLength_field c old h20, jsonText_overlay _ _ (List.length_take_le _ _) (le32_lt _ _)]
  rfl

/-- The JSON text a layer works on is empty when the file has fewer than 20 bytes. -/
theorem jsonText_read_short (c old : Bytes) (h : c.length < 20) :
    jsonText (overlay ((c.drop 20).take (le32 (overlay ((c.drop 12).take 8) old) 0))
      (List.replicate (le32 (overlay ((c.drop 12).take 8) old) 0) 0)) = [] := by
  have e : c.drop 20 = [] := List.drop_eq_nil_iff.mpr (by omega)
  rw [jsonText_overlay _ _ (List.length_take_le _ _) (le32_lt _ _), e]
  simp [jsonText_nil]

theorem layer3Checks_nil (n : Nat) : layer3Checks n [] = .ok false := by
  unfold layer3Checks
  have : find [] (ascii "KHR_gaussian_splatting_compression_spz_2") 0 = npos := by decide
  simp [this, pure, Except.pure]

theorem layer3_of_content (fs : FileSystem) (u : Uninit) (spzPath glbPath : String) (c : Bytes)
    (hglb : fs glbPath = some c) (h20 : 20 ≤ c.length) :
    layer3VerifyDecoding fs u spzPath glbPath =
      if le32 c 0 ≠ 0x46546C67 then .ok false
      else layer3Checks (readFileBytes fs spzPath 0).length (glbJsonText c) := by
  rw [layer3_general fs u spzPath glbPath c hglb, jsonText_read c _ h20,
    header_field c _ 0 (by omega) (by omega)]

theorem layer3_of_short (fs : FileSystem) (u : Uninit) (spzPath glbPath : String) (c : Bytes)
    (hglb : fs glbPath = some c) (h : c.length < 20) :
    layer3VerifyDecoding fs u spzPath glbPath = .ok false := by
  rw [layer3_general fs u spzPath glbPath c hglb, jsonText_read_short c _ h, layer3Checks_nil]
  simp

theorem layer1Run_of_content (fs : FileSystem) (u : Uninit) (glbPath : String) (c : Bytes)
    (hglb : fs glbPath = some c) (h20 : 20 ≤ c.length) :
    layer1Run fs u glbPath =
      if le32 c 0 ≠ 0x46546C67 then .ok { passed := none, total := 6, result := false }
      else if le32 c 4 ≠ 2 then .ok { passed := none, total := 6, result := false }
      else layer1Checks (glbJsonText c) := by
  rw [layer1Run_general fs u glbPath c hglb, jsonText_read c _ h20,
    header_field c _ 0 (by omega) (by omega), header_field c _ 4 (by omega) (by omega)]

theorem findAt_eq_npos_iff (pat t : Bytes) (k : Nat) (h : k + t.length < npos) :
    findAt pat t k = npos ↔ ¬ pat <:+: t := by
  induction t generalizing k with
  | nil =>
    unfold findAt
    by_cases hp : pat = []
    · simp only [hp, if_true, List.infix_nil, not_true_eq_false, iff_false]
      simp only [List.length_nil] at h
      omega
    · simp [hp]
  | cons x t ih =>
    rw [findAt, List.infix_cons_iff]
    simp only [List.length_cons] at h
    by_cases hx : pat.isPrefixOf (x :: t) = true
    · rw [if_pos hx]
      have := List.isPrefixOf_iff_prefix.mp hx
      simp only [this, true_or, not_true_eq_false, iff_false]
      omega
    · rw [if_neg hx, ih (k + 1) (by omega)]
      have : ¬ pat <+: x :: t := fun hp => hx (List.isPrefixOf_iff_prefix.mpr hp)
      simp [this]

/-- A search from the start finds the pattern exactly when it occurs in the string. -/
theorem find_ne_npos_iff (s pat : Bytes) (h : s.length < 2 ^ 32) :
    find s pat 0 ≠ npos ↔ pat <:+: s := by
  rw [find_zero, ne_eq, findAt_eq_npos_iff pat s 0 (by unfold npos; omega), not_not]


/-! ## Theorems: Layer 3 -/

theorem layer3Checks_true_iff (n : Nat) (jsonStr : Bytes) (hlen : jsonStr.length < 2 ^ 32)
    (r : Bool) (h : layer3Checks n jsonStr = .ok r) :
    r = true ↔
      ascii "KHR_gaussian_splatting_compression_spz_2" <:+: jsonStr ∧
      layer3BufferSize jsonStr = .ok n := by
  unfold layer3Checks at h
  by_cases hext : find jsonStr (ascii "KHR_gaussian_splatting_compression_spz_2") 0 = npos
  · have hno : ¬ ascii "KHR_gaussian_splatting_compression_spz_2" <:+: jsonStr := by
      rw [← find_ne_npos_iff jsonStr _ hlen]
      exact fun hc => hc hext
    simp only [hext, if_true, pure, Except.pure, Except.ok.injEq] at h
    subst h
    simp [hno]
  · have hyes : ascii "KHR_gaussian_splatting_compression_spz_2" <:+: jsonStr :=
      (find_ne_npos_iff jsonStr _ hlen).mp hext
    simp only [hext, if_false] at h
    cases hsize : layer3BufferSize jsonStr with
    | error e =>
      rw [hsize] at h
      cases h
    | ok m =>
      rw [hsize] at h
      simp only [bind, Except.bind, pure, Except.pure, Except.ok.injEq] at h
      subst h
      simp only [hyes, true_and, Except.ok.injEq, decide_eq_true_eq]
      exact eq_comm

/-- What Layer 3 decides, in terms of the size its own extraction yields: for every source
file and every openable container file on which `layer3VerifyDecoding` completes, it
reports pass exactly when the container's magic is `0x46546C67`, the JSON text (the JSON
chunk up to its first NUL) contains `KHR_gaussian_splatting_compression_spz_2`, and the
size extracted from the JSON text (`layer3BufferSize`, which is 0 when the text has no
`"byteLength"` key) equals the source file's total length; and the result is the same for
any other source of the same length, so the gzip flag of the source has no influence. -/
theorem layer3_pass_iff (fs : FileSystem) (u : Uninit) (spzPath glbPath : String)
    (source content : Bytes) (r : Bool)
    (hsrc : fs spzPath = some source) (hglb : fs glbPath = some content)
    (hdone : layer3VerifyDecoding fs u spzPath glbPath = .ok r) :
    (r = true ↔
      le32 content 0 = 0x46546C67 ∧
      ascii "KHR_gaussian_splatting_compression_spz_2" <:+: glbJsonText content ∧
      layer3BufferSize (glbJsonText content) = .ok source.length) ∧
    ∀ (fs2 : FileSystem) (source2 : Bytes),
      fs2 spzPath = some source2 → fs2 glbPath = some content →
      source2.length = source.length →
        layer3VerifyDecoding fs2 u spzPath glbPath = .ok r := by
  have hread : ∀ (fs1 : FileSystem) (s1 : Bytes), fs1 spzPath = some s1 →
      (readFileBytes fs1 spzPath 0).length = s1.length := by
    intro fs1 s1 h1
    simp [readFileBytes, h1]
  by_cases h20 : 20 ≤ content.length
  · rw [layer3_of_content fs u spzPath glbPath content hglb h20, hread fs source hsrc] at hdone
    constructor
    · by_cases hm : le32 content 0 = 0x46546C67
      · simp only [hm, ne_eq, not_true_eq_false, if_false] at hdone
        rw [layer3Checks_true_iff _ _ (glbJsonText_length_lt content) r hdone]
        simp [hm]
      · simp only [ne_eq, hm, not_false_eq_true, if_true, Except.ok.injEq] at hdone
        subst hdone
        simp [hm]
    · intro fs2 source2 hs2 hg2 hl2
      rw [layer3_of_content fs2 u spzPath glbPath content hg2 h20, hread fs2 source2 hs2, hl2]
      exact hdone
  · have hshort : content.length < 20 := by omega
    rw [layer3_of_short fs u spzPath glbPath content hglb hshort] at hdone
    simp only [Except.ok.injEq] at hdone
    subst hdone
    constructor
    · rw [glbJsonText_of_short content hshort]
      have : ¬ ascii "KHR_gaussian_splatting_compression_spz_2" <:+: ([] : Bytes) := by
        rw [List.infix_nil]
        decide
      simp [this]
    · intro fs2 source2 _ hg2 _
      exact layer3_of_short fs2 u spzPath glbPath content hg2 hshort

/-- An instance: the 1 KiB source and its container, on which Layer 3 passes with the
magic present and the extracted size equal to the length of the source. -/
theorem layer3_pass_iff_witness :
    layer3VerifyDecoding verifierFiles someUninit "model.spz" "model.glb" = .ok true ∧
    le32 kibContainer 0 = 0x46546C67 ∧
    layer3BufferSize (glbJsonText kibContainer) = .ok kibSource.length :=
  ⟨by decide!,
    ((layer3_pass_iff verifierFiles someUninit "model.spz" "model.glb" kibSource kibContainer
      true (by decide!) (by decide!) (by decide!)).1.mp rfl).1,
    ((layer3_pass_iff verifierFiles someUninit "model.spz" "model.glb" kibSource kibContainer
      true (by decide!) (by decide!) (by decide!)).1.mp rfl).2.2⟩


/-! ## Theorems: malformed headers and unreadable files -/

/-- Two malformed headers that are accepted: `badHeaderContainer` has neither the magic nor
version 2, yet Layer 2 reports pass on it; and `kibContainerV3` has version 3, yet Layer 3
reports pass on it. -/
theorem header_not_validated_by_layers_2_and_3 :
    le32 badHeaderContainer 0 ≠ 0x46546C67 ∧ le32 badHeaderContainer 4 ≠ 2 ∧
    layer2VerifyLossless verifierFiles someUninit "small.spz" "bad.glb" = .ok true ∧
    le32 kibContainerV3 4 ≠ 2 ∧
    layer3VerifyDecoding verifierFiles someUninit "model.spz" "v3.glb" = .ok true := by
  decide!

/-- The header checks the layers have: for every container that holds its 12-byte header,
Layer 1 reports failure when the magic is not `0x46546C67` or the version is not 2,
returning at the header check before any JSON check is counted; and Layer 3 reports
failure when the magic is not `0x46546C67`. -/
theorem malformed_header_rejected (fs : FileSystem) (u : Uninit) (spzPath glbPath : String)
    (content : Bytes) (hglb : fs glbPath = some content) (h12 : 12 ≤ content.length) :
    ((le32 content 0 ≠ 0x46546C67 ∨ le32 content 4 ≠ 2) →
      layer1Run fs u glbPath = .ok { passed := none, total := 6, result := false } ∧
      layer1ValidateGlbStructure fs u glbPath = .ok false) ∧
    (le32 content 0 ≠ 0x46546C67 → layer3VerifyDecoding fs u spzPath glbPath = .ok false) := by
  constructor
  · intro hbad
    have h1 : layer1Run fs u glbPath = .ok { passed := none, total := 6, result := false } := by
      rw [layer1Run_general fs u glbPath content hglb,
        header_field content _ 0 h12 (by omega), header_field content _ 4 h12 (by omega)]
      by_cases hm : le32 content 0 = 0x46546C67
      · rcases hbad with h | h
        · exact absurd hm h
        · simp [hm, h]
      · simp [hm]
    refine ⟨h1, ?_⟩
    unfold layer1ValidateGlbStructure
    rw [h1]
    rfl
  · intro hm
    rw [layer3_general fs u spzPath glbPath content hglb,
      header_field content _ 0 h12 (by omega)]
    simp [hm]

/-- An instance: `badHeaderContainer` is rejected by Layer 1 at the header check and by
Layer 3. -/
theorem malformed_header_rejected_witness :
    layer1Run verifierFiles someUninit "bad.glb" =
      .ok { passed := none, total := 6, result := false } ∧
    layer3VerifyDecoding verifierFiles someUninit "small.spz" "bad.glb" = .ok false :=
  ⟨((malformed_header_rejected verifierFiles someUninit "small.spz" "bad.glb"
      badHeaderContainer (by decide!) (by decide!)).1 (Or.inl (by decide!))).1,
    (malformed_header_rejected verifierFiles someUninit "small.spz" "bad.glb"
      badHeaderContainer (by decide!) (by decide!)).2 (by decide!)⟩


/-- What Layer 2 computes from a container of at least 20 bytes: the declared size is
extracted from the JSON text of the container, and the binary chunk is the slice of that
size completed with zero bytes. -/
theorem layer2Run_of_content (fs : FileSystem) (u : Uninit) (spzPath glbPath : String)
    (c : Bytes) (hglb : fs glbPath = some c) (h20 : 20 ≤ c.length) :
    layer2Run fs u spzPath glbPath =
      (layer2BufferSize (glbJsonText c)).bind fun n =>
        if n > 2 ^ 63 - 1 then .error Thrown.length_error
        else .ok
          { originalData := readFileBytes fs spzPath 0
            extractedData := some (overlay (glbBinarySlice c n) (List.replicate n 0))
            result := decide
              ((readFileBytes fs spzPath 0).length =
                (overlay (glbBinarySlice c n) (List.replicate n 0)).length ∧
               Md5Hash.hash u.md5Original (readFileBytes fs spzPath 0) =
                Md5Hash.hash u.md5Extracted
                  (overlay (glbBinarySlice c n) (List.replicate n 0))) } := by
  rw [layer2Run_general fs u spzPath glbPath c hglb, jsonText_read c _ h20,
    chunkLength_field c _ h20]
  rfl

/-- Layer 2 raises whatever the extraction of the declared size raises. -/
theorem layer2_throws (fs : FileSystem) (u : Uninit) (spzPath glbPath : String)
    (c : Bytes) (e : Thrown) (hglb : fs glbPath = some c) (h20 : 20 ≤ c.length)
    (hsize : layer2BufferSize (glbJsonText c) = .error e) :
    layer2VerifyLossless fs u spzPath glbPath = .error e := by
  unfold layer2VerifyLossless
  rw [layer2Run_of_content fs u spzPath glbPath c hglb h20, hsize]
  rfl

/-- Layer 2 passes on an empty source when the declared size is 0. -/
theorem layer2_passes_on_empty (fs : FileSystem) (u : Uninit) (spzPath glbPath : String)
    (c : Bytes) (hglb : fs glbPath = some c) (h20 : 20 ≤ c.length)
    (hsrc : readFileBytes fs spzPath 0 = [])
    (hsize : layer2BufferSize (glbJsonText c) = .ok 0) :
    layer2VerifyLossless fs u spzPath glbPath = .ok true := by
  unfold layer2VerifyLossless
  rw [layer2Run_of_content fs u spzPath glbPath c hglb h20, hsize, hsrc]
  have hh : Md5Hash.hash u.md5Original [] = Md5Hash.hash u.md5Extracted [] :=
    hash_uninit_irrelevant _ _ _
  simp [bind, Except.bind, Except.map, overlay, glbBinarySlice, hh]

/-- Layer 3 raises whatever the extraction of the declared size raises, when the magic and
the extension identifier are present. -/
theorem layer3_throws (fs : FileSystem) (u : Uninit) (spzPath glbPath : String)
    (c : Bytes) (e : Thrown) (hglb : fs glbPath = some c) (h20 : 20 ≤ c.length)
    (hmagic : le32 c 0 = 0x46546C67)
    (hext : find (glbJsonText c) (ascii "KHR_gaussian_splatting_compression_spz_2") 0 ≠ npos)
    (hsize : layer3BufferSize (glbJsonText c) = .error e) :
    layer3VerifyDecoding fs u spzPath glbPath = .error e := by
  rw [layer3_of_content fs u spzPath glbPath c hglb h20]
  unfold layer3Checks
  simp [hmagic, hext, hsize, bind, Except.bind, pure, Except.pure]

/-- Layer 3 passes when the magic and the extension identifier are present and the
extracted size is the length of what was read of the source. -/
theorem layer3_passes (fs : FileSystem) (u : Uninit) (spzPath glbPath : String)
    (c : Bytes) (hglb : fs glbPath = some c) (h20 : 20 ≤ c.length)
    (hmagic : le32 c 0 = 0x46546C67)
    (hext : find (glbJsonText c) (ascii "KHR_gaussian_splatting_compression_spz_2") 0 ≠ npos)
    (hsize : layer3BufferSize (glbJsonText c) = .ok (readFileBytes fs spzPath 0).length) :
    layer3VerifyDecoding fs u spzPath glbPath = .ok true := by
  rw [layer3_of_content fs u spzPath glbPath c hglb h20]
  unfold layer3Checks
  simp [hmagic, hext, hsize, bind, Except.bind, pure, Except.pure]

theorem layers_fail_without_container (fs : FileSystem) (u : Uninit)
    (spzPath glbPath : String) (h : fs glbPath = none) :
    layer2VerifyLossless fs u spzPath glbPath = .ok false ∧
    layer3VerifyDecoding fs u spzPath glbPath = .ok false := by
  constructor
  · simp [layer2VerifyLossless, layer2Run, h, Except.map]
  · simp [layer3VerifyDecoding, h]

/-- Claim C15, evaluated on the code: `missing.spz` cannot be opened, yet Layer 2 and
Layer 3 both report pass on `empty.glb`, a container that declares a buffer of 0 bytes;
the source is silently read as empty. A container that cannot be opened does make both
layers fail. -/
theorem unreadable_source_passes (u : Uninit) :
    verifierFiles "missing.spz" = none ∧
    layer2VerifyLossless verifierFiles u "missing.spz" "empty.glb" = .ok true ∧
    layer3VerifyDecoding verifierFiles u "missing.spz" "empty.glb" = .ok true ∧
    ∀ (fs : FileSystem) (spzPath glbPath : String), fs glbPath = none →
      layer2VerifyLossless fs u spzPath glbPath = .ok false ∧
      layer3VerifyDecoding fs u spzPath glbPath = .ok false := by
  refine ⟨by decide, ?_, ?_, fun fs spzPath glbPath h =>
    layers_fail_without_container fs u spzPath glbPath h⟩
  · exact layer2_passes_on_empty verifierFiles u "missing.spz" "empty.glb"
      emptyPayloadContainer (by decide!) (by decide!) (by decide!) (by decide!)
  · exact layer3_passes verifierFiles u "missing.spz" "empty.glb" emptyPayloadContainer
      (by decide!) (by decide!) (by decide!) (by decide!) (by decide!)

/-- Claim C16, evaluated on the code: on `null.glb`, whose `"byteLength"` value is `null`,
Layer 2 and Layer 3 raise `std::invalid_argument` for every source; and on `nolength.glb`,
which has no `"byteLength"` key, both layers report pass for the empty source
`empty.spz`. -/
theorem byteLength_not_validated (u : Uninit) :
    (∀ (fs : FileSystem) (spzPath glbPath : String),
      fs glbPath = some nullLengthContainer →
        layer2VerifyLossless fs u spzPath glbPath = .error Thrown.invalid_argument ∧
        layer3VerifyDecoding fs u spzPath glbPath = .error Thrown.invalid_argument) ∧
    find (glbJsonText noLengthContainer) (ascii "\"byteLength\"") 0 = npos ∧
    layer2VerifyLossless verifierFiles u "empty.spz" "nolength.glb" = .ok true ∧
    layer3VerifyDecoding verifierFiles u "empty.spz" "nolength.glb" = .ok true := by
  refine ⟨?_, by decide!, ?_, ?_⟩
  · intro fs spzPath glbPath hglb
    exact ⟨layer2_throws fs u spzPath glbPath nullLengthContainer _ hglb (by decide!)
        (by decide!),
      layer3_throws fs u spzPath glbPath nullLengthContainer _ hglb (by decide!) (by decide!)
        (by decide!) (by decide!)⟩
  · exact layer2_passes_on_empty verifierFiles u "empty.spz" "nolength.glb"
      noLengthContainer (by decide!) (by decide!) (by decide!) (by decide!)
  · exact layer3_passes verifierFiles u "empty.spz" "nolength.glb" noLengthContainer
      (by decide!) (by decide!) (by decide!) (by decide!) (by decide!)


/-! ## Theorems: Layer 1 and the exit status -/

/-- Layer 1 always completes with failure, at the header check or with at most four
counted checks. -/
theorem layer1Run_always (fs : FileSystem) (u : Uninit) (glbPath : String) :
    ∃ passed, layer1Run fs u glbPath = .ok { passed := passed, total := 6, result := false } ∧
      ∀ p, passed = some p → p ≤ 4 := by
  cases hglb : fs glbPath with
  | none =>
    refine ⟨none, ?_, by simp⟩
    simp [layer1Run, hglb]
  | some c =>
    rw [layer1Run_general fs u glbPath c hglb]
    split_ifs
    · exact ⟨none, rfl, by simp⟩
    · exact ⟨none, rfl, by simp⟩
    · obtain ⟨p, hp, h⟩ := layer1Checks_bound
        (jsonText (overlay
          ((c.drop 20).take (le32 (overlay ((c.drop 12).take 8) u.jsonChunk) 0))
          (List.replicate (le32 (overlay ((c.drop 12).take 8) u.jsonChunk) 0) 0)))
      refine ⟨some p, h, ?_⟩
      intro q hq
      cases hq
      exact hp

theorem layer1_false (fs : FileSystem) (u : Uninit) (glbPath : String) :
    layer1ValidateGlbStructure fs u glbPath = .ok false := by
  obtain ⟨passed, h, -⟩ := layer1Run_always fs u glbPath
  unfold layer1ValidateGlbStructure
  rw [h]
  rfl

/-- Claim C20, evaluated on the code: the attributes check of Layer 1 is not counted as
passed for a JSON text that contains `"attributes":{}` or `"attributes": {}`, whatever
stands before and after; indeed it is counted for no JSON text at all. -/
theorem empty_attributes_not_counted (before after : Bytes) :
    layer1AttributesCheck (before ++ ascii "\"attributes\":\x7b\x7d" ++ after) = .ok false ∧
    layer1AttributesCheck (before ++ ascii "\"attributes\": \x7b\x7d" ++ after) = .ok false ∧
    ∀ jsonStr : Bytes, layer1AttributesCheck jsonStr = .ok false :=
  ⟨attributesCheck_false _, attributesCheck_false _, attributesCheck_false⟩

theorem main_all_ok (fs : FileSystem) (u : Uninit) (prog command spzPath glbPath : String)
    (rest : List String) (hc : command = "all" ∨ command = "verify") (r1 r2 r3 : Bool)
    (h1 : layer1ValidateGlbStructure fs u glbPath = .ok r1)
    (h2 : layer2VerifyLossless fs u spzPath glbPath = .ok r2)
    (h3 : layer3VerifyDecoding fs u spzPath glbPath = .ok r3) :
    SpzVerify.main fs u (prog :: command :: spzPath :: glbPath :: rest) =
      .ok (if (r1 && r2 && r3) = true then 0 else 1) := by
  have hn : ¬ (rest.length + 1 + 1 + 1 + 1 < 2) := by omega
  rcases hc with rfl | rfl <;>
    cases r1 <;> cases r2 <;> cases r3 <;>
      simp [SpzVerify.main, h1, h2, h3, hn, bind, Except.bind, pure, Except.pure]

theorem main_all_throws (fs : FileSystem) (u : Uninit) (prog command spzPath glbPath : String)
    (rest : List String) (hc : command = "all" ∨ command = "verify") (e : Thrown) :
    (layer1ValidateGlbStructure fs u glbPath = .error e →
      SpzVerify.main fs u (prog :: command :: spzPath :: glbPath :: rest) = .error e) ∧
    (∀ r1, layer1ValidateGlbStructure fs u glbPath = .ok r1 →
      layer2VerifyLossless fs u spzPath glbPath = .error e →
      SpzVerify.main fs u (prog :: command :: spzPath :: glbPath :: rest) = .error e) ∧
    (∀ r1 r2, layer1ValidateGlbStructure fs u glbPath = .ok r1 →
      layer2VerifyLossless fs u spzPath glbPath = .ok r2 →
      layer3VerifyDecoding fs u spzPath glbPath = .error e →
      SpzVerify.main fs u (prog :: command :: spzPath :: glbPath :: rest) = .error e) := by
  have hn : ¬ (rest.length + 1 + 1 + 1 + 1 < 2) := by omega
  refine ⟨?_, ?_, ?_⟩
  · intro h1
    rcases hc with rfl | rfl <;>
      simp [SpzVerify.main, h1, hn, bind, Except.bind]
  · intro r1 h1 h2
    rcases hc with rfl | rfl <;>
      simp [SpzVerify.main, h1, h2, hn, bind, Except.bind]
  · intro r1 r2 h1 h2 h3
    rcases hc with rfl | rfl <;>
      simp [SpzVerify.main, h1, h2, h3, hn, bind, Except.bind]

theorem main_layer1 (fs : FileSystem) (u : Uninit) (prog glbPath : String)
    (rest : List String) :
    SpzVerify.main fs u (prog :: "layer1" :: glbPath :: rest) =
      (layer1ValidateGlbStructure fs u glbPath).map fun r => if r = true then 0 else 1 := by
  have hn : ¬ (rest.length + 1 + 1 + 1 < 2) := by omega
  simp [SpzVerify.main, hn]

theorem main_layer2 (fs : FileSystem) (u : Uninit) (prog spzPath glbPath : String)
    (rest : List String) :
    SpzVerify.main fs u (prog :: "layer2" :: spzPath :: glbPath :: rest) =
      (layer2VerifyLossless fs u spzPath glbPath).map fun r => if r = true then 0 else 1 := by
  have hn : ¬ (rest.length + 1 + 1 + 1 + 1 < 2) := by omega
  simp [SpzVerify.main, hn]

theorem main_layer3 (fs : FileSystem) (u : Uninit) (prog spzPath glbPath : String)
    (rest : List String) :
    SpzVerify.main fs u (prog :: "layer3" :: spzPath :: glbPath :: rest) =
      (layer3VerifyDecoding fs u spzPath glbPath).map fun r => if r = true then 0 else 1 := by
  have hn : ¬ (rest.length + 1 + 1 + 1 + 1 < 2) := by omega
  simp [SpzVerify.main, hn]

theorem map_exit_zero_iff (x : Except Thrown Bool) :
    (x.map fun r => if r = true then 0 else 1) = .ok 0 ↔ x = .ok true := by
  cases x with
  | error e => simp [Except.map]
  | ok r => cases r <;> simp [Except.map]

theorem map_exit_one (x : Except Thrown Bool) (h : x = .ok false) :
    (x.map fun r => if r = true then 0 else 1) = .ok 1 := by
  rw [h]
  rfl


theorem main_too_few (fs : FileSystem) (u : Uninit) (argv : List String) :
    (argv.length < 3 → SpzVerify.main fs u argv = .ok 1) ∧
    (argv.length < 4 → argv.getD 1 "" ≠ "layer1" → SpzVerify.main fs u argv = .ok 1) := by
  constructor
  · intro h
    unfold SpzVerify.main
    simp only
    split_ifs with h1 h2 h3 h4 h5
    · rfl
    · exact absurd h2.2 (by omega)
    · exact absurd h3.2 (by omega)
    · exact absurd h4.2 (by omega)
    · exact absurd h5.2 (by omega)
    · rfl
  · intro h hne
    unfold SpzVerify.main
    simp only
    split_ifs with h1 h2 h3 h4 h5
    · rfl
    · exact absurd h2.1 hne
    · exact absurd h3.2 (by omega)
    · exact absurd h4.2 (by omega)
    · exact absurd h5.2 (by omega)
    · rfl

theorem main_unknown_command (fs : FileSystem) (u : Uninit) (argv : List String)
    (h : argv.getD 1 "" ∉ ["layer1", "layer2", "layer3", "all", "verify"]) :
    SpzVerify.main fs u argv = .ok 1 := by
  simp only [List.mem_cons, List.mem_singleton, List.not_mem_nil, or_false, not_or] at h
  obtain ⟨n1, n2, n3, n4, n5⟩ := h
  unfold SpzVerify.main
  simp only
  split_ifs with h1 h2 h3 h4 h5
  · rfl
  · exact absurd h2.1 n1
  · exact absurd h3.1 n2
  · exact absurd h4.1 n3
  · rcases h5.1 with h | h
    · exact absurd h n4
    · exact absurd h n5
  · rfl

/-- The verifier's exit status in terms of the outcomes of the layers. `layer1
<glb>`, `layer2 <spz> <glb>` and `layer3 <spz> <glb>` return 0 exactly when that layer
passes, and 1 when it fails; `all` and `verify` return 0 exactly when all three layers
pass, return 1 when the three layers complete and one fails, and evaluate every layer
whatever the earlier results were (a later layer that raises ends the run even after an
earlier failure); every other argument vector (no command, an unknown command, too few
arguments) returns 1. -/
theorem main_exit_status (fs : FileSystem) (u : Uninit) (prog spzPath glbPath : String)
    (rest : List String) :
    (SpzVerify.main fs u (prog :: "layer1" :: glbPath :: rest) = .ok 0 ↔
      layer1ValidateGlbStructure fs u glbPath = .ok true) ∧
    (layer1ValidateGlbStructure fs u glbPath = .ok false →
      SpzVerify.main fs u (prog :: "layer1" :: glbPath :: rest) = .ok 1) ∧
    (SpzVerify.main fs u (prog :: "layer2" :: spzPath :: glbPath :: rest) = .ok 0 ↔
      layer2VerifyLossless fs u spzPath glbPath = .ok true) ∧
    (layer2VerifyLossless fs u spzPath glbPath = .ok false →
      SpzVerify.main fs u (prog :: "layer2" :: spzPath :: glbPath :: rest) = .ok 1) ∧
    (SpzVerify.main fs u (prog :: "layer3" :: spzPath :: glbPath :: rest) = .ok 0 ↔
      layer3VerifyDecoding fs u spzPath glbPath = .ok true) ∧
    (layer3VerifyDecoding fs u spzPath glbPath = .ok false →
      SpzVerify.main fs u (prog :: "layer3" :: spzPath :: glbPath :: rest) = .ok 1) ∧
    (∀ command : String, command = "all" ∨ command = "verify" →
      (SpzVerify.main fs u (prog :: command :: spzPath :: glbPath :: rest) = .ok 0 ↔
        layer1ValidateGlbStructure fs u glbPath = .ok true ∧
        layer2VerifyLossless fs u spzPath glbPath = .ok true ∧
        layer3VerifyDecoding fs u spzPath glbPath = .ok true) ∧
      (∀ r1 r2 r3 : Bool,
        layer1ValidateGlbStructure fs u glbPath = .ok r1 →
        layer2VerifyLossless fs u spzPath glbPath = .ok r2 →
        layer3VerifyDecoding fs u spzPath glbPath = .ok r3 →
        SpzVerify.main fs u (prog :: command :: spzPath :: glbPath :: rest) =
          .ok (if (r1 && r2 && r3) = true then 0 else 1)) ∧
      (∀ (r1 : Bool) (e : Thrown),
        layer1ValidateGlbStructure fs u glbPath = .ok r1 →
        layer2VerifyLossless fs u spzPath glbPath = .error e →
        SpzVerify.main fs u (prog :: command :: spzPath :: glbPath :: rest) = .error e) ∧
      (∀ (r1 r2 : Bool) (e : Thrown),
        layer1ValidateGlbStructure fs u glbPath = .ok r1 →
        layer2VerifyLossless fs u spzPath glbPath = .ok r2 →
        layer3VerifyDecoding fs u spzPath glbPath = .error e →
        SpzVerify.main fs u (prog :: command :: spzPath :: glbPath :: rest) = .error e)) ∧
    (∀ argv : List String, argv.length < 2 → SpzVerify.main fs u argv = .ok 1) ∧
    (∀ argv : List String,
      argv.getD 1 "" ∉ ["layer1", "layer2", "layer3", "all", "verify"] →
        SpzVerify.main fs u argv = .ok 1) ∧
    (∀ argv : List String, argv.length < 3 → SpzVerify.main fs u argv = .ok 1) ∧
    (∀ argv : List String, argv.length < 4 → argv.getD 1 "" ≠ "layer1" →
      SpzVerify.main fs u argv = .ok 1) := by
  refine ⟨?_, ?_, ?_, ?_, ?_, ?_, ?_, ?_, ?_, ?_, ?_⟩
  · rw [main_layer1]; exact map_exit_zero_iff _
  · intro h; rw [main_layer1]; exact map_exit_one _ h
  · rw [main_layer2]; exact map_exit_zero_iff _
  · intro h; rw [main_layer2]; exact map_exit_one _ h
  · rw [main_layer3]; exact map_exit_zero_iff _
  · intro h; rw [main_layer3]; exact map_exit_one _ h
  · intro command hc
    have t1 := fun e => (main_all_throws fs u prog command spzPath glbPath rest hc e).1
    have t2 := fun e => (main_all_throws fs u prog command spzPath glbPath rest hc e).2.1
    have t3 := fun e => (main_all_throws fs u prog command spzPath glbPath rest hc e).2.2
    refine ⟨?_, fun r1 r2 r3 h1 h2 h3 =>
        main_all_ok fs u prog command spzPath glbPath rest hc r1 r2 r3 h1 h2 h3,
      fun r1 e h1 h2 => t2 e r1 h1 h2, fun r1 r2 e h1 h2 h3 => t3 e r1 r2 h1 h2 h3⟩
    cases h1 : layer1ValidateGlbStructure fs u glbPath with
    | error e => rw [t1 e h1]; simp
    | ok r1 =>
      cases h2 : layer2VerifyLossless fs u spzPath glbPath with
      | error e => rw [t2 e r1 h1 h2]; simp
      | ok r2 =>
        cases h3 : layer3VerifyDecoding fs u spzPath glbPath with
        | error e => rw [t3 e r1 r2 h1 h2 h3]; simp
        | ok r3 =>
          rw [main_all_ok fs u prog command spzPath glbPath rest hc r1 r2 r3 h1 h2 h3]
          cases r1 <;> cases r2 <;> cases r3 <;> simp
  · intro argv h
    exact (main_too_few fs u argv).1 (by omega)
  · exact fun argv h => main_unknown_command fs u argv h
  · exact fun argv h => (main_too_few fs u argv).1 h
  · exact fun argv h hne => (main_too_few fs u argv).2 h hne


/-- Claim C19: Layer 1 reports failure for every container file. Its run ends at the header
check or with a count of passed checks below the advertised total of 6, so a 6/6 pass
cannot happen; and the commands `layer1`, `all` and `verify` never exit with status 0. -/
theorem layer1_never_passes (fs : FileSystem) (u : Uninit) (glbPath : String) :
    layer1ValidateGlbStructure fs u glbPath = .ok false ∧
    (∃ passed, layer1Run fs u glbPath =
        .ok { passed := passed, total := 6, result := false } ∧
      ∀ p, passed = some p → p < 6) ∧
    ∀ argv : List String,
      (argv.getD 1 "" = "layer1" ∨ argv.getD 1 "" = "all" ∨ argv.getD 1 "" = "verify") →
        SpzVerify.main fs u argv ≠ .ok 0 := by
  refine ⟨layer1_false fs u glbPath, ?_, ?_⟩
  · obtain ⟨passed, h, hp⟩ := layer1Run_always fs u glbPath
    exact ⟨passed, h, fun p e => by have := hp p e; omega⟩
  · intro argv hcmd
    have hone : (Except.ok 1 : Except Thrown Nat) ≠ .ok 0 := by simp
    match argv, hcmd with
    | [], _ => rw [(main_too_few fs u []).1 (by simp)]; exact hone
    | [_], _ => rw [(main_too_few fs u [_]).1 (by simp)]; exact hone
    | [_, _], _ => rw [(main_too_few fs u [_, _]).1 (by simp)]; exact hone
    | [a, b, c], hcmd =>
      by_cases hb : b = "layer1"
      · subst hb
        rw [main_layer1, map_exit_one _ (layer1_false fs u c)]
        exact hone
      · rw [(main_too_few fs u [a, b, c]).2 (by simp) (by simpa using hb)]
        exact hone
    | a :: b :: c :: d :: rest, hcmd =>
      simp only [List.getD_cons_succ, List.getD_cons_zero] at hcmd
      rcases hcmd with hb | hb
      · subst hb
        rw [main_layer1, map_exit_one _ (layer1_false fs u c)]
        exact hone
      · cases h2 : layer2VerifyLossless fs u c d with
        | error e =>
          rw [(main_all_throws fs u a b c d rest hb e).2.1 false (layer1_false fs u d) h2]
          simp
        | ok r2 =>
          cases h3 : layer3VerifyDecoding fs u c d with
          | error e =>
            rw [(main_all_throws fs u a b c d rest hb e).2.2 false r2
              (layer1_false fs u d) h2 h3]
            simp
          | ok r3 =>
            rw [main_all_ok fs u a b c d rest hb false r2 r3 (layer1_false fs u d) h2 h3]
            simp

/-! ## Theorems: corruption of the payload -/

/-- The fields of a container made of a 12-byte header, an 8-byte chunk header announcing
the length of `json`, the bytes `json`, and anything after them. -/
theorem glb_fields (header chunkHeader json tail : Bytes)
    (hheader : header.length = 12) (hchunk : chunkHeader.length = 8)
    (hlen : le32 chunkHeader 0 = json.length) :
    20 ≤ (header ++ chunkHeader ++ json ++ tail).length ∧
    le32 (header ++ chunkHeader ++ json ++ tail) 0 = le32 header 0 ∧
    le32 (header ++ chunkHeader ++ json ++ tail) 4 = le32 header 4 ∧
    glbJsonText (header ++ chunkHeader ++ json ++ tail) = jsonText json := by
  have hc : header ++ chunkHeader ++ json ++ tail =
      header ++ (chunkHeader ++ (json ++ tail)) := by simp
  have h12 : le32 (header ++ chunkHeader ++ json ++ tail) 12 = json.length := by
    rw [hc, ← Nat.add_zero 12, ← le32_drop, List.drop_left' hheader,
      le32_append_left _ _ _ (by omega), hlen]
  refine ⟨?_, ?_, ?_, ?_⟩
  · simp only [List.length_append]
    omega
  · rw [hc, le32_append_left _ _ _ (by omega)]
  · rw [hc, le32_append_left _ _ _ (by omega)]
  · unfold glbJsonText glbJsonChunk
    rw [h12]
    have hd : (header ++ chunkHeader ++ json ++ tail).drop 20 = json ++ tail := by
      have e : header ++ chunkHeader ++ json ++ tail =
          (header ++ chunkHeader) ++ (json ++ tail) := by simp
      rw [e]
      exact List.drop_left' (by simp [hheader, hchunk])
    rw [hd, List.take_left]

/-- Claim C18: Layer 1 and Layer 3 are insensitive to what follows the JSON chunk. For
every source and any two container files that agree on the 12-byte header, the JSON chunk
header and the JSON chunk bytes, whatever follows in each, Layer 1 returns the same result
(and the same counters) on both and Layer 3 returns the same result on both, whatever the
uninitialised storage held in either run. -/
theorem layers_1_3_ignore_payload (fs : FileSystem) (u1 u2 : Uninit)
    (spzPath glb1 glb2 : String) (header chunkHeader json tail1 tail2 : Bytes)
    (h1 : fs glb1 = some (header ++ chunkHeader ++ json ++ tail1))
    (h2 : fs glb2 = some (header ++ chunkHeader ++ json ++ tail2))
    (hheader : header.length = 12) (hchunk : chunkHeader.length = 8)
    (hlen : le32 chunkHeader 0 = json.length) :
    layer1ValidateGlbStructure fs u1 glb1 = layer1ValidateGlbStructure fs u2 glb2 ∧
    layer1Run fs u1 glb1 = layer1Run fs u2 glb2 ∧
    layer3VerifyDecoding fs u1 spzPath glb1 = layer3VerifyDecoding fs u2 spzPath glb2 := by
  obtain ⟨a1, b1, c1, d1⟩ := glb_fields header chunkHeader json tail1 hheader hchunk hlen
  obtain ⟨a2, b2, c2, d2⟩ := glb_fields header chunkHeader json tail2 hheader hchunk hlen
  have hrun : layer1Run fs u1 glb1 = layer1Run fs u2 glb2 := by
    rw [layer1Run_of_content fs u1 glb1 _ h1 a1, layer1Run_of_content fs u2 glb2 _ h2 a2,
      b1, b2, c1, c2, d1, d2]
  refine ⟨?_, hrun, ?_⟩
  · unfold layer1ValidateGlbStructure
    rw [hrun]
  · rw [layer3_of_content fs u1 spzPath glb1 _ h1 a1,
      layer3_of_content fs u2 spzPath glb2 _ h2 a2, b1, b2, d1, d2]

/-- The witness of claim C18: `kibCorrupted` differs from `kibContainer` in the last byte
of the binary chunk only; Layer 1 and Layer 3 return the same on both. -/
theorem layers_1_3_ignore_payload_witness :
    kibContainer ≠ kibCorrupted ∧
    layer1Run verifierFiles someUninit "model.glb" =
      layer1Run verifierFiles someUninit "corrupt.glb" ∧
    layer3VerifyDecoding verifierFiles someUninit "model.spz" "model.glb" =
      layer3VerifyDecoding verifierFiles someUninit "model.spz" "corrupt.glb" :=
  ⟨by decide!,
    (layers_1_3_ignore_payload verifierFiles someUninit someUninit "model.spz" "model.glb"
      "corrupt.glb" (u32Bytes 0x46546C67 ++ u32Bytes 2 ++ u32Bytes 1600)
      (u32Bytes kibJson.length ++ [0x4a, 0x53, 0x4f, 0x4e]) kibJson
      ((u32Bytes 1024 ++ [0x42, 0x49, 0x4e, 0]) ++ kibSource)
      ((u32Bytes 1024 ++ [0x42, 0x49, 0x4e, 0]) ++ sixteenByteHeader ++
        List.replicate 1007 0x5a ++ [0x5b])
      (by decide!) (by decide!) (by decide!) (by decide!) (by decide!)).2⟩



/-! ## Theorems: the extraction of the declared byte length -/

theorem findAt_occurrence (pat : Bytes) (hne : pat ≠ []) (t : Bytes) (i k : Nat)
    (hocc : pat <+: t.drop i) :
    ∃ j, j ≤ i ∧ findAt pat t k = k + j ∧ pat <+: t.drop j := by
  induction t generalizing i k with
  | nil =>
    simp only [List.drop_nil, List.prefix_nil] at hocc
    exact absurd hocc hne
  | cons x t ih =>
    rw [findAt]
    by_cases hx : pat.isPrefixOf (x :: t) = true
    · exact ⟨0, Nat.zero_le _, by simp [hx], by
        simpa using List.isPrefixOf_iff_prefix.mp hx⟩
    · rw [if_neg hx]
      cases i with
      | zero =>
        exact absurd (List.isPrefixOf_iff_prefix.mpr (by simpa using hocc)) hx
      | succ i =>
        obtain ⟨j, hj, hf, hp⟩ := ih i (k + 1) (by simpa using hocc)
        exact ⟨j + 1, by omega, by rw [hf]; omega, by simpa using hp⟩

/-- The extraction, once the key has been found at `p` and the first colon from `p` on is
the one that follows the key. -/
theorem bufferSize_from_key (s1 spaces digits s3 : Bytes) (d : UInt8) (p : Nat)
    (hp : find (s1 ++ (ascii "\"byteLength\"" ++ (58 :: (spaces ++ (digits ++ d :: s3)))))
      (ascii "\"byteLength\"") 0 = p)
    (hpn : p ≠ npos)
    (hcolon : find (s1 ++ (ascii "\"byteLength\"" ++ (58 :: (spaces ++ (digits ++ d :: s3)))))
      [58] p = s1.length + 12)
    (hspaces : ∀ c ∈ spaces, c = 32) (hd : d = 44 ∨ d = 125)
    (hne : digits ≠ []) (hdig : ∀ c ∈ digits, isdigit c = true)
    (hv : digitsValue digits < 2 ^ 64)
    (hlen : s1.length + spaces.length + digits.length + 14 < 2 ^ 64) :
    layer2BufferSize
        (s1 ++ (ascii "\"byteLength\"" ++ (58 :: (spaces ++ (digits ++ d :: s3))))) =
      .ok (digitsValue digits) := by
  rw [byteLengthKey_eq] at hp hcolon ⊢
  obtain ⟨c0, t, rfl⟩ := List.exists_cons_of_ne_nil hne
  have hc0 : isdigit c0 = true := hdig c0 (by simp)
  have e3 : find_first_not_of (s1 ++ ([34, 98, 121, 116, 101, 76, 101, 110, 103, 116, 104, 34] ++
      (58 :: (spaces ++ (c0 :: t ++ d :: s3))))) [32] (s1.length + 13) =
      s1.length + 13 + spaces.length := by
    unfold find_first_not_of
    rw [List.drop_append, ← Nat.add_zero 13, drop_key, List.drop_zero, Nat.add_zero]
    show findIf _ (spaces ++ c0 :: (t ++ d :: s3)) _ = _
    rw [findIf_skip _ _ _ _ _ _ (digit_not_space c0 hc0)]
    intro c hc
    rw [hspaces c hc]
    rfl
  have e4 : find_first_of (s1 ++ ([34, 98, 121, 116, 101, 76, 101, 110, 103, 116, 104, 34] ++
      (58 :: (spaces ++ (c0 :: t ++ d :: s3))))) [44, 125] (s1.length + 13 + spaces.length) =
      s1.length + 13 + spaces.length + (c0 :: t).length := by
    unfold find_first_of
    rw [Nat.add_assoc, List.drop_append, drop_key]
    have hdl : (fun c => ([44, 125] : Bytes).contains c) d = true := by
      rcases hd with rfl | rfl <;> rfl
    rw [List.drop_left,
      findIf_skip _ _ _ _ _ (fun c hc => by simp only [digit_not_delim c (hdig c hc)]) hdl,
      Nat.add_assoc]
  have e5 : substr (s1 ++ ([34, 98, 121, 116, 101, 76, 101, 110, 103, 116, 104, 34] ++
      (58 :: (spaces ++ (c0 :: t ++ d :: s3))))) (s1.length + 13 + spaces.length)
      (c0 :: t).length = .ok (c0 :: t) := by
    unfold substr
    rw [if_neg (by simp; omega), Nat.add_assoc, List.drop_append, drop_key]
    rw [List.drop_left, List.take_left]
  simp only [List.length_cons] at hlen
  unfold layer2BufferSize
  simp only [colon_eq, space_eq, delims_eq, byteLengthKey_eq, hp]
  have hm1 : (s1.length + 12 + 1) % 2 ^ 64 = s1.length + 13 := by
    rw [Nat.mod_eq_of_lt (by omega)]
  have hm2 : (s1.length + 13 + spaces.length + (c0 :: t).length + 2 ^ 64 -
      (s1.length + 13 + spaces.length)) % 2 ^ 64 = (c0 :: t).length := by
    simp only [List.length_cons]
    omega
  simp only [hcolon, hm1, e3, e4, hm2]
  simp only [hpn, ne_eq, not_false_eq_true, if_true, e5]
  exact stoul_digits _ hne hdig hv

/-- The extraction from a JSON text in which the key does not occur before the part
`"byteLength":` that carries the value. -/
theorem bufferSize_first_key (s1 spaces digits s3 : Bytes) (d : UInt8)
    (hno : ¬ ascii "\"byteLength\"" <:+: s1)
    (hspaces : ∀ c ∈ spaces, c = 32) (hd : d = 44 ∨ d = 125)
    (hne : digits ≠ []) (hdig : ∀ c ∈ digits, isdigit c = true)
    (hv : digitsValue digits < 2 ^ 64)
    (hlen : s1.length + spaces.length + digits.length + 14 < 2 ^ 64) :
    layer2BufferSize
        (s1 ++ (ascii "\"byteLength\"" ++ (58 :: (spaces ++ (digits ++ d :: s3))))) =
      .ok (digitsValue digits) := by
  have hkey := byteLengthKey_eq
  obtain ⟨j, hj, hfind, hocc⟩ := findAt_occurrence (ascii "\"byteLength\"")
    (by rw [hkey]; simp)
    (s1 ++ (ascii "\"byteLength\"" ++ (58 :: (spaces ++ (digits ++ d :: s3))))) s1.length 0
    (by rw [List.drop_left]; exact List.prefix_append _ _)
  rw [Nat.zero_add] at hfind
  have hdrop : (s1 ++ (ascii "\"byteLength\"" ++ (58 :: (spaces ++ (digits ++ d :: s3))))).drop j =
      s1.drop j ++ (ascii "\"byteLength\"" ++ (58 :: (spaces ++ (digits ++ d :: s3)))) :=
    List.drop_append_of_le_length hj
  rw [hdrop] at hocc
  have hshort : (s1.drop j).length < (ascii "\"byteLength\"").length := by
    by_contra hc
    have h1 : ascii "\"byteLength\"" <+: s1.drop j :=
      List.prefix_of_prefix_length_le hocc (List.prefix_append _ _) (by omega)
    exact hno (h1.isInfix.trans (List.drop_suffix j s1).isInfix)
  have hpre : s1.drop j <+: ascii "\"byteLength\"" :=
    List.prefix_of_prefix_length_le (List.prefix_append _ _) hocc (by omega)
  have hnc : (58 : UInt8) ∉ s1.drop j ++ ascii "\"byteLength\"" := by
    have hk : (58 : UInt8) ∉ ascii "\"byteLength\"" := by rw [hkey]; exact key_no_colon
    intro h
    rcases List.mem_append.mp h with h | h
    · exact hk (hpre.subset h)
    · exact hk h
  have hlenj : (s1.drop j).length = s1.length - j := List.length_drop j s1
  have hklen : (ascii "\"byteLength\"").length = 12 := by rw [hkey]; rfl
  apply bufferSize_from_key s1 spaces digits s3 d j (by rw [find_zero]; exact hfind)
    (by unfold npos; omega) ?_ hspaces hd hne hdig hv hlen
  unfold find
  rw [if_neg (by simp only [List.length_append]; omega), hdrop, ← List.append_assoc,
    findAt_char _ _ _ _ hnc]
  simp only [List.length_append, hlenj, hklen]
  omega

theorem bufferSize_absent (jsonStr : Bytes) (hlen : jsonStr.length < 2 ^ 64 - 1)
    (hno : ¬ ascii "\"byteLength\"" <:+: jsonStr) : layer2BufferSize jsonStr = .ok 0 := by
  have h : find jsonStr (ascii "\"byteLength\"") 0 = npos := by
    rw [find_zero, findAt_eq_npos_iff _ _ _ (by unfold npos; omega)]
    exact hno
  unfold layer2BufferSize
  simp [h, pure, Except.pure]

/-- Claim C22: the declared byte length is taken from the first occurrence of the key. For
every JSON text `s1 ++ "byteLength" (in quotes) ++ ":" ++ spaces ++ decimal n ++ d ++ s2`
in which the quoted key does not occur in `s1`, `d` is `,` or `}` and `n` fits in an
`unsigned long`, Layer 2 and Layer 3 extract `n`, whatever `s2` contains; when the quoted
key does not occur in the text, both extract 0; and on every JSON text both extractions
give the same outcome. The texts are shorter than `std::string::npos`. -/
theorem first_byteLength_wins :
    (∀ (s1 spaces s2 : Bytes) (d : UInt8) (n : Nat),
      ¬ ascii "\"byteLength\"" <:+: s1 → (∀ c ∈ spaces, c = 32) → (d = 44 ∨ d = 125) →
      n < 2 ^ 64 →
      (s1 ++ ascii "\"byteLength\"" ++ ascii ":" ++ spaces ++ decimal n ++ [d] ++ s2).length
        < 2 ^ 64 - 1 →
      layer2BufferSize
          (s1 ++ ascii "\"byteLength\"" ++ ascii ":" ++ spaces ++ decimal n ++ [d] ++ s2) =
        .ok n ∧
      layer3BufferSize
          (s1 ++ ascii "\"byteLength\"" ++ ascii ":" ++ spaces ++ decimal n ++ [d] ++ s2) =
        .ok n) ∧
    (∀ jsonStr : Bytes, jsonStr.length < 2 ^ 64 - 1 → ¬ ascii "\"byteLength\"" <:+: jsonStr →
      layer2BufferSize jsonStr = .ok 0 ∧ layer3BufferSize jsonStr = .ok 0) ∧
    (∀ jsonStr : Bytes, layer3BufferSize jsonStr = layer2BufferSize jsonStr) := by
  refine ⟨?_, ?_, fun jsonStr => rfl⟩
  · intro s1 spaces s2 d n hno hspaces hd hn hlen
    obtain ⟨hdne, hddig, hdval⟩ := decimal_spec n
    have hform : s1 ++ ascii "\"byteLength\"" ++ ascii ":" ++ spaces ++ decimal n ++ [d] ++ s2 =
        s1 ++ (ascii "\"byteLength\"" ++ (58 :: (spaces ++ (decimal n ++ d :: s2)))) := by
      rw [colon_eq]
      simp
    have hl : s1.length + spaces.length + (decimal n).length + 14 < 2 ^ 64 := by
      rw [hform, byteLengthKey_eq] at hlen
      simp only [List.length_append, List.length_cons, List.length_nil] at hlen
      omega
    have h2 := bufferSize_first_key s1 spaces (decimal n) s2 d hno hspaces hd hdne hddig
      (by rw [hdval]; exact hn) hl
    rw [hdval] at h2
    rw [hform]
    exact ⟨h2, h2⟩
  · intro jsonStr hlen hno
    exact ⟨bufferSize_absent jsonStr hlen hno, bufferSize_absent jsonStr hlen hno⟩

/-- The witness of claim C22: in `{"byteLength": 7,"x":{"byteLength":9}}` the first field
wins, and in `{"x":1}` the value is 0. -/
theorem first_byteLength_wins_witness :
    layer2BufferSize
        (ascii "\x7b" ++ ascii "\"byteLength\"" ++ ascii ":" ++ [32] ++ decimal 7 ++ [44] ++
          ascii "\"x\":\x7b\"byteLength\":9\x7d\x7d") = .ok 7 ∧
    layer3BufferSize (ascii "\x7b\"x\":1\x7d") = .ok 0 :=
  ⟨(first_byteLength_wins.1 (ascii "\x7b") [32] (ascii "\"x\":\x7b\"byteLength\":9\x7d\x7d")
      44 7 (by
        intro h
        have := h.length_le
        revert this
        decide)
      (by simp) (Or.inl rfl) (by decide) (by decide)).1,
    (first_byteLength_wins.2.1 (ascii "\x7b\"x\":1\x7d") (by decide) (by
        rw [← find_ne_npos_iff _ _ (by decide)]
        decide)).2⟩


/-! ## Theorems: the padding of `Md5Hash::finalize` -/

theorem updateByte_count (h : Md5Hash) (b : UInt8) :
    (h.updateByte b).count = (h.count + 1) % 2 ^ 64 := by
  unfold Md5Hash.updateByte
  simp only
  split <;> rfl

theorem update_count (h : Md5Hash) (data : Bytes) (hc : h.count < 2 ^ 64) :
    (h.update data).count = (h.count + data.length) % 2 ^ 64 := by
  induction data generalizing h with
  | nil =>
    simp only [Md5Hash.update, List.foldl_nil, List.length_nil]
    omega
  | cons b data ih =>
    have e : h.update (b :: data) = (h.updateByte b).update data := rfl
    rw [e, ih _ (by rw [updateByte_count]; exact Nat.mod_lt _ (by decide)), updateByte_count]
    simp only [List.length_cons]
    omega

theorem finalizeState_eq (h : Md5Hash) : h.finalizeState = h.update h.finalizeInput := by
  unfold Md5Hash.finalizeState Md5Hash.finalizeInput Md5Hash.padLen
  simp only [update_append]

theorem padLen_eq (h : Md5Hash) (hc : h.count < 2 ^ 64) :
    h.padLen = if (h.count + 1) % 64 < 56 then 56 - (h.count + 1) % 64
      else 120 - (h.count + 1) % 64 := by
  unfold Md5Hash.padLen
  simp only [update_count h _ hc, List.length_singleton]
  have e : (h.count + 1) % 2 ^ 64 % 64 = (h.count + 1) % 64 := by omega
  rw [e]

theorem message_count (u : Nat → UInt8) (msg : Bytes) :
    (((Md5Hash.fresh u).init).update msg).count = msg.length % 2 ^ 64 := by
  have h0 : ((Md5Hash.fresh u).init).count < 2 ^ 64 := by
    show 0 < 2 ^ 64
    decide
  rw [update_count _ _ h0]
  simp [Md5Hash.init, Md5Hash.fresh]

/-- Away from the lengths congruent to 55 modulo 64, `finalize` pads as MD5 prescribes: the
number of zero bytes is the least `k` with `n + 1 + k` congruent to 56 modulo 64. -/
theorem finalize_padding_standard (u : Nat → UInt8) (msg : Bytes)
    (h55 : msg.length % 64 ≠ 55) :
    (msg.length + 1 + (((Md5Hash.fresh u).init).update msg).padLen) % 64 = 56 ∧
    (((Md5Hash.fresh u).init).update msg).padLen < 64 := by
  rw [padLen_eq _ (by rw [message_count]; exact Nat.mod_lt _ (by decide)), message_count]
  split <;> omega

/-- Claim C21, evaluated on the code: for a message whose length `n` is congruent to 55
modulo 64, `finalize` feeds the byte `0x80`, then 64 zero bytes, then the 8-byte
little-endian encoding of `8n mod 2^64`, although `n + 1 + 0` is already congruent to 56
modulo 64; the number of bytes processed is `n + 73` (modulo `2^64`), one block more than
the least multiple of 64 that is at least `n + 9`. -/
theorem finalize_pads_extra_block (u : Nat → UInt8) (msg : Bytes)
    (h55 : msg.length % 64 = 55) :
    (((Md5Hash.fresh u).init).update msg).finalizeState =
      (((Md5Hash.fresh u).init).update msg).update
        (([0x80] : Bytes) ++ List.replicate 64 (0 : UInt8) ++
          List.map (fun i => UInt8.ofNat ((8 * msg.length % 2 ^ 64) >>> (i * 8)))
            (List.range 8)) ∧
    (msg.length + 1 + 0) % 64 = 56 ∧
    (msg.length + 9) % 64 = 0 ∧
    (((Md5Hash.fresh u).init).update msg).finalizeState.count =
      (msg.length + 73) % 2 ^ 64 := by
  have hc := message_count u msg
  have hlt : (((Md5Hash.fresh u).init).update msg).count < 2 ^ 64 := by
    rw [hc]; exact Nat.mod_lt _ (by decide)
  have hp : (((Md5Hash.fresh u).init).update msg).padLen = 64 := by
    rw [padLen_eq _ hlt, hc]
    split <;> omega
  have hb : (((Md5Hash.fresh u).init).update msg).lengthBits =
      List.map (fun i => UInt8.ofNat ((8 * msg.length % 2 ^ 64) >>> (i * 8)))
        (List.range 8) := by
    unfold Md5Hash.lengthBits
    rw [hc]
    have e : msg.length % 2 ^ 64 * 8 % 2 ^ 64 = 8 * msg.length % 2 ^ 64 := by omega
    rw [e]
  have hi : (((Md5Hash.fresh u).init).update msg).finalizeInput =
      ([0x80] : Bytes) ++ List.replicate 64 (0 : UInt8) ++
        List.map (fun i => UInt8.ofNat ((8 * msg.length % 2 ^ 64) >>> (i * 8)))
          (List.range 8) := by
    unfold Md5Hash.finalizeInput
    rw [hp, hb]
  refine ⟨by rw [finalizeState_eq, hi], by omega, by omega, ?_⟩
  rw [finalizeState_eq, hi, update_count _ _ hlt, hc]
  simp only [List.length_append, List.length_singleton, List.length_replicate, List.length_map,
    List.length_range]
  omega

/-- The witness of claim C21: a message of 55 bytes `a`. After it `finalize` processes two
blocks, 128 bytes in all, where MD5 processes one. -/
theorem finalize_pads_extra_block_witness :
    (List.replicate 55 (0x61 : UInt8)).length % 64 = 55 ∧
    (((Md5Hash.fresh fun _ => 0).init).update (List.replicate 55 0x61)).finalizeState.count =
      128 :=
  ⟨by decide,
    (finalize_pads_extra_block (fun _ => 0) (List.replicate 55 0x61) (by decide)).2.2.2⟩


/-! ## Theorems: the compression step depends injectively on each word of the block -/

theorem transformShift_mem (i : Nat) :
    transformShift i = 7 ∨ transformShift i = 12 ∨ transformShift i = 17 ∨
      transformShift i = 22 := by
  unfold transformShift
  split <;> simp

theorem rotl_value (x s : Nat) (hs : s = 7 ∨ s = 12 ∨ s = 17 ∨ s = 22) (hx : x < 2 ^ 32) :
    ROTATE_LEFT x s = 2 ^ s * (x % 2 ^ (32 - s)) + x / 2 ^ (32 - s) := by
  unfold ROTATE_LEFT
  rw [Nat.shiftLeft_eq, Nat.shiftRight_eq_div_pow]
  have hlt : x / 2 ^ (32 - s) < 2 ^ s := by
    rcases hs with rfl | rfl | rfl | rfl <;> norm_num <;> omega
  have hm : x * 2 ^ s % 2 ^ 32 = 2 ^ s * (x % 2 ^ (32 - s)) := by
    rcases hs with rfl | rfl | rfl | rfl <;> norm_num <;> omega
  rw [hm, Nat.mul_add_lt_is_or hlt]

theorem rotl_lt (x s : Nat) (hs : s = 7 ∨ s = 12 ∨ s = 17 ∨ s = 22) (hx : x < 2 ^ 32) :
    ROTATE_LEFT x s < 2 ^ 32 := by
  rw [rotl_value x s hs hx]
  rcases hs with rfl | rfl | rfl | rfl <;> norm_num <;> omega

theorem rotl_inj (x y s : Nat) (hs : s = 7 ∨ s = 12 ∨ s = 17 ∨ s = 22) (hx : x < 2 ^ 32)
    (hy : y < 2 ^ 32) (h : ROTATE_LEFT x s = ROTATE_LEFT y s) : x = y := by
  rw [rotl_value x s hs hx, rotl_value y s hs hy] at h
  rcases hs with rfl | rfl | rfl | rfl <;> norm_num at h <;> omega

theorem roundStep_lt (a b c d x k s : Nat) : roundStep a b c d x k s < 2 ^ 32 :=
  Nat.mod_lt _ (by decide)

theorem roundStep_inj_register (a1 a2 b c d x k s : Nat)
    (hs : s = 7 ∨ s = 12 ∨ s = 17 ∨ s = 22) (h1 : a1 < 2 ^ 32) (h2 : a2 < 2 ^ 32)
    (h : roundStep a1 b c d x k s = roundStep a2 b c d x k s) : a1 = a2 := by
  unfold roundStep at h
  generalize ((b &&& c) ||| (not32 b &&& d)) = f at h
  have m1 : (a1 + f + x + k) % 2 ^ 32 < 2 ^ 32 := Nat.mod_lt _ (by decide)
  have m2 : (a2 + f + x + k) % 2 ^ 32 < 2 ^ 32 := Nat.mod_lt _ (by decide)
  have l1 := rotl_lt _ s hs m1
  have l2 := rotl_lt _ s hs m2
  have e : ROTATE_LEFT ((a1 + f + x + k) % 2 ^ 32) s =
      ROTATE_LEFT ((a2 + f + x + k) % 2 ^ 32) s := by omega
  have := rotl_inj _ _ s hs m1 m2 e
  omega

theorem roundStep_inj_word (a b c d x1 x2 k s : Nat)
    (hs : s = 7 ∨ s = 12 ∨ s = 17 ∨ s = 22) (h1 : x1 < 2 ^ 32) (h2 : x2 < 2 ^ 32)
    (h : roundStep a b c d x1 k s = roundStep a b c d x2 k s) : x1 = x2 := by
  unfold roundStep at h
  generalize ((b &&& c) ||| (not32 b &&& d)) = f at h
  have m1 : (a + f + x1 + k) % 2 ^ 32 < 2 ^ 32 := Nat.mod_lt _ (by decide)
  have m2 : (a + f + x2 + k) % 2 ^ 32 < 2 ^ 32 := Nat.mod_lt _ (by decide)
  have l1 := rotl_lt _ s hs m1
  have l2 := rotl_lt _ s hs m2
  have e : ROTATE_LEFT ((a + f + x1 + k) % 2 ^ 32) s =
      ROTATE_LEFT ((a + f + x2 + k) % 2 ^ 32) s := by omega
  have := rotl_inj _ _ s hs m1 m2 e
  omega

theorem transformStep_lt (x : Nat → Nat) (i : Nat) (r : Nat × Nat × Nat × Nat)
    (hr : r.1 < 2 ^ 32 ∧ r.2.1 < 2 ^ 32 ∧ r.2.2.1 < 2 ^ 32 ∧ r.2.2.2 < 2 ^ 32) :
    (transformStep x i r).1 < 2 ^ 32 ∧ (transformStep x i r).2.1 < 2 ^ 32 ∧
      (transformStep x i r).2.2.1 < 2 ^ 32 ∧ (transformStep x i r).2.2.2 < 2 ^ 32 :=
  ⟨hr.2.2.2, roundStep_lt _ _ _ _ _ _ _, hr.2.1, hr.2.2.1⟩

theorem transformStep_inj (x : Nat → Nat) (i : Nat) (r1 r2 : Nat × Nat × Nat × Nat)
    (h1 : r1.1 < 2 ^ 32) (h2 : r2.1 < 2 ^ 32)
    (h : transformStep x i r1 = transformStep x i r2) : r1 = r2 := by
  obtain ⟨a1, b1, c1, d1⟩ := r1
  obtain ⟨a2, b2, c2, d2⟩ := r2
  simp only [transformStep, Prod.mk.injEq] at h
  obtain ⟨hd, hr, hb, hc⟩ := h
  subst hd hb hc
  have := roundStep_inj_register a1 a2 _ _ _ _ _ _ (transformShift_mem i) h1 h2 hr
  subst this
  rfl

theorem transformSteps_lt (x : Nat → Nat) (n i : Nat) (r : Nat × Nat × Nat × Nat)
    (hr : r.1 < 2 ^ 32 ∧ r.2.1 < 2 ^ 32 ∧ r.2.2.1 < 2 ^ 32 ∧ r.2.2.2 < 2 ^ 32) :
    (transformSteps x i n r).1 < 2 ^ 32 ∧ (transformSteps x i n r).2.1 < 2 ^ 32 ∧
      (transformSteps x i n r).2.2.1 < 2 ^ 32 ∧ (transformSteps x i n r).2.2.2 < 2 ^ 32 := by
  induction n generalizing i r with
  | zero => exact hr
  | succ n ih => exact ih (i + 1) _ (transformStep_lt x i r hr)

theorem transformSteps_inj (x : Nat → Nat) (n i : Nat) (r1 r2 : Nat × Nat × Nat × Nat)
    (h1 : r1.1 < 2 ^ 32 ∧ r1.2.1 < 2 ^ 32 ∧ r1.2.2.1 < 2 ^ 32 ∧ r1.2.2.2 < 2 ^ 32)
    (h2 : r2.1 < 2 ^ 32 ∧ r2.2.1 < 2 ^ 32 ∧ r2.2.2.1 < 2 ^ 32 ∧ r2.2.2.2 < 2 ^ 32)
    (h : transformSteps x i n r1 = transformSteps x i n r2) : r1 = r2 := by
  induction n generalizing i r1 r2 with
  | zero => exact h
  | succ n ih =>
    have e := ih (i + 1) _ _ (transformStep_lt x i r1 h1) (transformStep_lt x i r2 h2) h
    exact transformStep_inj x i r1 r2 h1.1 h2.1 e

theorem transformSteps_congr (x1 x2 : Nat → Nat) (n i : Nat) (r : Nat × Nat × Nat × Nat)
    (h : ∀ j, i ≤ j → j < i + n → x1 j = x2 j) :
    transformSteps x1 i n r = transformSteps x2 i n r := by
  induction n generalizing i r with
  | zero => rfl
  | succ n ih =>
    have e : transformStep x1 i r = transformStep x2 i r := by
      simp only [transformStep, h i (Nat.le_refl i) (by omega)]
    show transformSteps x1 (i + 1) n (transformStep x1 i r) =
      transformSteps x2 (i + 1) n (transformStep x2 i r)
    rw [e]
    exact ih (i + 1) _ (fun j hj1 hj2 => h j (by omega) (by omega))

theorem transformSteps_differ (x1 x2 : Nat → Nat) (i0 bound : Nat) (hne : x1 i0 ≠ x2 i0)
    (hl1 : x1 i0 < 2 ^ 32) (hl2 : x2 i0 < 2 ^ 32)
    (hrest : ∀ j, j < bound → j ≠ i0 → x1 j = x2 j) (n i : Nat)
    (r : Nat × Nat × Nat × Nat)
    (hr : r.1 < 2 ^ 32 ∧ r.2.1 < 2 ^ 32 ∧ r.2.2.1 < 2 ^ 32 ∧ r.2.2.2 < 2 ^ 32)
    (hi : i ≤ i0) (hn : i0 < i + n) (hb : i + n ≤ bound) :
    transformSteps x1 i n r ≠ transformSteps x2 i n r := by
  induction n generalizing i r with
  | zero => omega
  | succ n ih =>
    show transformSteps x1 (i + 1) n (transformStep x1 i r) ≠
      transformSteps x2 (i + 1) n (transformStep x2 i r)
    by_cases hii : i = i0
    · subst hii
      intro heq
      rw [transformSteps_congr x1 x2 n (i + 1) _
        (fun j hj1 hj2 => hrest j (by omega) (by omega))] at heq
      have e := transformSteps_inj x2 n (i + 1) _ _ (transformStep_lt x1 i r hr)
        (transformStep_lt x2 i r hr) heq
      simp only [transformStep, Prod.mk.injEq, true_and, and_true] at e
      exact hne (roundStep_inj_word _ _ _ _ _ _ _ _ (transformShift_mem i) hl1 hl2 e)
    · have e : transformStep x1 i r = transformStep x2 i r := by
        simp only [transformStep, hrest i (by omega) hii]
      rw [e]
      exact ih (i + 1) _ (transformStep_lt x2 i r hr) (by omega) (by omega) (by omega)

theorem transform_eq_steps (h : Md5Hash) :
    h.transform =
      { h with
        state0 := (h.state0 + (transformSteps (blockWord h.buffer) 0 16
          (h.state0, h.state1, h.state2, h.state3)).1) % 2 ^ 32,
        state1 := (h.state1 + (transformSteps (blockWord h.buffer) 0 16
          (h.state0, h.state1, h.state2, h.state3)).2.1) % 2 ^ 32,
        state2 := (h.state2 + (transformSteps (blockWord h.buffer) 0 16
          (h.state0, h.state1, h.state2, h.state3)).2.2.1) % 2 ^ 32,
        state3 := (h.state3 + (transformSteps (blockWord h.buffer) 0 16
          (h.state0, h.state1, h.state2, h.state3)).2.2.2) % 2 ^ 32 } := by
  simp only [transformSteps, transformStep, transformConstant, transformShift]
  rfl

theorem blockWord_lt (buffer : Nat → UInt8) (i : Nat) : blockWord buffer i < 2 ^ 32 :=
  Nat.mod_lt _ (by decide)

/-- Two blocks that differ in exactly one word give different accumulators, from the same
32-bit chaining state. -/
theorem transform_word_differs (h1 h2 : Md5Hash)
    (e0 : h1.state0 = h2.state0) (e1 : h1.state1 = h2.state1) (e2 : h1.state2 = h2.state2)
    (e3 : h1.state3 = h2.state3)
    (l0 : h1.state0 < 2 ^ 32) (l1 : h1.state1 < 2 ^ 32) (l2 : h1.state2 < 2 ^ 32)
    (l3 : h1.state3 < 2 ^ 32) (i : Nat) (hi : i < 16)
    (hne : blockWord h1.buffer i ≠ blockWord h2.buffer i)
    (hrest : ∀ j, j < 16 → j ≠ i → blockWord h1.buffer j = blockWord h2.buffer j) :
    ¬ (h1.transform.state0 = h2.transform.state0 ∧ h1.transform.state1 = h2.transform.state1 ∧
      h1.transform.state2 = h2.transform.state2 ∧ h1.transform.state3 = h2.transform.state3) := by
  rintro ⟨t0, t1, t2, t3⟩
  rw [transform_eq_steps h1, transform_eq_steps h2] at t0 t1 t2 t3
  simp only [← e0, ← e1, ← e2, ← e3] at t0 t1 t2 t3
  have hr : (h1.state0, h1.state1, h1.state2, h1.state3).1 < 2 ^ 32 ∧
      (h1.state0, h1.state1, h1.state2, h1.state3).2.1 < 2 ^ 32 ∧
      (h1.state0, h1.state1, h1.state2, h1.state3).2.2.1 < 2 ^ 32 ∧
      (h1.state0, h1.state1, h1.state2, h1.state3).2.2.2 < 2 ^ 32 := ⟨l0, l1, l2, l3⟩
  have b1 := transformSteps_lt (blockWord h1.buffer) 16 0 _ hr
  have b2 := transformSteps_lt (blockWord h2.buffer) 16 0 _ hr
  have d := transformSteps_differ (blockWord h1.buffer) (blockWord h2.buffer) i 16 hne
    (blockWord_lt _ _) (blockWord_lt _ _) hrest 16 0 _ hr (Nat.zero_le i) (by omega)
    (Nat.le_refl _)
  apply d
  refine Prod.ext ?_ (Prod.ext ?_ (Prod.ext ?_ ?_))
  · omega
  · omega
  · omega
  · omega


/-! ## Theorems: blocks, bytes and digests -/

theorem blockWord_value (buffer : Nat → UInt8) (i : Nat) :
    blockWord buffer i = (buffer (i * 4)).toNat + 256 * (buffer (i * 4 + 1)).toNat +
      65536 * (buffer (i * 4 + 2)).toNat + 16777216 * (buffer (i * 4 + 3)).toNat := by
  unfold blockWord
  have h0 := UInt8.toNat_lt (buffer (i * 4))
  have h1 := UInt8.toNat_lt (buffer (i * 4 + 1))
  have h2 := UInt8.toNat_lt (buffer (i * 4 + 2))
  have h3 := UInt8.toNat_lt (buffer (i * 4 + 3))
  generalize (buffer (i * 4)).toNat = a at *
  generalize (buffer (i * 4 + 1)).toNat = b at *
  generalize (buffer (i * 4 + 2)).toNat = c at *
  generalize (buffer (i * 4 + 3)).toNat = d at *
  have e1 : a ||| (b <<< 8) = 2 ^ 8 * b + a := by
    rw [Nat.or_comm, Nat.shiftLeft_eq, Nat.mul_comm]
    exact (Nat.mul_add_lt_is_or h0 b).symm
  have e2 : (2 ^ 8 * b + a) ||| (c <<< 16) = 2 ^ 16 * c + (2 ^ 8 * b + a) := by
    rw [Nat.or_comm, Nat.shiftLeft_eq, Nat.mul_comm]
    exact (Nat.mul_add_lt_is_or (by omega) c).symm
  have e3 : (2 ^ 16 * c + (2 ^ 8 * b + a)) ||| (d <<< 24) =
      2 ^ 24 * d + (2 ^ 16 * c + (2 ^ 8 * b + a)) := by
    rw [Nat.or_comm, Nat.shiftLeft_eq, Nat.mul_comm]
    exact (Nat.mul_add_lt_is_or (by omega) d).symm
  rw [e1, e2, e3]
  omega

theorem blockWord_byte_differs (b1 b2 : Nat → UInt8) (p : Nat) (hp : p < 64)
    (hne : b1 p ≠ b2 p) (hrest : ∀ q, q < 64 → q ≠ p → b1 q = b2 q) :
    blockWord b1 (p / 4) ≠ blockWord b2 (p / 4) ∧
    ∀ j, j < 16 → j ≠ p / 4 → blockWord b1 j = blockWord b2 j := by
  constructor
  · rw [blockWord_value, blockWord_value]
    have hn : (b1 p).toNat ≠ (b2 p).toNat := fun h => hne (UInt8.ext h)
    have k : p % 4 = 0 ∨ p % 4 = 1 ∨ p % 4 = 2 ∨ p % 4 = 3 := by omega
    rcases k with k | k | k | k
    · obtain ⟨q, rfl⟩ : ∃ q, p = q * 4 := ⟨p / 4, by omega⟩
      have eq : q * 4 / 4 = q := by omega
      rw [eq, hrest (q * 4 + 1) (by omega) (by omega), hrest (q * 4 + 2) (by omega) (by omega),
        hrest (q * 4 + 3) (by omega) (by omega)]
      omega
    · obtain ⟨q, rfl⟩ : ∃ q, p = q * 4 + 1 := ⟨p / 4, by omega⟩
      have eq : (q * 4 + 1) / 4 = q := by omega
      rw [eq, hrest (q * 4) (by omega) (by omega), hrest (q * 4 + 2) (by omega) (by omega),
        hrest (q * 4 + 3) (by omega) (by omega)]
      omega
    · obtain ⟨q, rfl⟩ : ∃ q, p = q * 4 + 2 := ⟨p / 4, by omega⟩
      have eq : (q * 4 + 2) / 4 = q := by omega
      rw [eq, hrest (q * 4) (by omega) (by omega), hrest (q * 4 + 1) (by omega) (by omega),
        hrest (q * 4 + 3) (by omega) (by omega)]
      omega
    · obtain ⟨q, rfl⟩ : ∃ q, p = q * 4 + 3 := ⟨p / 4, by omega⟩
      have eq : (q * 4 + 3) / 4 = q := by omega
      rw [eq, hrest (q * 4) (by omega) (by omega), hrest (q * 4 + 1) (by omega) (by omega),
        hrest (q * 4 + 2) (by omega) (by omega)]
      omega
  · intro j hj hjp
    unfold blockWord
    rw [hrest (j * 4) (by omega) (by omega), hrest (j * 4 + 1) (by omega) (by omega),
      hrest (j * 4 + 2) (by omega) (by omega), hrest (j * 4 + 3) (by omega) (by omega)]

theorem blockOf_nil (buffer : Nat → UInt8) : blockOf [] buffer = buffer := by
  funext i
  simp [blockOf]

theorem blockOf_concat (l : Bytes) (a : UInt8) (buffer : Nat → UInt8) :
    Function.update (blockOf l buffer) l.length a = blockOf (l ++ [a]) buffer := by
  funext i
  by_cases h1 : i = l.length
  · subst h1
    simp [blockOf, List.getD_eq_getElem?_getD]
  · rw [Function.update_noteq h1]
    by_cases h2 : i < l.length
    · simp [blockOf, List.getD_eq_getElem?_getD, List.getElem?_append_left h2]
    · have h3 : l.length < i := by omega
      have h4 : (l ++ [a])[i]? = none := by
        apply List.getElem?_eq_none
        simp only [List.length_append, List.length_singleton]
        omega
      have h5 : l[i]? = none := List.getElem?_eq_none (by omega)
      simp [blockOf, List.getD_eq_getElem?_getD, h4, h5]

theorem update_concat (h : Md5Hash) (l : Bytes) (a : UInt8) :
    h.update (l ++ [a]) = (h.update l).updateByte a := by
  simp [Md5Hash.update, List.foldl_append]

theorem update_partial (h : Md5Hash) (hz : h.count % 64 = 0) (hc : h.count < 2 ^ 64)
    (data : Bytes) (hl : data.length < 64) :
    h.update data =
      { h with count := (h.count + data.length) % 2 ^ 64, buffer := blockOf data h.buffer } := by
  induction data using List.reverseRecOn with
  | nil =>
    simp only [Md5Hash.update, List.foldl_nil, List.length_nil, blockOf_nil, Nat.add_zero,
      Nat.mod_eq_of_lt hc]
  | append_singleton l a ih =>
    have hl2 : l.length < 63 := by
      simp only [List.length_append, List.length_singleton] at hl
      omega
    rw [update_concat, ih (by omega)]
    unfold Md5Hash.updateByte
    simp only
    have e1 : (h.count + l.length) % 2 ^ 64 % 64 = l.length := by omega
    have e2 : ¬ ((h.count + l.length) % 2 ^ 64 + 1) % 2 ^ 64 % 64 = 0 := by omega
    have e3 : ((h.count + l.length) % 2 ^ 64 + 1) % 2 ^ 64 =
        (h.count + (l ++ [a]).length) % 2 ^ 64 := by
      simp only [List.length_append, List.length_singleton]
      omega
    rw [if_neg e2, e1, blockOf_concat, e3]

theorem update_block (h : Md5Hash) (hz : h.count % 64 = 0) (hc : h.count < 2 ^ 64)
    (blk : Bytes) (hl : blk.length = 64) :
    h.update blk =
      Md5Hash.transform
        { h with count := (h.count + 64) % 2 ^ 64, buffer := blockOf blk h.buffer } := by
  rcases List.eq_nil_or_concat blk with h0 | ⟨l, a, h0⟩
  · rw [h0] at hl
    simp at hl
  · rw [List.concat_eq_append] at h0
    subst h0
    have hl2 : l.length = 63 := by
      simp only [List.length_append, List.length_singleton] at hl
      omega
    rw [update_concat, update_partial h hz hc l (by omega)]
    unfold Md5Hash.updateByte
    simp only
    have e1 : (h.count + l.length) % 2 ^ 64 % 64 = l.length := by omega
    have e2 : ((h.count + l.length) % 2 ^ 64 + 1) % 2 ^ 64 % 64 = 0 := by omega
    have e3 : ((h.count + l.length) % 2 ^ 64 + 1) % 2 ^ 64 = (h.count + 64) % 2 ^ 64 := by
      omega
    rw [if_pos e2, e1, blockOf_concat, e3]

theorem transform_state_lt (h : Md5Hash) :
    h.transform.state0 < 2 ^ 32 ∧ h.transform.state1 < 2 ^ 32 ∧
      h.transform.state2 < 2 ^ 32 ∧ h.transform.state3 < 2 ^ 32 := by
  rw [transform_eq_steps]
  exact ⟨Nat.mod_lt _ (by decide), Nat.mod_lt _ (by decide), Nat.mod_lt _ (by decide),
    Nat.mod_lt _ (by decide)⟩

theorem updateByte_state_lt (h : Md5Hash) (b : UInt8)
    (hlt : h.state0 < 2 ^ 32 ∧ h.state1 < 2 ^ 32 ∧ h.state2 < 2 ^ 32 ∧ h.state3 < 2 ^ 32) :
    (h.updateByte b).state0 < 2 ^ 32 ∧ (h.updateByte b).state1 < 2 ^ 32 ∧
      (h.updateByte b).state2 < 2 ^ 32 ∧ (h.updateByte b).state3 < 2 ^ 32 := by
  unfold Md5Hash.updateByte
  simp only
  split
  · exact transform_state_lt _
  · exact hlt

theorem update_state_lt (h : Md5Hash) (data : Bytes)
    (hlt : h.state0 < 2 ^ 32 ∧ h.state1 < 2 ^ 32 ∧ h.state2 < 2 ^ 32 ∧ h.state3 < 2 ^ 32) :
    (h.update data).state0 < 2 ^ 32 ∧ (h.update data).state1 < 2 ^ 32 ∧
      (h.update data).state2 < 2 ^ 32 ∧ (h.update data).state3 < 2 ^ 32 := by
  induction data generalizing h with
  | nil => exact hlt
  | cons b data ih => exact ih (h.updateByte b) (updateByte_state_lt h b hlt)

theorem hexDigit_inj : ∀ n, n < 16 → ∀ m, m < 16 → hexDigit n = hexDigit m → n = m := by
  decide

theorem hex_byte_inj (b1 b2 : UInt8)
    (h1 : hexDigit (b1.toNat / 16) = hexDigit (b2.toNat / 16))
    (h2 : hexDigit (b1.toNat % 16) = hexDigit (b2.toNat % 16)) : b1 = b2 := by
  have l1 := UInt8.toNat_lt b1
  have l2 := UInt8.toNat_lt b2
  have e1 := hexDigit_inj _ (by omega) _ (by omega) h1
  have e2 := hexDigit_inj _ (by omega) _ (by omega) h2
  exact UInt8.ext (by omega)

theorem bytesToHex_inj (l1 l2 : Bytes) (h : bytesToHex l1 = bytesToHex l2) : l1 = l2 := by
  unfold bytesToHex at h
  replace h := congrArg String.data h
  simp only at h
  induction l1 generalizing l2 with
  | nil =>
    cases l2 with
    | nil => rfl
    | cons b l2 => simp at h
  | cons a l1 ih =>
    cases l2 with
    | nil => simp at h
    | cons b l2 =>
      simp only [List.flatMap_cons, List.cons_append, List.nil_append, List.cons.injEq] at h
      obtain ⟨h1, h2, h3⟩ := h
      rw [hex_byte_inj a b h1 h2, ih l2 h3]

theorem u32Bytes_inj (w1 w2 : Nat) (h1 : w1 < 2 ^ 32) (h2 : w2 < 2 ^ 32)
    (h : u32Bytes w1 = u32Bytes w2) : w1 = w2 := by
  have e : ∀ n : Nat, (UInt8.ofNat n).toNat = n % 256 := fun n => rfl
  simp only [u32Bytes, List.cons.injEq, and_true] at h
  obtain ⟨a0, a1, a2, a3⟩ := h
  have a0 := congrArg UInt8.toNat a0
  have a1 := congrArg UInt8.toNat a1
  have a2 := congrArg UInt8.toNat a2
  have a3 := congrArg UInt8.toNat a3
  rw [e, e] at a0 a1 a2 a3
  rw [Nat.shiftRight_eq_div_pow, Nat.shiftRight_eq_div_pow] at a1 a2 a3
  omega

theorem stateBytes_inj (h1 h2 : Md5Hash)
    (l1 : h1.state0 < 2 ^ 32 ∧ h1.state1 < 2 ^ 32 ∧ h1.state2 < 2 ^ 32 ∧ h1.state3 < 2 ^ 32)
    (l2 : h2.state0 < 2 ^ 32 ∧ h2.state1 < 2 ^ 32 ∧ h2.state2 < 2 ^ 32 ∧ h2.state3 < 2 ^ 32)
    (h : h1.stateBytes = h2.stateBytes) :
    h1.state0 = h2.state0 ∧ h1.state1 = h2.state1 ∧ h1.state2 = h2.state2 ∧
      h1.state3 = h2.state3 := by
  unfold Md5Hash.stateBytes at h
  have len : ∀ w, (u32Bytes w).length = 4 := fun w => rfl
  have h3 := List.append_inj h (by simp [len])
  have h2a := List.append_inj h3.1 (by simp [len])
  have h1a := List.append_inj h2a.1 (by simp [len])
  exact ⟨u32Bytes_inj _ _ l1.1 l2.1 h1a.1, u32Bytes_inj _ _ l1.2.1 l2.2.1 h1a.2,
    u32Bytes_inj _ _ l1.2.2.1 l2.2.2.1 h2a.2, u32Bytes_inj _ _ l1.2.2.2 l2.2.2.2 h3.2⟩

theorem lengthBits_of_count (h1 h2 : Md5Hash) (hc : h1.count = h2.count) :
    h1.lengthBits = h2.lengthBits := by
  unfold Md5Hash.lengthBits
  rw [hc]

theorem lengthBits_length (h : Md5Hash) : h.lengthBits.length = 8 := by
  simp [Md5Hash.lengthBits]

theorem block_byte_same (a rest : Bytes) (x y : UInt8) (buffer : Nat → UInt8) (q : Nat)
    (hq : q ≠ a.length) :
    blockOf (a ++ x :: rest) buffer q = blockOf (a ++ y :: rest) buffer q := by
  unfold blockOf
  simp only [List.getD_eq_getElem?_getD]
  by_cases h : q < a.length
  · rw [List.getElem?_append_left h, List.getElem?_append_left h]
  · have h2 : a.length ≤ q := by omega
    rw [List.getElem?_append_right h2, List.getElem?_append_right h2]
    obtain ⟨k, hk⟩ : ∃ k, q - a.length = k + 1 := ⟨q - a.length - 1, by omega⟩
    rw [hk]
    rfl

theorem block_byte_at (a rest : Bytes) (x : UInt8) (buffer : Nat → UInt8) :
    blockOf (a ++ x :: rest) buffer a.length = x := by
  unfold blockOf
  rw [List.getD_eq_getElem?_getD, List.getElem?_append_right (Nat.le_refl _), Nat.sub_self]
  simp

/-- The object after `finalize`, for a message whose last, partial block `a ++ z :: b` has
at most 54 bytes: the padding completes that block, and one `transform` consumes it. -/
theorem finalizeState_last_block (u : Nat → UInt8) (pre a b : Bytes) (x z : UInt8)
    (hpre : pre.length % 64 = 0) (hshort : a.length + 1 + b.length ≤ 54) :
    (((Md5Hash.fresh u).init).update (pre ++ (a ++ z :: b))).finalizeState =
      Md5Hash.transform
        { ((Md5Hash.fresh u).init).update pre with
          count := ((((Md5Hash.fresh u).init).update pre).count + 64) % 2 ^ 64,
          buffer := blockOf
            (a ++ z :: (b ++ (([0x80] : Bytes) ++
              List.replicate (54 - a.length - b.length) (0 : UInt8) ++
              (((Md5Hash.fresh u).init).update (pre ++ (a ++ x :: b))).lengthBits)))
            (((Md5Hash.fresh u).init).update pre).buffer } := by
  have hc0 := message_count u pre
  have hlt0 : (((Md5Hash.fresh u).init).update pre).count < 2 ^ 64 := by
    rw [hc0]
    exact Nat.mod_lt _ (by decide)
  have hz0 : (((Md5Hash.fresh u).init).update pre).count % 64 = 0 := by
    rw [hc0]
    omega
  have hcw : ∀ w : UInt8, (((Md5Hash.fresh u).init).update (pre ++ (a ++ w :: b))).count =
      (pre.length + (a.length + 1 + b.length)) % 2 ^ 64 := by
    intro w
    rw [message_count]
    simp only [List.length_append, List.length_cons]
    congr 1
    omega
  have hpz : (((Md5Hash.fresh u).init).update (pre ++ (a ++ z :: b))).padLen =
      54 - a.length - b.length := by
    rw [padLen_eq _ (by rw [hcw]; exact Nat.mod_lt _ (by decide)), hcw]
    split <;> omega
  have hbl := lengthBits_length (((Md5Hash.fresh u).init).update (pre ++ (a ++ x :: b)))
  rw [finalizeState_eq]
  unfold Md5Hash.finalizeInput
  rw [hpz, lengthBits_of_count _ _ ((hcw z).trans (hcw x).symm), update_append]
  generalize (((Md5Hash.fresh u).init).update (pre ++ (a ++ x :: b))).lengthBits = bits
    at hbl ⊢
  have hb : pre ++ (a ++ z :: b) ++ (([0x80] : Bytes) ++
        List.replicate (54 - a.length - b.length) (0 : UInt8) ++ bits) =
      pre ++ (a ++ z :: (b ++ (([0x80] : Bytes) ++
        List.replicate (54 - a.length - b.length) (0 : UInt8) ++ bits))) := by
    simp
  rw [hb, ← update_append]
  apply update_block _ hz0 hlt0
  simp only [List.length_append, List.length_cons, List.length_replicate, List.length_nil,
    hbl]
  omega

theorem init_state_lt (h : Md5Hash) :
    h.init.state0 < 2 ^ 32 ∧ h.init.state1 < 2 ^ 32 ∧ h.init.state2 < 2 ^ 32 ∧
      h.init.state3 < 2 ^ 32 := by
  refine ⟨?_, ?_, ?_, ?_⟩
  · show 0x67452301 < 2 ^ 32
    omega
  · show 0xefcdab89 < 2 ^ 32
    omega
  · show 0x98badcfe < 2 ^ 32
    omega
  · show 0x10325476 < 2 ^ 32
    omega

theorem block_states_differ (h : Md5Hash) (c : Nat) (a rest : Bytes) (x y : UInt8)
    (hxy : x ≠ y)
    (hlt : h.state0 < 2 ^ 32 ∧ h.state1 < 2 ^ 32 ∧ h.state2 < 2 ^ 32 ∧ h.state3 < 2 ^ 32)
    (ha : a.length < 64) :
    (Md5Hash.transform
        { h with count := c, buffer := blockOf (a ++ x :: rest) h.buffer }).accumulators ≠
      (Md5Hash.transform
        { h with count := c, buffer := blockOf (a ++ y :: rest) h.buffer }).accumulators := by
  intro heq
  simp only [Md5Hash.accumulators, Prod.mk.injEq] at heq
  have hw := blockWord_byte_differs (blockOf (a ++ x :: rest) h.buffer)
    (blockOf (a ++ y :: rest) h.buffer) a.length ha
    (by rw [block_byte_at, block_byte_at]; exact hxy)
    (fun q _ hq => block_byte_same a rest x y h.buffer q hq)
  have hi : a.length / 4 < 16 := by omega
  exact transform_word_differs
    { h with count := c, buffer := blockOf (a ++ x :: rest) h.buffer }
    { h with count := c, buffer := blockOf (a ++ y :: rest) h.buffer }
    rfl rfl rfl rfl hlt.1 hlt.2.1 hlt.2.2.1 hlt.2.2.2 (a.length / 4) hi hw.1 hw.2 heq

theorem last_block_states_differ (u : Nat → UInt8) (pre a b : Bytes) (x y : UInt8)
    (hxy : x ≠ y) (hpre : pre.length % 64 = 0) (hshort : a.length + 1 + b.length ≤ 54) :
    (((Md5Hash.fresh u).init).update (pre ++ (a ++ x :: b))).finalizeState.accumulators ≠
      (((Md5Hash.fresh u).init).update (pre ++ (a ++ y :: b))).finalizeState.accumulators := by
  rw [finalizeState_last_block u pre a b x x hpre hshort,
    finalizeState_last_block u pre a b x y hpre hshort]
  exact block_states_differ _ _ a _ x y hxy
    (update_state_lt _ pre (init_state_lt (Md5Hash.fresh u))) (by omega)

theorem hash_eq_accumulators (u : Nat → UInt8) (m1 m2 : Bytes)
    (h : Md5Hash.hash u m1 = Md5Hash.hash u m2) :
    (((Md5Hash.fresh u).init).update m1).finalizeState.accumulators =
      (((Md5Hash.fresh u).init).update m2).finalizeState.accumulators := by
  unfold Md5Hash.hash Md5Hash.finalize at h
  have l1 : ∀ m : Bytes,
      (((Md5Hash.fresh u).init).update m).finalizeState.state0 < 2 ^ 32 ∧
      (((Md5Hash.fresh u).init).update m).finalizeState.state1 < 2 ^ 32 ∧
      (((Md5Hash.fresh u).init).update m).finalizeState.state2 < 2 ^ 32 ∧
      (((Md5Hash.fresh u).init).update m).finalizeState.state3 < 2 ^ 32 := by
    intro m
    rw [finalizeState_eq, update_append]
    exact update_state_lt _ _ (init_state_lt _)
  obtain ⟨e0, e1, e2, e3⟩ := stateBytes_inj _ _ (l1 m1) (l1 m2) (bytesToHex_inj _ _ h)
  simp only [Md5Hash.accumulators, e0, e1, e2, e3]

/-- Claim C23: the compression step detects any single-word corruption of a block. From
the same chaining state of four 32-bit accumulators, two blocks that differ in exactly one
of their sixteen words, and in particular two blocks that differ in exactly one byte, give
different accumulators after `Md5Hash::transform`; and two messages `front ++ [x] ++ back`
and `front ++ [y] ++ back` with `x ≠ y`, whose differing byte lies within the last 64 of the
bytes that `finalize` has processed in the end, have different digests. -/
theorem transform_detects_corruption :
    (∀ (h1 h2 : Md5Hash) (i : Nat), h1.accumulators = h2.accumulators →
      h1.state0 < 2 ^ 32 → h1.state1 < 2 ^ 32 → h1.state2 < 2 ^ 32 → h1.state3 < 2 ^ 32 →
      i < 16 → blockWord h1.buffer i ≠ blockWord h2.buffer i →
      (∀ j, j < 16 → j ≠ i → blockWord h1.buffer j = blockWord h2.buffer j) →
      h1.transform.accumulators ≠ h2.transform.accumulators) ∧
    (∀ (h1 h2 : Md5Hash) (p : Nat), h1.accumulators = h2.accumulators →
      h1.state0 < 2 ^ 32 → h1.state1 < 2 ^ 32 → h1.state2 < 2 ^ 32 → h1.state3 < 2 ^ 32 →
      p < 64 → h1.buffer p ≠ h2.buffer p →
      (∀ q, q < 64 → q ≠ p → h1.buffer q = h2.buffer q) →
      h1.transform.accumulators ≠ h2.transform.accumulators) ∧
    (∀ (u1 u2 : Nat → UInt8) (front back : Bytes) (x y : UInt8), x ≠ y →
      (front ++ [x] ++ back ++
          (((Md5Hash.fresh u1).init).update (front ++ [x] ++ back)).finalizeInput).length ≤
        front.length + 64 →
      Md5Hash.hash u1 (front ++ [x] ++ back) ≠ Md5Hash.hash u2 (front ++ [y] ++ back)) := by
  have words : ∀ (h1 h2 : Md5Hash) (i : Nat), h1.accumulators = h2.accumulators →
      h1.state0 < 2 ^ 32 → h1.state1 < 2 ^ 32 → h1.state2 < 2 ^ 32 → h1.state3 < 2 ^ 32 →
      i < 16 → blockWord h1.buffer i ≠ blockWord h2.buffer i →
      (∀ j, j < 16 → j ≠ i → blockWord h1.buffer j = blockWord h2.buffer j) →
      h1.transform.accumulators ≠ h2.transform.accumulators := by
    intro h1 h2 i hacc l0 l1 l2 l3 hi hne hrest heq
    simp only [Md5Hash.accumulators, Prod.mk.injEq] at hacc heq
    exact transform_word_differs h1 h2 hacc.1 hacc.2.1 hacc.2.2.1 hacc.2.2.2 l0 l1 l2 l3 i hi
      hne hrest heq
  refine ⟨words, ?_, ?_⟩
  · intro h1 h2 p hacc l0 l1 l2 l3 hp hne hrest
    have hw := blockWord_byte_differs h1.buffer h2.buffer p hp hne hrest
    exact words h1 h2 (p / 4) hacc l0 l1 l2 l3 (by omega) hw.1 hw.2
  · intro u1 u2 front back x y hxy hpos heq
    rw [hash_uninit_irrelevant u2 u1] at heq
    have hc := message_count u1 (front ++ [x] ++ back)
    have hp := padLen_eq (((Md5Hash.fresh u1).init).update (front ++ [x] ++ back))
      (by rw [hc]; exact Nat.mod_lt _ (by decide))
    rw [hc] at hp
    simp only [Md5Hash.finalizeInput, List.length_append, List.length_singleton,
      List.length_replicate, lengthBits_length, List.length_cons, List.length_nil] at hpos hp
    have hr : (front.length + 1 + back.length) % 64 ≤ 54 ∧
        back.length + 1 ≤ (front.length + 1 + back.length) % 64 := by
      split at hp <;> omega
    have hk : front.length + 1 + back.length - (front.length + 1 + back.length) % 64 ≤
        front.length := by omega
    have hsplit := List.take_append_drop
      (front.length + 1 + back.length - (front.length + 1 + back.length) % 64) front
    have hl1 : (front.take
        (front.length + 1 + back.length - (front.length + 1 + back.length) % 64)).length =
        front.length + 1 + back.length - (front.length + 1 + back.length) % 64 := by
      rw [List.length_take]
      omega
    have hl2 : (front.drop
        (front.length + 1 + back.length - (front.length + 1 + back.length) % 64)).length =
        (front.length + 1 + back.length) % 64 - 1 - back.length := by
      rw [List.length_drop]
      omega
    have hform : ∀ z : UInt8, front ++ [z] ++ back =
        front.take (front.length + 1 + back.length - (front.length + 1 + back.length) % 64) ++
          (front.drop
            (front.length + 1 + back.length - (front.length + 1 + back.length) % 64) ++
            z :: back) := by
      intro z
      rw [← List.append_assoc, hsplit]
      simp
    rw [hform x, hform y] at heq
    exact last_block_states_differ u1 _ _ back x y hxy (by rw [hl1]; omega)
      (by rw [hl2]; omega) (hash_eq_accumulators u1 _ _ heq)

/-- The witness of claim C23: the messages `abc` and `abd` have different digests, and so
have two blocks that differ in their byte 5, from the initial chaining state. -/
theorem transform_detects_corruption_witness :
    Md5Hash.hash (fun _ => 0) (ascii "ab" ++ [99] ++ []) ≠
      Md5Hash.hash (fun _ => 0) (ascii "ab" ++ [100] ++ []) ∧
    (Md5Hash.transform ((Md5Hash.fresh fun _ => 0).init)).accumulators ≠
      (Md5Hash.transform
        ((Md5Hash.fresh fun i => if i = 5 then 1 else 0).init)).accumulators :=
  ⟨transform_detects_corruption.2.2 (fun _ => 0) (fun _ => 0) (ascii "ab") [] 99 100
      (by decide) (by decide),
    transform_detects_corruption.2.1 _ _ 5 rfl (by decide) (by decide) (by decide)
      (by decide) (by decide) (by decide) (by
        intro q _ hq
        show (0 : UInt8) = if q = 5 then 1 else 0
        rw [if_neg hq])⟩


/-! ## Theorems: what the layers leave unvalidated -/

/-- The run of Layer 2 is the same on two containers that agree after their first 12
bytes: no byte of the header has any influence. -/
theorem layer2Run_header_independent (fs1 fs2 : FileSystem) (u : Uninit)
    (spzPath glbPath : String) (c1 c2 : Bytes) (hs : fs1 spzPath = fs2 spzPath)
    (h1 : fs1 glbPath = some c1) (h2 : fs2 glbPath = some c2)
    (hd : c1.drop 12 = c2.drop 12) :
    layer2Run fs1 u spzPath glbPath = layer2Run fs2 u spzPath glbPath := by
  have hr : readFileBytes fs1 spzPath 0 = readFileBytes fs2 spzPath 0 := by
    simp [readFileBytes, hs]
  have e : ∀ k, c1.drop (12 + k) = c2.drop (12 + k) := by
    intro k
    rw [← List.drop_drop, ← List.drop_drop, hd]
  have e20 : c1.drop 20 = c2.drop 20 := e 8
  have eb : ∀ a b, c1.drop (20 + a + b + 8) = c2.drop (20 + a + b + 8) := by
    intro a b
    have h := e (8 + a + b + 8)
    have q : 12 + (8 + a + b + 8) = 20 + a + b + 8 := by omega
    rwa [q] at h
  rw [layer2Run_general fs1 u spzPath glbPath c1 h1,
    layer2Run_general fs2 u spzPath glbPath c2 h2]
  simp only [hd, e20, eb, hr]

/-- The result of Layer 3 is the same on two containers that hold their 12-byte header,
have the same magic and agree after their first 12 bytes: the version and the length
fields of the header have no influence. -/
theorem layer3_version_independent (fs1 fs2 : FileSystem) (u : Uninit)
    (spzPath glbPath : String) (c1 c2 : Bytes) (hs : fs1 spzPath = fs2 spzPath)
    (h1 : fs1 glbPath = some c1) (h2 : fs2 glbPath = some c2)
    (l1 : 12 ≤ c1.length) (l2 : 12 ≤ c2.length) (hm : le32 c1 0 = le32 c2 0)
    (hd : c1.drop 12 = c2.drop 12) :
    layer3VerifyDecoding fs1 u spzPath glbPath = layer3VerifyDecoding fs2 u spzPath glbPath := by
  have hr : readFileBytes fs1 spzPath 0 = readFileBytes fs2 spzPath 0 := by
    simp [readFileBytes, hs]
  have e20 : c1.drop 20 = c2.drop 20 := by
    have h : c1.drop (12 + 8) = c2.drop (12 + 8) := by
      rw [← List.drop_drop, ← List.drop_drop, hd]
    exact h
  rw [layer3_general fs1 u spzPath glbPath c1 h1, layer3_general fs2 u spzPath glbPath c2 h2,
    header_field c1 _ 0 l1 (by omega), header_field c2 _ 0 l2 (by omega)]
  simp only [hd, e20, hm, hr]

/-- Claim C14, evaluated on the code: a malformed header does not make Layer 2 or Layer 3
fail. `badHeaderContainer` has magic 0 and version 3, yet Layer 2 reports pass on it;
`kibContainerV3` has version 3, yet Layer 3 reports pass on it. In general the result of
Layer 2 does not depend on the 12 header bytes at all, and the result of Layer 3 depends on
the header through the magic only. Only Layer 1 rejects a wrong magic or a wrong version;
Layer 3 rejects a wrong magic. -/
theorem malformed_header_accepted (u : Uninit) :
    (le32 badHeaderContainer 0 ≠ 0x46546C67 ∧ le32 badHeaderContainer 4 ≠ 2 ∧
      layer2VerifyLossless verifierFiles u "small.spz" "bad.glb" = .ok true) ∧
    (le32 kibContainerV3 4 ≠ 2 ∧
      layer3VerifyDecoding verifierFiles u "model.spz" "v3.glb" = .ok true) ∧
    (∀ (fs1 fs2 : FileSystem) (spzPath glbPath : String) (c1 c2 : Bytes),
      fs1 spzPath = fs2 spzPath → fs1 glbPath = some c1 → fs2 glbPath = some c2 →
      c1.drop 12 = c2.drop 12 →
        layer2VerifyLossless fs1 u spzPath glbPath =
          layer2VerifyLossless fs2 u spzPath glbPath) ∧
    (∀ (fs1 fs2 : FileSystem) (spzPath glbPath : String) (c1 c2 : Bytes),
      fs1 spzPath = fs2 spzPath → fs1 glbPath = some c1 → fs2 glbPath = some c2 →
      12 ≤ c1.length → 12 ≤ c2.length → le32 c1 0 = le32 c2 0 →
      c1.drop 12 = c2.drop 12 →
        layer3VerifyDecoding fs1 u spzPath glbPath =
          layer3VerifyDecoding fs2 u spzPath glbPath) ∧
    (∀ (fs : FileSystem) (spzPath glbPath : String) (content : Bytes),
      fs glbPath = some content → 12 ≤ content.length →
        ((le32 content 0 ≠ 0x46546C67 ∨ le32 content 4 ≠ 2) →
          layer1ValidateGlbStructure fs u glbPath = .ok false) ∧
        (le32 content 0 ≠ 0x46546C67 →
          layer3VerifyDecoding fs u spzPath glbPath = .ok false)) := by
  refine ⟨⟨by decide, by decide, ?_⟩, ⟨by decide!, ?_⟩, ?_, ?_, ?_⟩
  · have h := layer2Run_of_layout verifierFiles u "small.spz" "bad.glb" sixteenByteHeader
      [0, 0, 0, 0, 3, 0, 0, 0, 76, 0, 0, 0] [0x4a, 0x53, 0x4f, 0x4e] smallJson
      (ascii "\x7b\"buffers\":[\x7b") [] (ascii "]\x7d") [0x20]
      [16, 0, 0, 0, 0x42, 0x49, 0x4e, 0] 125
      (by decide) (by decide) (by decide) (by decide) (by decide) (by decide) (by decide)
      (by decide) (by decide) (first_occurrence_of_check _ _ (by decide))
      (by simp) (by decide) (by decide)
    unfold layer2VerifyLossless
    rw [h]
    rfl
  · exact layer3_passes verifierFiles u "model.spz" "v3.glb" kibContainerV3
      (by decide!) (by decide!) (by decide!) (by decide!) (by decide!)
  · intro fs1 fs2 spzPath glbPath c1 c2 hs h1 h2 hd
    unfold layer2VerifyLossless
    rw [layer2Run_header_independent fs1 fs2 u spzPath glbPath c1 c2 hs h1 h2 hd]
  · intro fs1 fs2 spzPath glbPath c1 c2 hs h1 h2 l1 l2 hm hd
    exact layer3_version_independent fs1 fs2 u spzPath glbPath c1 c2 hs h1 h2 l1 l2 hm hd
  · intro fs spzPath glbPath content hglb h12
    have h := malformed_header_rejected fs u spzPath glbPath content hglb h12
    exact ⟨fun hbad => (h.1 hbad).2, h.2⟩

/-! ## Theorems: Layer 3 and the declared byte length -/

theorem bufferSize_declared (jsonStr s1 spaces s2 : Bytes) (d : UInt8) (n : Nat)
    (hjson : jsonStr =
      s1 ++ ascii "\"byteLength\"" ++ ascii ":" ++ spaces ++ decimal n ++ [d] ++ s2)
    (hno : ¬ ascii "\"byteLength\"" <:+: s1) (hspaces : ∀ c ∈ spaces, c = 32)
    (hd : d = 44 ∨ d = 125) (hn : n < 2 ^ 64) (hlen : jsonStr.length < 2 ^ 64 - 1) :
    layer3BufferSize jsonStr = .ok n := by
  obtain ⟨hdne, hddig, hdval⟩ := decimal_spec n
  have hform : s1 ++ ascii "\"byteLength\"" ++ ascii ":" ++ spaces ++ decimal n ++ [d] ++ s2 =
      s1 ++ (ascii "\"byteLength\"" ++ (58 :: (spaces ++ (decimal n ++ d :: s2)))) := by
    rw [colon_eq]
    simp
  rw [hjson, hform] at hlen
  have hl : s1.length + spaces.length + (decimal n).length + 14 < 2 ^ 64 := by
    rw [byteLengthKey_eq] at hlen
    simp only [List.length_append, List.length_cons, List.length_nil] at hlen
    omega
  have h2 := bufferSize_first_key s1 spaces (decimal n) s2 d hno hspaces hd hdne hddig
    (by rw [hdval]; exact hn) hl
  rw [hdval] at h2
  rw [hjson, hform, layer3BufferSize_eq]
  exact h2

theorem container_of_jsonText (c : Bytes) (h : glbJsonText c ≠ []) : 20 ≤ c.length := by
  by_contra hlt
  exact h (glbJsonText_of_short c (by omega))

/-- Claim C13, evaluated on the code: Layer 3 does not compare the byte length the JSON
text declares, but the value of its own extraction. On every container with the magic and
the extension identifier whose JSON text has no `"byteLength"` key at all, it reports pass
for the empty source (so on `nolength.glb` with `empty.spz`); and on the container whose
JSON text declares `"byteLength":1e3`, that is 1000, it reports pass exactly for the
sources of 1 byte. Where the JSON text declares `n` in the plain form (first key, colon,
spaces, decimal numeral, then `,` or `}`), the claim holds: pass exactly when the magic
and the identifier are present and `n` is the length of the source. -/
theorem layer3_pass_without_declared_length (u : Uninit) :
    (∀ (fs : FileSystem) (spzPath glbPath : String) (c : Bytes),
      fs spzPath = some [] → fs glbPath = some c → le32 c 0 = 0x46546C67 →
      ascii "KHR_gaussian_splatting_compression_spz_2" <:+: glbJsonText c →
      ¬ ascii "\"byteLength\"" <:+: glbJsonText c →
        layer3VerifyDecoding fs u spzPath glbPath = .ok true) ∧
    (le32 noLengthContainer 0 = 0x46546C67 ∧
      ascii "KHR_gaussian_splatting_compression_spz_2" <:+: glbJsonText noLengthContainer ∧
      ¬ ascii "\"byteLength\"" <:+: glbJsonText noLengthContainer ∧
      layer3VerifyDecoding verifierFiles u "empty.spz" "nolength.glb" = .ok true) ∧
    (glbJsonText expLengthContainer = expLengthJson ∧
      ∀ (fs : FileSystem) (spzPath glbPath : String) (source : Bytes),
        fs spzPath = some source → fs glbPath = some expLengthContainer →
          (layer3VerifyDecoding fs u spzPath glbPath = .ok true ↔ source.length = 1)) ∧
    (∀ (fs : FileSystem) (spzPath glbPath : String) (source c s1 spaces s2 : Bytes)
        (d : UInt8) (n : Nat),
      fs spzPath = some source → fs glbPath = some c →
      glbJsonText c =
        s1 ++ ascii "\"byteLength\"" ++ ascii ":" ++ spaces ++ decimal n ++ [d] ++ s2 →
      ¬ ascii "\"byteLength\"" <:+: s1 → (∀ x ∈ spaces, x = 32) → (d = 44 ∨ d = 125) →
      n < 2 ^ 64 →
        (layer3VerifyDecoding fs u spzPath glbPath = .ok true ↔
          le32 c 0 = 0x46546C67 ∧
          ascii "KHR_gaussian_splatting_compression_spz_2" <:+: glbJsonText c ∧
          n = source.length)) := by
  have hread : ∀ (fs : FileSystem) (spzPath : String) (source : Bytes),
      fs spzPath = some source → readFileBytes fs spzPath 0 = source := by
    intro fs spzPath source h
    simp [readFileBytes, h]
  have h64 : ∀ c : Bytes, (glbJsonText c).length < 2 ^ 64 - 1 := by
    intro c
    have := glbJsonText_length_lt c
    omega
  have absent : ∀ (fs : FileSystem) (spzPath glbPath : String) (c : Bytes),
      fs spzPath = some [] → fs glbPath = some c → le32 c 0 = 0x46546C67 →
      ascii "KHR_gaussian_splatting_compression_spz_2" <:+: glbJsonText c →
      ¬ ascii "\"byteLength\"" <:+: glbJsonText c →
        layer3VerifyDecoding fs u spzPath glbPath = .ok true := by
    intro fs spzPath glbPath c hsrc hglb hm hext hno
    have h20 : 20 ≤ c.length := by
      apply container_of_jsonText
      intro hnil
      rw [hnil, List.infix_nil] at hext
      exact absurd hext (by decide)
    refine layer3_passes fs u spzPath glbPath c hglb h20 hm
      ((find_ne_npos_iff _ _ (glbJsonText_length_lt c)).mpr hext) ?_
    rw [hread fs spzPath [] hsrc, layer3BufferSize_eq]
    exact bufferSize_absent _ (h64 c) hno
  have hno0 : ¬ ascii "\"byteLength\"" <:+: glbJsonText noLengthContainer := by
    rw [← find_ne_npos_iff _ _ (glbJsonText_length_lt _)]
    decide!
  have hext0 : ascii "KHR_gaussian_splatting_compression_spz_2" <:+:
      glbJsonText noLengthContainer :=
    (find_ne_npos_iff _ _ (glbJsonText_length_lt _)).mp (by decide!)
  refine ⟨absent, ⟨by decide!, hext0, hno0, ?_⟩, ⟨by decide!, ?_⟩, ?_⟩
  · exact absent verifierFiles "empty.spz" "nolength.glb" noLengthContainer (by decide)
      (by decide) (by decide!) hext0 hno0
  · intro fs spzPath glbPath source hsrc hglb
    have hj : glbJsonText expLengthContainer = expLengthJson := by decide!
    have hf : find expLengthJson (ascii "KHR_gaussian_splatting_compression_spz_2") 0 ≠
        npos := by decide!
    have hs : layer3BufferSize expLengthJson = .ok 1 := by decide!
    have hm : le32 expLengthContainer 0 = 0x46546C67 := by decide!
    rw [layer3_of_content fs u spzPath glbPath expLengthContainer hglb (by decide!),
      hread fs spzPath source hsrc, hj]
    unfold layer3Checks
    simp [hm, hf, hs, bind, Except.bind, pure, Except.pure]
  · intro fs spzPath glbPath source c s1 spaces s2 d n hsrc hglb hjson hno hspaces hd hn
    have h20 : 20 ≤ c.length := by
      apply container_of_jsonText
      intro hnil
      have hl := congrArg List.length hjson
      rw [hnil, byteLengthKey_eq] at hl
      simp only [List.length_append, List.length_cons, List.length_nil] at hl
      omega
    have hs := bufferSize_declared (glbJsonText c) s1 spaces s2 d n hjson hno hspaces hd hn
      (h64 c)
    rw [layer3_of_content fs u spzPath glbPath c hglb h20, hread fs spzPath source hsrc]
    by_cases hm : le32 c 0 = 0x46546C67
    · by_cases hf : find (glbJsonText c)
          (ascii "KHR_gaussian_splatting_compression_spz_2") 0 = npos
      · have hne : ¬ ascii "KHR_gaussian_splatting_compression_spz_2" <:+: glbJsonText c := by
          rw [← find_ne_npos_iff _ _ (glbJsonText_length_lt c)]
          exact fun h => h hf
        unfold layer3Checks
        simp [hm, hf, hne, pure, Except.pure]
      · have hyes := (find_ne_npos_iff _ _ (glbJsonText_length_lt c)).mp hf
        unfold layer3Checks
        simp only [hm, hf, hs, hyes, bind, Except.bind, pure, Except.pure, ne_eq,
          not_true_eq_false, if_false, Except.ok.injEq, decide_eq_true_eq, true_and]
        exact eq_comm
    · simp [hm]

/-! ## Theorems: the exit status when a layer raises -/

/-- Claim C17, evaluated on the code: the exit status is not always 0 or 1. On a container
whose `"byteLength"` value is `null`, `layer2`, `layer3`, `all` and `verify` return no
status at all: `std::stoul` raises `std::invalid_argument`, nothing in `main` catches it,
and the exception ends the process; thus `all model.spz null.glb` does not return 1
although Layer 1 has completed with failure. -/
theorem main_raises_on_unparsable_byteLength (u : Uninit) :
    (∀ (fs : FileSystem) (prog spzPath glbPath : String) (rest : List String),
      fs glbPath = some nullLengthContainer →
        layer1ValidateGlbStructure fs u glbPath = .ok false ∧
        SpzVerify.main fs u (prog :: "layer2" :: spzPath :: glbPath :: rest) =
          .error Thrown.invalid_argument ∧
        SpzVerify.main fs u (prog :: "layer3" :: spzPath :: glbPath :: rest) =
          .error Thrown.invalid_argument ∧
        SpzVerify.main fs u (prog :: "all" :: spzPath :: glbPath :: rest) =
          .error Thrown.invalid_argument ∧
        SpzVerify.main fs u (prog :: "verify" :: spzPath :: glbPath :: rest) =
          .error Thrown.invalid_argument) ∧
    SpzVerify.main verifierFiles u ["spz_verify", "all", "model.spz", "null.glb"] =
      .error Thrown.invalid_argument := by
  have general : ∀ (fs : FileSystem) (prog spzPath glbPath : String) (rest : List String),
      fs glbPath = some nullLengthContainer →
        layer1ValidateGlbStructure fs u glbPath = .ok false ∧
        SpzVerify.main fs u (prog :: "layer2" :: spzPath :: glbPath :: rest) =
          .error Thrown.invalid_argument ∧
        SpzVerify.main fs u (prog :: "layer3" :: spzPath :: glbPath :: rest) =
          .error Thrown.invalid_argument ∧
        SpzVerify.main fs u (prog :: "all" :: spzPath :: glbPath :: rest) =
          .error Thrown.invalid_argument ∧
        SpzVerify.main fs u (prog :: "verify" :: spzPath :: glbPath :: rest) =
          .error Thrown.invalid_argument := by
    intro fs prog spzPath glbPath rest hglb
    have h1 := layer1_false fs u glbPath
    have h2 : layer2VerifyLossless fs u spzPath glbPath = .error Thrown.invalid_argument :=
      layer2_throws fs u spzPath glbPath nullLengthContainer _ hglb (by decide!) (by decide!)
    have h3 : layer3VerifyDecoding fs u spzPath glbPath = .error Thrown.invalid_argument :=
      layer3_throws fs u spzPath glbPath nullLengthContainer _ hglb (by decide!) (by decide!)
        (by decide!) (by decide!)
    refine ⟨h1, ?_, ?_, ?_, ?_⟩
    · rw [main_layer2, h2]
      rfl
    · rw [main_layer3, h3]
      rfl
    · exact (main_all_throws fs u prog "all" spzPath glbPath rest (Or.inl rfl)
        Thrown.invalid_argument).2.1 false h1 h2
    · exact (main_all_throws fs u prog "verify" spzPath glbPath rest (Or.inr rfl)
        Thrown.invalid_argument).2.1 false h1 h2
  exact ⟨general, (general verifierFiles "spz_verify" "model.spz" "null.glb" []
    (by decide)).2.2.2.1⟩

end Spz2Glb
